import Mathlib

/-!
HarfBuzz shaper core (harfbuzz-shaper.cpp).

A shallow embedding of the line break scanner `calcLineBreaks`, of the
heuristic glyph attribute assignment `HB_HeuristicSetGlyphAttributes`, and of
the shaping pipeline (`HB_ShapeItem`, `HB_BasicShape`, `HB_SelectScript`,
`HB_OpenTypeShape`, `HB_OpenTypePosition`, `HB_GetCharAttributes`), followed
by theorems about them.

Conventions of the embedding:
* UTF-16 code units and UCS-4 code points are natural numbers;
* a C array reached through a pointer is a total map `Nat → α` (the caller
  owns the memory, every index the code touches is recorded by the update
  functions below); the text itself is a `List` whose length is `len`;
* loop counters are natural numbers (the C `int` counters do not overflow
  for texts shorter than 2^31 code units);
* external Unicode property functions (`HB_GetLineBreakClass`,
  `HB_GetUnicodeCharProperties`, `HB_IsControlChar`) are parameters; for the
  pipeline all functions of other files are the fields of `Collaborators`;
* glyph counts are natural numbers (the C `int` copies of them do not
  overflow below 2^31 glyphs), advances and offsets are exact integers.
-/

namespace HarfBuzz

/-- A UTF-16 code unit. -/
abbrev HB_UChar16 := Nat

/-- A UCS-4 code point. -/
abbrev HB_UChar32 := Nat

/-! ## Line break classes -/

/-- Modelled from the spec: the enum `HB_LineBreakClass` is declared in
harfbuzz-shaper.h, which is not part of the sources at hand. The 26 table
classes are numbered in the order of the column header of `breakTable`,
followed by the classes the table does not treat, in the order the
comparisons of `calcLineBreaks` rely on (SA, SG, SP, CR, LF, BK). -/
def HB_LineBreak_OP : Nat := 0
/-- Modelled from the spec: see `HB_LineBreak_OP`. -/
def HB_LineBreak_CL : Nat := 1
/-- Modelled from the spec: see `HB_LineBreak_OP`. -/
def HB_LineBreak_QU : Nat := 2
/-- Modelled from the spec: see `HB_LineBreak_OP`. -/
def HB_LineBreak_GL : Nat := 3
/-- Modelled from the spec: see `HB_LineBreak_OP`. -/
def HB_LineBreak_NS : Nat := 4
/-- Modelled from the spec: see `HB_LineBreak_OP`. -/
def HB_LineBreak_EX : Nat := 5
/-- Modelled from the spec: see `HB_LineBreak_OP`. -/
def HB_LineBreak_SY : Nat := 6
/-- Modelled from the spec: see `HB_LineBreak_OP`. -/
def HB_LineBreak_IS : Nat := 7
/-- Modelled from the spec: see `HB_LineBreak_OP`. -/
def HB_LineBreak_PR : Nat := 8
/-- Modelled from the spec: see `HB_LineBreak_OP`. -/
def HB_LineBreak_PO : Nat := 9
/-- Modelled from the spec: see `HB_LineBreak_OP`. -/
def HB_LineBreak_NU : Nat := 10
/-- Modelled from the spec: see `HB_LineBreak_OP`. -/
def HB_LineBreak_AL : Nat := 11
/-- Modelled from the spec: see `HB_LineBreak_OP`. -/
def HB_LineBreak_ID : Nat := 12
/-- Modelled from the spec: see `HB_LineBreak_OP`. -/
def HB_LineBreak_IN : Nat := 13
/-- Modelled from the spec: see `HB_LineBreak_OP`. -/
def HB_LineBreak_HY : Nat := 14
/-- Modelled from the spec: see `HB_LineBreak_OP`. -/
def HB_LineBreak_BA : Nat := 15
/-- Modelled from the spec: see `HB_LineBreak_OP`. -/
def HB_LineBreak_BB : Nat := 16
/-- Modelled from the spec: see `HB_LineBreak_OP`. -/
def HB_LineBreak_B2 : Nat := 17
/-- Modelled from the spec: see `HB_LineBreak_OP`. -/
def HB_LineBreak_ZW : Nat := 18
/-- Modelled from the spec: see `HB_LineBreak_OP`. -/
def HB_LineBreak_CM : Nat := 19
/-- Modelled from the spec: see `HB_LineBreak_OP`. -/
def HB_LineBreak_WJ : Nat := 20
/-- Modelled from the spec: see `HB_LineBreak_OP`. -/
def HB_LineBreak_H2 : Nat := 21
/-- Modelled from the spec: see `HB_LineBreak_OP`. -/
def HB_LineBreak_H3 : Nat := 22
/-- Modelled from the spec: see `HB_LineBreak_OP`. -/
def HB_LineBreak_JL : Nat := 23
/-- Modelled from the spec: see `HB_LineBreak_OP`. -/
def HB_LineBreak_JV : Nat := 24
/-- Modelled from the spec: see `HB_LineBreak_OP`. -/
def HB_LineBreak_JT : Nat := 25
/-- Modelled from the spec: see `HB_LineBreak_OP`. -/
def HB_LineBreak_SA : Nat := 26
/-- Modelled from the spec: see `HB_LineBreak_OP`. -/
def HB_LineBreak_SG : Nat := 27
/-- Modelled from the spec: see `HB_LineBreak_OP`. -/
def HB_LineBreak_SP : Nat := 28
/-- Modelled from the spec: see `HB_LineBreak_OP`. -/
def HB_LineBreak_CR : Nat := 29
/-- Modelled from the spec: see `HB_LineBreak_OP`. -/
def HB_LineBreak_LF : Nat := 30
/-- Modelled from the spec: see `HB_LineBreak_OP`. -/
def HB_LineBreak_BK : Nat := 31

/-- Modelled from the spec: the enum `HB_LineBreakType` of harfbuzz-shaper.h
(absent), `enum{NoBreak, SoftHyphen, Break, ForcedBreak}` in the data model. -/
inductive HB_LineBreakType where
  | HB_NoBreak
  | HB_SoftHyphen
  | HB_Break
  | HB_ForcedBreak
  deriving DecidableEq, Repr

/-- Modelled from the spec: the struct `HB_CharAttributes` of harfbuzz-shaper.h
(absent), with the three fields the data model lists. -/
structure HB_CharAttributes where
  lineBreakType : HB_LineBreakType
  whiteSpace : Bool
  charStop : Bool
  deriving DecidableEq, Repr

/-- Modelled from the spec: the macro `HB_IsHighSurrogate` of the absent header;
a high (leading) surrogate is a code unit in D800..DBFF. -/
def HB_IsHighSurrogate (ucs : HB_UChar16) : Bool :=
  decide (0xd800 ≤ ucs ∧ ucs ≤ 0xdbff)

/-- Modelled from the spec: the macro `HB_IsLowSurrogate` of the absent header;
a low (trailing) surrogate is a code unit in DC00..DFFF. -/
def HB_IsLowSurrogate (ucs : HB_UChar16) : Bool :=
  decide (0xdc00 ≤ ucs ∧ ucs ≤ 0xdfff)

/-- Modelled from the spec: the macro `HB_SurrogateToUcs4` of the absent header;
the code point encoded by a surrogate pair (the combined code point). -/
def HB_SurrogateToUcs4 (high low : HB_UChar16) : HB_UChar32 :=
  0x10000 + (high - 0xd800) * 0x400 + (low - 0xdc00)

/-! ## The pair table (source lines 48-96) -/

/-- The enum `break_class` (source lines 48-55). -/
inductive break_class where
  | ProhibitedBreak
  | DirectBreak
  | IndirectBreak
  | CombiningIndirectBreak
  | CombiningProhibitedBreak
  deriving DecidableEq, Repr

/-- The define `DB` (line 56). -/
abbrev DB : break_class := break_class.DirectBreak
/-- The define `IB` (line 57). -/
abbrev IB : break_class := break_class.IndirectBreak
/-- The define `CI` (line 58). -/
abbrev CI : break_class := break_class.CombiningIndirectBreak
/-- The define `CP` (line 59). -/
abbrev CP : break_class := break_class.CombiningProhibitedBreak
/-- The define `PB` (line 60). -/
abbrev PB : break_class := break_class.ProhibitedBreak

/-- The table `breakTable` (source lines 62-91), row = class before,
column = class after. -/
def breakTable : List (List break_class) :=
/-          OP  CL  QU  GL  NS  EX  SY  IS  PR  PO  NU  AL  ID  IN  HY  BA  BB  B2  ZW  CM  WJ  H2  H3  JL  JV  JT -/
/- OP -/ [[ PB, PB, PB, PB, PB, PB, PB, PB, PB, PB, PB, PB, PB, PB, PB, PB, PB, PB, PB, CP, PB, PB, PB, PB, PB, PB ],
/- CL -/  [ DB, PB, IB, IB, PB, PB, PB, PB, IB, IB, IB, IB, DB, DB, IB, IB, DB, DB, PB, CI, PB, DB, DB, DB, DB, DB ],
/- QU -/  [ PB, PB, IB, IB, IB, PB, PB, PB, IB, IB, IB, IB, IB, IB, IB, IB, IB, IB, PB, CI, PB, IB, IB, IB, IB, IB ],
/- GL -/  [ IB, PB, IB, IB, IB, PB, PB, PB, IB, IB, IB, IB, IB, IB, IB, IB, IB, IB, PB, CI, PB, IB, IB, IB, IB, IB ],
/- NS -/  [ DB, PB, IB, IB, IB, PB, PB, PB, DB, DB, DB, DB, DB, DB, IB, IB, DB, DB, PB, CI, PB, DB, DB, DB, DB, DB ],
/- EX -/  [ DB, PB, IB, IB, IB, PB, PB, PB, DB, IB, DB, IB, DB, DB, IB, IB, DB, DB, PB, CI, PB, DB, DB, DB, DB, DB ],
/- SY -/  [ IB, PB, IB, IB, IB, PB, PB, PB, IB, IB, IB, IB, DB, DB, IB, IB, DB, DB, PB, CI, PB, DB, DB, DB, DB, DB ],
/- IS -/  [ DB, PB, IB, IB, IB, PB, PB, PB, DB, DB, IB, IB, DB, DB, IB, IB, DB, DB, PB, CI, PB, DB, DB, DB, DB, DB ],
/- PR -/  [ IB, PB, IB, IB, IB, PB, PB, PB, IB, IB, IB, IB, IB, DB, IB, IB, DB, DB, PB, CI, PB, IB, IB, IB, IB, IB ],
/- PO -/  [ IB, PB, IB, IB, IB, PB, PB, PB, IB, IB, IB, IB, DB, DB, IB, IB, DB, DB, PB, CI, PB, DB, DB, DB, DB, DB ],
/- NU -/  [ IB, PB, IB, IB, IB, IB, PB, PB, IB, IB, IB, IB, DB, IB, IB, IB, DB, DB, PB, CI, PB, DB, DB, DB, DB, DB ],
/- AL -/  [ IB, PB, IB, IB, IB, PB, PB, PB, IB, IB, IB, IB, DB, IB, IB, IB, DB, DB, PB, CI, PB, DB, DB, DB, DB, DB ],
/- ID -/  [ DB, PB, IB, IB, IB, PB, PB, PB, DB, IB, DB, DB, DB, IB, IB, IB, DB, DB, PB, CI, PB, DB, DB, DB, DB, DB ],
/- IN -/  [ DB, PB, IB, IB, IB, PB, PB, PB, DB, DB, DB, DB, DB, IB, IB, IB, DB, DB, PB, CI, PB, DB, DB, DB, DB, DB ],
/- HY -/  [ IB, PB, IB, IB, IB, PB, PB, PB, IB, IB, IB, DB, DB, DB, IB, IB, DB, DB, PB, CI, PB, DB, DB, DB, DB, DB ],
/- BA -/  [ DB, PB, IB, IB, IB, PB, PB, PB, DB, DB, DB, DB, DB, DB, IB, IB, DB, DB, PB, CI, PB, DB, DB, DB, DB, DB ],
/- BB -/  [ IB, PB, IB, IB, IB, PB, PB, PB, IB, IB, IB, IB, IB, IB, IB, IB, IB, IB, PB, CI, PB, IB, IB, IB, IB, IB ],
/- B2 -/  [ DB, PB, IB, IB, IB, PB, PB, PB, DB, DB, DB, DB, DB, DB, IB, IB, DB, PB, PB, CI, PB, DB, DB, DB, DB, DB ],
/- ZW -/  [ DB, DB, DB, DB, DB, DB, DB, DB, DB, DB, DB, DB, DB, DB, DB, DB, DB, DB, PB, DB, DB, DB, DB, DB, DB, DB ],
/- CM -/  [ DB, PB, IB, IB, IB, PB, PB, PB, DB, DB, IB, IB, DB, IB, IB, IB, DB, DB, PB, CI, PB, DB, DB, DB, DB, DB ],
/- WJ -/  [ IB, PB, IB, IB, IB, PB, PB, PB, IB, IB, IB, IB, IB, IB, IB, IB, IB, IB, PB, CI, PB, IB, IB, IB, IB, IB ],
/- H2 -/  [ DB, PB, IB, IB, IB, PB, PB, PB, DB, IB, DB, DB, DB, IB, IB, IB, DB, DB, PB, CI, PB, DB, DB, DB, IB, IB ],
/- H3 -/  [ DB, PB, IB, IB, IB, PB, PB, PB, DB, IB, DB, DB, DB, IB, IB, IB, DB, DB, PB, CI, PB, DB, DB, DB, DB, IB ],
/- JL -/  [ DB, PB, IB, IB, IB, PB, PB, PB, DB, IB, DB, DB, DB, IB, IB, IB, DB, DB, PB, CI, PB, IB, IB, IB, IB, DB ],
/- JV -/  [ DB, PB, IB, IB, IB, PB, PB, PB, DB, IB, DB, DB, DB, IB, IB, IB, DB, DB, PB, CI, PB, DB, DB, DB, IB, IB ],
/- JT -/  [ DB, PB, IB, IB, IB, PB, PB, PB, DB, IB, DB, DB, DB, IB, IB, IB, DB, DB, PB, CI, PB, DB, DB, DB, DB, IB ]]

/-- The array access `breakTable[r][c]`. The scanner only uses indices up to
`HB_LineBreak_JT`; outside the table the lookup yields `ProhibitedBreak`. -/
def breakTableAt (r c : Nat) : break_class :=
  (breakTable.getD r []).getD c break_class.ProhibitedBreak

/-! ## The scanner `calcLineBreaks` (source lines 99-198) -/

/-- The store `charAttributes[i].lineBreakType = t`. -/
def setLineBreakType (a : Nat → HB_CharAttributes) (i : Nat) (t : HB_LineBreakType) :
    Nat → HB_CharAttributes :=
  fun j => if j = i then { a j with lineBreakType := t } else a j

/-- The store `charAttributes[i].whiteSpace = b`. -/
def setWhiteSpace (a : Nat → HB_CharAttributes) (i : Nat) (b : Bool) :
    Nat → HB_CharAttributes :=
  fun j => if j = i then { a j with whiteSpace := b } else a j

/-- The store `charAttributes[i].charStop = b`. -/
def setCharStop (a : Nat → HB_CharAttributes) (i : Nat) (b : Bool) :
    Nat → HB_CharAttributes :=
  fun j => if j = i then { a j with charStop := b } else a j

/-- The local variables `cls`, `lcls` of `calcLineBreaks` together with the
output buffer. -/
structure ScanState where
  cls : Nat
  lcls : Nat
  charAttributes : Nat → HB_CharAttributes

/-- Lines 118-130 of the loop body: the class `ncls` of `uc[i]` after the
surrogate handling, with the flag telling that line 126 cleared `charStop`.
`none` is the `continue` of line 122. -/
def surrogateClass (HB_GetLineBreakClass : HB_UChar32 → Nat) (uc : List HB_UChar16)
    (i : Nat) : Option (Nat × Bool) :=
  let ncls := HB_GetLineBreakClass (uc.getD i 0)
  if ncls = HB_LineBreak_SG then
    if HB_IsHighSurrogate (uc.getD i 0) = true ∧ i < uc.length - 1
        ∧ HB_IsLowSurrogate (uc.getD (i + 1) 0) = true then
      none
    else if HB_IsLowSurrogate (uc.getD i 0) = true
        ∧ HB_IsHighSurrogate (uc.getD (i - 1) 0) = true then
      some (HB_GetLineBreakClass (HB_SurrogateToUcs4 (uc.getD (i - 1) 0) (uc.getD i 0)), true)
    else
      some (HB_LineBreak_AL, false)
  else
    some (ncls, false)

/-- What lines 138-194 decide for one pair: the `lineBreakType` stored at
`i-1`, the value of `cls` when the iteration ends, and whether line 177
(`charAttributes[i-2].lineBreakType = HB_Break`) was executed. -/
structure PairOutcome where
  lineBreakType : HB_LineBreakType
  cls : Nat
  retroBreak : Bool
  deriving DecidableEq, Repr

/-- The value `lineBreakType` holds after lines 138-143. -/
def forcedBreakType (cls ncls : Nat) : HB_LineBreakType :=
  if cls ≥ HB_LineBreak_LF then HB_LineBreakType.HB_ForcedBreak
  else if cls = HB_LineBreak_CR then
    (if ncls = HB_LineBreak_LF then HB_LineBreakType.HB_NoBreak
     else HB_LineBreakType.HB_ForcedBreak)
  else HB_LineBreakType.HB_NoBreak

/-- The clamp of lines 158-161: a class at or beyond SA is looked up as ID. -/
def clampClass (c : Nat) : Nat :=
  if c ≥ HB_LineBreak_SA then HB_LineBreak_ID else c

/-- Lines 138-194 of the loop body, for current class `cls`, last class
`lcls`, next class `ncls`, previous code unit `prev = uc[i-1]` and index `i`.
The three exits are `goto next_no_cls_update` (cls kept), `goto next` and
falling out of the switch (cls becomes ncls). -/
def classifyPair (cls lcls ncls : Nat) (prev : HB_UChar16) (i : Nat) : PairOutcome :=
  let lineBreakType := forcedBreakType cls ncls
  if ncls = HB_LineBreak_SP then
    ⟨lineBreakType, cls, false⟩
  else if ncls ≥ HB_LineBreak_CR then
    ⟨lineBreakType, ncls, false⟩
  else if cls = HB_LineBreak_SA ∧ ncls = HB_LineBreak_SA then
    ⟨HB_LineBreakType.HB_Break, ncls, false⟩
  else
    let tcls := clampClass ncls
    let cls1 := clampClass cls
    match breakTableAt cls1 tcls with
    | break_class.DirectBreak =>
      ⟨if prev = 0xad then HB_LineBreakType.HB_SoftHyphen else HB_LineBreakType.HB_Break,
        ncls, false⟩
    | break_class.IndirectBreak =>
      ⟨if lcls = HB_LineBreak_SP then HB_LineBreakType.HB_Break
        else HB_LineBreakType.HB_NoBreak, ncls, false⟩
    | break_class.CombiningIndirectBreak =>
      if lcls = HB_LineBreak_SP then
        ⟨HB_LineBreakType.HB_NoBreak, ncls, decide (i > 1)⟩
      else
        ⟨HB_LineBreakType.HB_NoBreak, cls1, false⟩
    | break_class.CombiningProhibitedBreak =>
      if lcls ≠ HB_LineBreak_SP then
        ⟨HB_LineBreakType.HB_NoBreak, cls1, false⟩
      else
        ⟨HB_LineBreakType.HB_NoBreak, ncls, false⟩
    | break_class.ProhibitedBreak =>
      ⟨lineBreakType, ncls, false⟩

/-- One iteration of the loop of lines 114-196, for index `i`. -/
def scanStep (HB_GetLineBreakClass : HB_UChar32 → Nat) (uc : List HB_UChar16)
    (i : Nat) (st : ScanState) : ScanState :=
  let a1 := setCharStop (setWhiteSpace st.charAttributes i false) i true
  match surrogateClass HB_GetLineBreakClass uc i with
  | none => { st with charAttributes := a1 }
  | some (ncls, pairLow) =>
    let a2 := if pairLow = true then setCharStop a1 i false else a1
    let a3 := if ncls ≥ HB_LineBreak_SP then setWhiteSpace a2 i true else a2
    let a4 := if ncls = HB_LineBreak_CM then setCharStop a3 i false else a3
    let r := classifyPair st.cls st.lcls ncls (uc.getD (i - 1) 0) i
    let a5 := if r.retroBreak = true then
        setLineBreakType a4 (i - 2) HB_LineBreakType.HB_Break else a4
    { cls := r.cls, lcls := ncls,
      charAttributes := setLineBreakType a5 (i - 1) r.lineBreakType }

/-- Lines 105-113: the state on entry to the loop (for a non-empty text). -/
def scanInit (HB_GetLineBreakClass : HB_UChar32 → Nat) (uc : List HB_UChar16)
    (charAttributes : Nat → HB_CharAttributes) : ScanState :=
  let cls0 := HB_GetLineBreakClass (uc.getD 0 0)
  let cls := if cls0 = HB_LineBreak_LF then HB_LineBreak_BK else cls0
  { cls := cls, lcls := cls,
    charAttributes :=
      setCharStop
        (setWhiteSpace charAttributes 0
          (decide (cls = HB_LineBreak_SP ∨ cls = HB_LineBreak_BK))) 0 true }

/-- The state after the iterations `i = 1, ..., n` of the loop of line 114. -/
def scanUpTo (HB_GetLineBreakClass : HB_UChar32 → Nat) (uc : List HB_UChar16)
    (charAttributes : Nat → HB_CharAttributes) : Nat → ScanState
  | 0 => scanInit HB_GetLineBreakClass uc charAttributes
  | n + 1 =>
    scanStep HB_GetLineBreakClass uc (n + 1)
      (scanUpTo HB_GetLineBreakClass uc charAttributes n)

/-- The function `calcLineBreaks(uc, len, charAttributes)` with `len` the
length of the text: the loop runs for `i = 1, ..., len-1`, then line 197
forces a break at the last character. -/
def calcLineBreaks (HB_GetLineBreakClass : HB_UChar32 → Nat) (uc : List HB_UChar16)
    (charAttributes : Nat → HB_CharAttributes) : Nat → HB_CharAttributes :=
  if uc.length = 0 then charAttributes
  else
    setLineBreakType
      (scanUpTo HB_GetLineBreakClass uc charAttributes (uc.length - 1)).charAttributes
      (uc.length - 1) HB_LineBreakType.HB_ForcedBreak

/-! ## The heuristic glyph attributes (source lines 368-480) -/

/-- Modelled from the spec: the enum `HB_CharCategory` of the absent header is
a numeric code; only two of its values are named by the source. -/
def HB_Mark_NonSpacing : Nat := 1
/-- Modelled from the spec: see `HB_Mark_NonSpacing`. -/
def HB_Separator_Space : Nat := 7

/-- Modelled from the spec: values of the enum `HB_CombiningClass` of the
absent header (the Unicode combining classes above right, above, below). -/
def HB_Combining_AboveRight : Nat := 232
/-- Modelled from the spec: see `HB_Combining_AboveRight`. -/
def HB_Combining_Above : Nat := 230
/-- Modelled from the spec: see `HB_Combining_AboveRight`. -/
def HB_Combining_Below : Nat := 220

/-- Modelled from the spec: the justification classes of the data model,
`enum{NoJustification, Space, Character}`. -/
inductive HB_JustificationClass where
  | HB_NoJustification
  | HB_Space
  | HB_Character
  deriving DecidableEq, Repr

/-- Modelled from the spec: the struct `HB_GlyphAttributes` of the absent
header, with the five fields of the data model. -/
structure HB_GlyphAttributes where
  mark : Bool
  clusterStart : Bool
  dontPrint : Bool
  combiningClass : Nat
  justification : HB_JustificationClass
  deriving DecidableEq, Repr

/-- The store `logClusters[i] = v` into an array of `unsigned short`. -/
def setLogCluster (logClusters : Nat → Nat) (i v : Nat) : Nat → Nat :=
  fun j => if j = i then v % 65536 else logClusters j

/-- The store `attributes[i] = g`. -/
def setAttr (attributes : Nat → HB_GlyphAttributes) (i : Nat) (g : HB_GlyphAttributes) :
    Nat → HB_GlyphAttributes :=
  fun j => if j = i then g else attributes j

/-- The loop of lines 384-394 over the code units not yet visited (`i` is the
index of the head of the list): returns the cluster array and `glyph_pos`.
A high surrogate followed by a low surrogate takes one glyph position. -/
def clusterLoop : List HB_UChar16 → Nat → Nat → (Nat → Nat) → (Nat → Nat) × Nat
  | [], _, glyph_pos, logClusters => (logClusters, glyph_pos)
  | [_], i, glyph_pos, logClusters => (setLogCluster logClusters i glyph_pos, glyph_pos + 1)
  | u :: v :: rest, i, glyph_pos, logClusters =>
    if HB_IsHighSurrogate u = true ∧ HB_IsLowSurrogate v = true then
      clusterLoop rest (i + 2) (glyph_pos + 1)
        (setLogCluster (setLogCluster logClusters i glyph_pos) (i + 1) glyph_pos)
    else
      clusterLoop (v :: rest) (i + 1) (glyph_pos + 1) (setLogCluster logClusters i glyph_pos)

/-- The local variables of the second loop of `HB_HeuristicSetGlyphAttributes`
with the two output arrays. -/
structure AttrState where
  pos : Nat
  cStart : Nat
  lastCat : Nat
  attributes : Nat → HB_GlyphAttributes
  logClusters : Nat → Nat

/-- The inner loop of lines 413-416, `n` iterations starting at `pos`. -/
def fillAttributes (attributes : Nat → HB_GlyphAttributes) (pos : Nat) :
    Nat → (Nat → HB_GlyphAttributes)
  | 0 => attributes
  | n + 1 => fillAttributes (setAttr attributes pos (attributes (pos - 1))) (pos + 1) n

/-- Lines 429-456: the combining class after the fix of zero classes, for the
code unit `u = uc[pos]`. -/
def fixCombiningClass (u : HB_UChar16) (cmb : Nat) : Nat :=
  if cmb = 0 then
    if u &&& 0xff00 = 0x0e00 then
      if u = 0xe31 ∨ u = 0xe34 ∨ u = 0xe35 ∨ u = 0xe36 ∨ u = 0xe37 ∨ u = 0xe47
          ∨ u = 0xe4c ∨ u = 0xe4d ∨ u = 0xe4e then
        HB_Combining_AboveRight
      else if u = 0xeb1 ∨ u = 0xeb4 ∨ u = 0xeb5 ∨ u = 0xeb6 ∨ u = 0xeb7 ∨ u = 0xebb
          ∨ u = 0xecc ∨ u = 0xecd then
        HB_Combining_Above
      else if u = 0xebc then
        HB_Combining_Below
      else cmb
    else cmb
  else cmb

/-- One iteration of the loop of lines 408-474, for index `i`. -/
def attrStep (HB_GetUnicodeCharProperties : HB_UChar32 → Nat × Nat)
    (HB_IsControlChar : HB_UChar16 → Bool) (symbolFont : Bool) (uc : List HB_UChar16)
    (i : Nat) (st : AttrState) : AttrState :=
  if st.logClusters i = st.pos then st
  else
    let pos1 := st.pos + 1
    let a1 := fillAttributes st.attributes pos1 (st.logClusters i - pos1)
    let pos := max pos1 (st.logClusters i)
    let a2 :=
      if (symbolFont = false ∧ uc.getD i 0 = 0x00ad) ∨ HB_IsControlChar (uc.getD i 0) = true then
        setAttr a1 pos { a1 pos with dontPrint := true }
      else a1
    let cat := (HB_GetUnicodeCharProperties (uc.getD i 0)).1
    let cmb := (HB_GetUnicodeCharProperties (uc.getD i 0)).2
    let a3 :=
      if cat ≠ HB_Mark_NonSpacing then
        setAttr a2 pos { a2 pos with mark := false, clusterStart := true, combiningClass := 0 }
      else
        setAttr a2 pos { a2 pos with mark := true, clusterStart := false,
                                     combiningClass := fixCombiningClass (uc.getD pos 0) cmb }
    let just :=
      if st.lastCat = HB_Separator_Space then HB_JustificationClass.HB_Space
      else if cat ≠ HB_Mark_NonSpacing then HB_JustificationClass.HB_Character
      else HB_JustificationClass.HB_NoJustification
    { pos := pos,
      cStart := if cat ≠ HB_Mark_NonSpacing then st.logClusters i else st.cStart,
      lastCat := cat,
      attributes := setAttr a3 (pos - 1) { a3 (pos - 1) with justification := just },
      logClusters :=
        if cat ≠ HB_Mark_NonSpacing then st.logClusters
        else setLogCluster st.logClusters i st.cStart }

/-- Lines 398-407: the state on entry to the second loop. -/
def attrInit (HB_GetUnicodeCharProperties : HB_UChar32 → Nat × Nat)
    (HB_IsControlChar : HB_UChar16 → Bool) (symbolFont : Bool) (uc : List HB_UChar16)
    (attributes : Nat → HB_GlyphAttributes) (logClusters : Nat → Nat) : AttrState :=
  { pos := 0, cStart := 0,
    lastCat := (HB_GetUnicodeCharProperties (uc.getD 0 0)).1,
    attributes :=
      setAttr attributes 0
        { attributes 0 with
          mark := false, clusterStart := true,
          dontPrint := decide ((symbolFont = false ∧ uc.getD 0 0 = 0x00ad)
                               ∨ HB_IsControlChar (uc.getD 0 0) = true) },
    logClusters := logClusters }

/-- The state after the iterations `i = 1, ..., n` of the loop of line 408. -/
def attrUpTo (HB_GetUnicodeCharProperties : HB_UChar32 → Nat × Nat)
    (HB_IsControlChar : HB_UChar16 → Bool) (symbolFont : Bool) (uc : List HB_UChar16)
    (init : AttrState) : Nat → AttrState
  | 0 => init
  | n + 1 =>
    attrStep HB_GetUnicodeCharProperties HB_IsControlChar symbolFont uc (n + 1)
      (attrUpTo HB_GetUnicodeCharProperties HB_IsControlChar symbolFont uc init n)

/-- The two output arrays of `HB_HeuristicSetGlyphAttributes`. -/
structure GlyphOutput where
  attributes : Nat → HB_GlyphAttributes
  log_clusters : Nat → Nat

/-- The function `HB_HeuristicSetGlyphAttributes(item)`, for the run `uc`
(`item->string + item->item.pos`, of `item->item.length` code units),
`num_glyphs = item->num_glyphs` and `symbolFont = item->font->face.isSymbolFont`.
The result is `none` when one of the two assertions (lines 378, 395) fails.
The index `length - 1` of line 475 is computed in `uint32_t`. -/
def HB_HeuristicSetGlyphAttributes (HB_GetUnicodeCharProperties : HB_UChar32 → Nat × Nat)
    (HB_IsControlChar : HB_UChar16 → Bool) (symbolFont : Bool) (uc : List HB_UChar16)
    (num_glyphs : Nat) (attributes : Nat → HB_GlyphAttributes) (log_clusters : Nat → Nat) :
    Option GlyphOutput :=
  if num_glyphs ≤ uc.length then
    let lc := clusterLoop uc 0 0 log_clusters
    if lc.2 = num_glyphs then
      let st := attrUpTo HB_GetUnicodeCharProperties HB_IsControlChar symbolFont uc
        (attrInit HB_GetUnicodeCharProperties HB_IsControlChar symbolFont uc attributes lc.1)
        (uc.length - 1)
      let pos := st.logClusters (if uc.length = 0 then 4294967295 else uc.length - 1)
      let just :=
        if st.lastCat = HB_Separator_Space then HB_JustificationClass.HB_Space
        else HB_JustificationClass.HB_Character
      some { attributes := setAttr st.attributes pos { st.attributes pos with justification := just },
             log_clusters := st.logClusters }
    else none
  else none

/-- The number of valid pairs in a run: a high surrogate immediately followed
by a low surrogate. -/
def surrogatePairs : List HB_UChar16 → Nat
  | [] => 0
  | [_] => 0
  | u :: v :: rest =>
    (if HB_IsHighSurrogate u = true ∧ HB_IsLowSurrogate v = true then 1 else 0)
      + surrogatePairs (v :: rest)

end HarfBuzz

namespace HarfBuzz

/-! ## Reference definitions and sample data -/

/-- Reference characterisation of the scanner on plain text, written from the
words of the specification and not from the source: a Prohibited or Indirect
cell gives no break, a Direct cell gives a break, which is a soft hyphen
break when the character before it is U+00AD. -/
def plainTextBreak (cell : break_class) (prev : HB_UChar16) : HB_LineBreakType :=
  match cell with
  | break_class.DirectBreak =>
    if prev = 0xad then HB_LineBreakType.HB_SoftHyphen else HB_LineBreakType.HB_Break
  | _ => HB_LineBreakType.HB_NoBreak

/-- A small excerpt of the Unicode line break property, used to run the
scanner on concrete texts. -/
def sampleLineBreakClass (u : HB_UChar32) : Nat :=
  if u = 0x0a then HB_LineBreak_LF
  else if u = 0x0d then HB_LineBreak_CR
  else if u = 0x20 then HB_LineBreak_SP
  else if u = 0x21 then HB_LineBreak_EX
  else if u = 0x28 then HB_LineBreak_OP
  else if u = 0x29 then HB_LineBreak_CL
  else if 0x30 ≤ u ∧ u ≤ 0x39 then HB_LineBreak_NU
  else if u = 0xad then HB_LineBreak_BA
  else if u = 0x300 then HB_LineBreak_CM
  else if u = 0x2026 then HB_LineBreak_IN
  else if 0xd800 ≤ u ∧ u ≤ 0xdfff then HB_LineBreak_SG
  else HB_LineBreak_AL

/-- The cell read at line 163 for the pair (`cls`, `ncls`); `none` when one of
the jumps or the complex-script case of lines 145-154 ends the iteration
before the table is consulted. -/
def pairLookup (cls ncls : Nat) : Option break_class :=
  if ncls = HB_LineBreak_SP then none
  else if ncls ≥ HB_LineBreak_CR then none
  else if cls = HB_LineBreak_SA ∧ ncls = HB_LineBreak_SA then none
  else some (breakTableAt (clampClass cls) (clampClass ncls))

/-- The cell the scanner reads from the table in iteration `i` (line 163),
if that iteration gets there. -/
def lookupAt (HB_GetLineBreakClass : HB_UChar32 → Nat) (uc : List HB_UChar16)
    (charAttributes : Nat → HB_CharAttributes) (i : Nat) : Option break_class :=
  match surrogateClass HB_GetLineBreakClass uc i with
  | none => none
  | some (ncls, _) =>
    pairLookup (scanUpTo HB_GetLineBreakClass uc charAttributes (i - 1)).cls ncls

/-- A small excerpt of the Unicode general category and combining class
data: U+0300 is a nonspacing mark of class 230, U+0020 a space separator,
any other code unit (surrogates included) is not a mark. -/
def sampleCharProperties (u : HB_UChar32) : Nat × Nat :=
  if u = 0x300 then (HB_Mark_NonSpacing, 230)
  else if u = 0x20 then (HB_Separator_Space, 0)
  else (0, 0)

/-- Property data that, unlike the Unicode data, reports the category
nonspacing mark for the high surrogate U+D800 (and for U+0300). -/
def markedSurrogateProperties (u : HB_UChar32) : Nat × Nat :=
  if u = 0xd800 ∨ u = 0x300 then (HB_Mark_NonSpacing, 230) else (0, 0)

/-- A glyph attribute buffer filled with one value. -/
def constGlyphAttributes (b : Bool) : Nat → HB_GlyphAttributes :=
  fun _ => { mark := b, clusterStart := b, dontPrint := b, combiningClass := 0,
             justification := HB_JustificationClass.HB_NoJustification }

/-- An attribute buffer filled with one value. -/
def constAttributes (t : HB_LineBreakType) : Nat → HB_CharAttributes :=
  fun _ => { lineBreakType := t, whiteSpace := false, charStop := false }

end HarfBuzz

namespace HarfBuzz

/-! ## The shaper request, the face and the external collaborators -/

/-- Modelled from the spec: the struct `HB_FixedPoint` of the absent header, a
pair of fixed point coordinates (exact integers here). -/
structure HB_FixedPoint where
  x : Int
  y : Int
  deriving DecidableEq, Repr

/-- Modelled from the spec: the struct `HB_ScriptItem` of the absent header,
`{position, length, script id, bidi level}` in the data model. -/
structure HB_ScriptItem where
  pos : Nat
  length : Nat
  script : Nat
  bidiLevel : Nat
  deriving DecidableEq, Repr

/-- Modelled from the spec: the struct `HB_ShaperItem` of the absent header,
without the font pointer (the face it leads to is passed next to the item).
The output arrays are total maps, `num_glyphs` is their declared capacity on
entry and the glyph count on exit. -/
structure HB_ShaperItem where
  string : List HB_UChar16
  item : HB_ScriptItem
  shaperFlags : Nat
  num_glyphs : Nat
  glyphs : Nat → Nat
  attributes : Nat → HB_GlyphAttributes
  advances : Nat → Int
  offsets : Nat → HB_FixedPoint
  log_clusters : Nat → Nat
  kerning_applied : Bool

/-- Modelled from the spec: one entry of the glyph buffer (`in_string[i]` of
the absent harfbuzz-buffer.h): glyph index, properties and the cluster tag. -/
structure HB_GlyphItemRec where
  gindex : Nat
  properties : Nat
  cluster : Nat
  deriving DecidableEq, Repr

/-- Modelled from the spec: one entry of `buffer->positions` (absent
harfbuzz-buffer.h): `{x_advance, y_advance, x_pos, y_pos, back}` and the flag
`new_advance`. -/
structure HB_PositionRec where
  x_pos : Int
  y_pos : Int
  x_advance : Int
  y_advance : Int
  back : Nat
  new_advance : Bool
  deriving DecidableEq, Repr

/-- Modelled from the spec: the glyph buffer of the absent harfbuzz-buffer.h;
`in_length` is the length of `in_string`. -/
structure HB_BufferRec where
  in_string : List HB_GlyphItemRec
  positions : Nat → HB_PositionRec

/-- The field `in_length` of the buffer. -/
def HB_BufferRec.in_length (b : HB_BufferRec) : Nat := b.in_string.length

/-- Modelled from the spec: `hb_buffer_clear` of the absent harfbuzz-buffer.c
empties the glyph string. -/
def hb_buffer_clear (b : HB_BufferRec) : HB_BufferRec :=
  { b with in_string := [] }

/-- Modelled from the spec: `hb_buffer_add_glyph` of the absent
harfbuzz-buffer.c appends one glyph with its properties and cluster tag. -/
def hb_buffer_add_glyph (b : HB_BufferRec) (glyph properties cluster : Nat) : HB_BufferRec :=
  { b with in_string := b.in_string ++ [⟨glyph, properties, cluster⟩] }

/-- Modelled from the spec: the struct `HB_Face` of the absent header. The
table handles `gsub`, `gpos` are opaque (`none` when the table is absent);
`supported_scripts` has `HB_ScriptCount` entries. -/
structure HB_Face (GSUB GPOS : Type) where
  isSymbolFont : Bool
  gsub : Option GSUB
  gpos : Option GPOS
  supported_scripts : Nat → Bool
  current_script : Nat
  current_flags : Nat
  has_opentype_kerning : Bool
  glyphs_substituted : Bool
  buffer : HB_BufferRec
  tmpAttributes : Nat → HB_GlyphAttributes
  tmpLogClusters : Nat → Nat
  length : Nat

/-- Modelled from the spec: `HB_ScriptCount`, the number of entries of
`HB_ScriptEngines` and of `ot_scripts` (27). -/
def HB_ScriptCount : Nat := 27
/-- Modelled from the spec: script id of the first table entry. -/
def HB_Script_Common : Nat := 0
/-- Modelled from the spec: the script id `HB_Script_Inherited`, the first id
after the scripts of the table. -/
def HB_Script_Inherited : Nat := 27

/-- Modelled from the spec: shaper flags of the absent header (kerning off,
design metrics mode). -/
def HB_ShaperFlag_Default : Nat := 0
/-- Modelled from the spec: see `HB_ShaperFlag_Default`. -/
def HB_ShaperFlag_NoKerning : Nat := 1
/-- Modelled from the spec: see `HB_ShaperFlag_Default`. -/
def HB_ShaperFlag_UseDesignMetrics : Nat := 2

/-- Modelled from the spec: FreeType load flags handed to the positioning. -/
def FT_LOAD_DEFAULT : Nat := 0
/-- Modelled from the spec: see `FT_LOAD_DEFAULT`. -/
def FT_LOAD_NO_HINTING : Nat := 2

/-- Modelled from the spec: the macro `FT_MAKE_TAG` of FreeType, four bytes
packed into one tag. -/
def FT_MAKE_TAG (a b c d : Char) : Nat :=
  a.toNat * 16777216 + b.toNat * 65536 + c.toNat * 256 + d.toNat

/-- The result of a shape operation: `none` when the call does not return
(failed assertion, index outside an array), else the returned flag with the
item and the face as the call leaves them. -/
abbrev ShapeResult (GSUB GPOS : Type) := Option (Bool × HB_ShaperItem × HB_Face GSUB GPOS)

/-- An attribute function `HB_AttributeFunction(script, string, from, len, attributes)`. -/
abbrev HB_AttributeFunction :=
  Nat → List HB_UChar16 → Nat → Nat → (Nat → HB_CharAttributes) → (Nat → HB_CharAttributes)

/-- The functions and constants this file uses and does not define: the
GSUB/GPOS table provider, the glyph index resolver, the advance provider,
the script specific shapers and attribute functions, and constants of
absent headers. Error codes are numbers, 0 is success. -/
structure Collaborators (GSUB GPOS : Type) where
  HB_Err_Not_Covered : Nat
  CcmpProperty : Nat
  PositioningProperties : Nat
  HB_GSUB_Clear_Features : GSUB → GSUB
  HB_GSUB_Select_Script : GSUB → Nat → Nat × Nat
  HB_GSUB_Select_Feature : GSUB → Nat → Nat → Nat → Nat × Nat
  HB_GSUB_Add_Feature : GSUB → Nat → Nat → GSUB
  HB_GSUB_Apply_String : GSUB → HB_BufferRec → Nat × HB_BufferRec
  HB_GPOS_Clear_Features : GPOS → GPOS
  HB_GPOS_Select_Script : GPOS → Nat → Nat × Nat
  HB_GPOS_Query_Features : GPOS → Nat → Nat → Nat × List Nat
  HB_GPOS_Select_Feature : GPOS → Nat → Nat → Nat → Nat × Nat
  HB_GPOS_Add_Feature : GPOS → Nat → Nat → GPOS
  HB_GPOS_Apply_String : GPOS → Nat → HB_BufferRec → Nat × HB_BufferRec
  HB_StringToGlyphs : HB_ShaperItem → Bool × HB_ShaperItem
  HB_GetAdvances : HB_ShaperItem → Nat → Int
  HB_GetLineBreakClass : HB_UChar32 → Nat
  HB_GetUnicodeCharProperties : HB_UChar32 → Nat × Nat
  HB_IsControlChar : HB_UChar16 → Bool
  HB_HebrewShape : HB_ShaperItem → HB_Face GSUB GPOS → ShapeResult GSUB GPOS
  HB_ArabicShape : HB_ShaperItem → HB_Face GSUB GPOS → ShapeResult GSUB GPOS
  indic_shape : HB_ShaperItem → HB_Face GSUB GPOS → ShapeResult GSUB GPOS
  HB_TibetanShape : HB_ShaperItem → HB_Face GSUB GPOS → ShapeResult GSUB GPOS
  HB_MyanmarShape : HB_ShaperItem → HB_Face GSUB GPOS → ShapeResult GSUB GPOS
  HB_HangulShape : HB_ShaperItem → HB_Face GSUB GPOS → ShapeResult GSUB GPOS
  HB_KhmerShape : HB_ShaperItem → HB_Face GSUB GPOS → ShapeResult GSUB GPOS
  HB_IndicAttributes : HB_AttributeFunction
  HB_TibetanAttributes : HB_AttributeFunction
  HB_MyanmarAttributes : HB_AttributeFunction
  HB_KhmerAttributes : HB_AttributeFunction

/-! ## The heuristic glyph attributes on a request -/

/-- The function `HB_HeuristicSetGlyphAttributes` with the run given the way
the C function receives it: `uc` is the string from `item->item.pos` on (the
pointer `item->string + item->item.pos`) and `length` is `item->item.length`.
Reads of `uc[i]` go to the string also when `i` is not below `length`. -/
def heuristicSetGlyphAttributesAt (HB_GetUnicodeCharProperties : HB_UChar32 → Nat × Nat)
    (HB_IsControlChar : HB_UChar16 → Bool) (symbolFont : Bool) (uc : List HB_UChar16)
    (length num_glyphs : Nat) (attributes : Nat → HB_GlyphAttributes)
    (log_clusters : Nat → Nat) : Option GlyphOutput :=
  if num_glyphs ≤ length then
    let lc := clusterLoop (uc.take length) 0 0 log_clusters
    if lc.2 = num_glyphs then
      let st := attrUpTo HB_GetUnicodeCharProperties HB_IsControlChar symbolFont uc
        (attrInit HB_GetUnicodeCharProperties HB_IsControlChar symbolFont uc attributes lc.1)
        (length - 1)
      let pos := st.logClusters (if length = 0 then 4294967295 else length - 1)
      let just :=
        if st.lastCat = HB_Separator_Space then HB_JustificationClass.HB_Space
        else HB_JustificationClass.HB_Character
      some { attributes := setAttr st.attributes pos { st.attributes pos with justification := just },
             log_clusters := st.logClusters }
    else none
  else none

/-- The call `HB_HeuristicSetGlyphAttributes(item)` on a request. -/
def heuristicSetGlyphAttributesItem {GSUB GPOS : Type} (ext : Collaborators GSUB GPOS)
    (item : HB_ShaperItem) (face : HB_Face GSUB GPOS) : Option HB_ShaperItem :=
  (heuristicSetGlyphAttributesAt ext.HB_GetUnicodeCharProperties ext.HB_IsControlChar
      face.isSymbolFont (item.string.drop item.item.pos) item.item.length item.num_glyphs
      item.attributes item.log_clusters).map
    (fun r => { item with attributes := r.attributes, log_clusters := r.log_clusters })

/-! ## The heuristic positioner (source lines 206-366) -/

/-- The function `positionCluster`: its body is compiled out (`#if 0`), the
call changes nothing. -/
def positionCluster (item : HB_ShaperItem) (_gfrom _glast : Nat) : HB_ShaperItem := item

/-- The loop `while (i--)` of `HB_HeuristicPosition` with `i` glyphs left;
`cEnd` is `none` for -1. -/
def heuristicPositionLoop : Nat → Option Nat → HB_ShaperItem → HB_ShaperItem
  | 0, _, item => item
  | i + 1, cEnd, item =>
    if cEnd = none ∧ (item.attributes i).mark = true then
      heuristicPositionLoop i (some i) item
    else if cEnd ≠ none ∧ (item.attributes i).mark = false then
      heuristicPositionLoop i none (positionCluster item i (cEnd.getD 0))
    else
      heuristicPositionLoop i cEnd item

/-- The function `HB_HeuristicPosition(item)`: `HB_GetAdvances` stores the
advances, then the clusters are positioned. -/
def HB_HeuristicPosition {GSUB GPOS : Type} (ext : Collaborators GSUB GPOS)
    (item : HB_ShaperItem) : HB_ShaperItem :=
  let item1 := { item with advances := ext.HB_GetAdvances item }
  heuristicPositionLoop item1.num_glyphs none item1

/-! ## OpenType shaping (source lines 880-928) -/

/-- The loop of lines 891-895: the buffer after `hb_buffer_add_glyph` for the
glyphs `0, ..., n-1`, each tagged with its own index as cluster. -/
def addGlyphsUpTo (item : HB_ShaperItem) (properties : Option (Nat → Nat))
    (b : HB_BufferRec) : Nat → HB_BufferRec
  | 0 => b
  | n + 1 =>
    hb_buffer_add_glyph (addGlyphsUpTo item properties b n) (item.glyphs n)
      (match properties with
       | some p => p n
       | none => 0) n

/-- The function `HB_OpenTypeShape(item, properties)`: the returned flag and
the face as the call leaves it (the item is only read). -/
def HB_OpenTypeShape {GSUB GPOS : Type} (ext : Collaborators GSUB GPOS)
    (item : HB_ShaperItem) (face : HB_Face GSUB GPOS) (properties : Option (Nat → Nat)) :
    Bool × HB_Face GSUB GPOS :=
  let length := item.num_glyphs
  let face1 : HB_Face GSUB GPOS :=
    { face with
      length := length,
      buffer := addGlyphsUpTo item properties (hb_buffer_clear face.buffer) length,
      tmpAttributes := fun i => if i < length then item.attributes i else face.tmpAttributes i,
      tmpLogClusters := fun i => if i < length then item.log_clusters i else face.tmpLogClusters i,
      glyphs_substituted := false }
  match face1.gsub with
  | some gsub =>
    let r := ext.HB_GSUB_Apply_String gsub face1.buffer
    if r.1 ≠ 0 ∧ r.1 ≠ ext.HB_Err_Not_Covered then
      (false, { face1 with buffer := r.2 })
    else
      (true, { face1 with buffer := r.2,
                          glyphs_substituted := decide (r.1 ≠ ext.HB_Err_Not_Covered) })
  | none => (true, face1)

/-! ## OpenType positioning (source lines 930-1052) -/

/-- The all-zero position record (the `memset` of line 936). -/
def zeroPosition : HB_PositionRec :=
  { x_pos := 0, y_pos := 0, x_advance := 0, y_advance := 0, back := 0, new_advance := false }

/-- Lines 934-940: the flag `glyphs_positioned` and the face after the
positioning table was applied to the buffer. -/
def applyPositioning {GSUB GPOS : Type} (ext : Collaborators GSUB GPOS)
    (face : HB_Face GSUB GPOS) : Bool × HB_Face GSUB GPOS :=
  match face.gpos with
  | some gpos =>
    let cleared : HB_BufferRec :=
      { face.buffer with
        positions := fun i => if i < face.buffer.in_length then zeroPosition
                              else face.buffer.positions i }
    let loadFlags :=
      if face.current_flags &&& HB_ShaperFlag_UseDesignMetrics ≠ 0 then FT_LOAD_NO_HINTING
      else FT_LOAD_DEFAULT
    let r := ext.HB_GPOS_Apply_String gpos loadFlags cleared
    (decide (r.1 ≠ ext.HB_Err_Not_Covered), { face with buffer := r.2 })
  | none => (false, face)

/-- The buffer entry `in_string[i]`. -/
def glyphAt (b : HB_BufferRec) (i : Nat) : HB_GlyphItemRec :=
  b.in_string.getD i ⟨0, 0, 0⟩

/-- The loop of lines 954-959 after the iterations `0, ..., n-1`: glyph ids
and attributes are written back from the buffer and the snapshot. -/
def writeBackUpTo {GSUB GPOS : Type} (face : HB_Face GSUB GPOS) (item : HB_ShaperItem) :
    Nat → HB_ShaperItem
  | 0 => item
  | n + 1 =>
    let it := writeBackUpTo face item n
    let a := face.tmpAttributes (glyphAt face.buffer n).cluster
    let a1 :=
      if n ≠ 0 ∧ (glyphAt face.buffer n).cluster = (glyphAt face.buffer (n - 1)).cluster then
        { a with clusterStart := false }
      else a
    { it with
      glyphs := fun j => if j = n then (glyphAt face.buffer n).gindex else it.glyphs j,
      attributes := setAttr it.attributes n a1 }

/-- The local variables of the cluster rebuild of lines 964-979. -/
structure ClusterState where
  clusterStart : Nat
  oldCi : Nat
  logClusters : Nat → Nat

/-- The loop `for (j = from; j < to; j++) logClusters[j] = v`, with `n` the
number of iterations. -/
def fillLogClusters (logClusters : Nat → Nat) (v : Nat) (j : Nat) : Nat → (Nat → Nat)
  | 0 => logClusters
  | n + 1 => fillLogClusters (setLogCluster logClusters j v) v (j + 1) n

/-- One iteration of the loop of lines 967-977, for glyph `i`. -/
def rebuildStep (b : HB_BufferRec) (attributes : Nat → HB_GlyphAttributes) (i : Nat)
    (st : ClusterState) : ClusterState :=
  let ci := (glyphAt b i).cluster
  if (attributes i).mark = false ∧ (attributes i).clusterStart = true ∧ ci ≠ st.oldCi then
    { clusterStart := i, oldCi := ci,
      logClusters := fillLogClusters st.logClusters st.clusterStart st.oldCi (ci - st.oldCi) }
  else st

/-- The state after the iterations `0, ..., n-1` of the loop of line 967. -/
def rebuildUpTo (b : HB_BufferRec) (attributes : Nat → HB_GlyphAttributes)
    (logClusters : Nat → Nat) : Nat → ClusterState
  | 0 => { clusterStart := 0, oldCi := 0, logClusters := logClusters }
  | n + 1 => rebuildStep b attributes n (rebuildUpTo b attributes logClusters n)

/-- Lines 962-980: the cluster array after the rebuild, `length` being
`face->length`. -/
def rebuildLogClusters (b : HB_BufferRec) (length : Nat)
    (attributes : Nat → HB_GlyphAttributes) (logClusters : Nat → Nat) : Nat → Nat :=
  let st := rebuildUpTo b attributes logClusters b.in_length
  fillLogClusters st.logClusters st.clusterStart st.oldCi (length - st.oldCi)

/-- Lines 951-980: the item after glyphs, attributes, glyph count and (when
asked for) the cluster array were written back. -/
def writeBack {GSUB GPOS : Type} (face : HB_Face GSUB GPOS) (item : HB_ShaperItem)
    (doLogClusters : Bool) : HB_ShaperItem :=
  let item1 := { writeBackUpTo face item face.buffer.in_length with
                 num_glyphs := face.buffer.in_length }
  if doLogClusters = true then
    { item1 with
      log_clusters :=
        rebuildLogClusters face.buffer face.length item1.attributes item1.log_clusters }
  else item1

/-- The loop `while (positions[i - back].back)` of lines 1009-1013 and
1023-1026, whose body adds `positions[i - back].back` to `back` and then
updates the accumulator from index `i - back`. The index is computed without
sign: the walk is `none` when `back` exceeds `i` (a read outside the array).
`fuel` bounds the number of iterations. -/
def chainWalk {α : Type} (positions : Nat → HB_PositionRec) (i : Nat) (step : Nat → α → α) :
    Nat → Nat → α → Option α
  | 0, _, _ => none
  | fuel + 1, back, acc =>
    if (positions (i - back)).back = 0 then some acc
    else
      let back1 := back + (positions (i - back)).back
      if back1 ≤ i then chainWalk positions i step fuel back1 (step (i - back1) acc)
      else none

/-- The loop `while (back--) x -= advances[i - back]` of lines 1018-1020,
entered with the given value of `back`. -/
def rtlWalk (advances : Nat → Int) (i : Nat) : Nat → Int → Option Int
  | 0, x => some x
  | back + 1, x => if back ≤ i then rtlWalk advances i back (x - advances (i - back)) else none

/-- One iteration of the loop of lines 992-1030, for glyph `i`. -/
def positionStep (positions : Nat → HB_PositionRec) (bidiLevel : Nat) (i : Nat)
    (item : HB_ShaperItem) : Option HB_ShaperItem :=
  let adv : Int :=
    if bidiLevel % 2 ≠ 0 then - (positions i).x_advance else (positions i).x_advance
  let advances : Nat → Int := fun j =>
    if j = i then (if (positions i).new_advance = true then adv else item.advances i + adv)
    else item.advances j
  match chainWalk positions i
      (fun k (o : HB_FixedPoint) => ⟨o.x + (positions k).x_pos, o.y + (positions k).y_pos⟩)
      (i + 1) 0 ⟨(positions i).x_pos, (positions i).y_pos⟩ with
  | none => none
  | some o =>
    let x1 : Option Int :=
      if bidiLevel % 2 ≠ 0 then rtlWalk advances i (positions i).back o.x
      else chainWalk positions i (fun k (x : Int) => x - advances k) (i + 1) 0 o.x
    match x1 with
    | none => none
    | some x =>
      some { item with
             advances := advances,
             offsets := fun j => if j = i then ⟨x, - o.y⟩ else item.offsets j }

/-- The item after the iterations `0, ..., n-1` of the loop of line 992. -/
def positionUpTo (positions : Nat → HB_PositionRec) (bidiLevel : Nat) (item : HB_ShaperItem) :
    Nat → Option HB_ShaperItem
  | 0 => some item
  | n + 1 =>
    match positionUpTo positions bidiLevel item n with
    | none => none
    | some it => positionStep positions bidiLevel n it

/-- The function `HB_OpenTypePosition(item, availableGlyphs, doLogClusters)`. -/
def HB_OpenTypePosition {GSUB GPOS : Type} (ext : Collaborators GSUB GPOS)
    (item : HB_ShaperItem) (face : HB_Face GSUB GPOS) (availableGlyphs : Nat)
    (doLogClusters : Bool) : ShapeResult GSUB GPOS :=
  let r := applyPositioning ext face
  if r.2.glyphs_substituted = false ∧ r.1 = false then
    some (true, item, r.2)
  else if availableGlyphs < r.2.buffer.in_length then
    some (false, { item with num_glyphs := r.2.buffer.in_length }, r.2)
  else
    let item2 := writeBack r.2 item doLogClusters
    if r.1 = true then
      let item3 := { item2 with advances := ext.HB_GetAdvances item2 }
      match positionUpTo r.2.buffer.positions item.item.bidiLevel item3 r.2.buffer.in_length with
      | none => none
      | some item4 =>
        some (true, { item4 with kerning_applied := r.2.has_opentype_kerning }, r.2)
    else
      some (true, HB_HeuristicPosition ext item2, r.2)

/-! ## Script selection (source lines 615-721, 785-878) -/

/-- The define `DefaultLangSys` (line 615). -/
def DefaultLangSys : Nat := 0xffff
/-- The define `DefaultScript` (line 616). -/
def DefaultScript : Nat := FT_MAKE_TAG 'D' 'F' 'L' 'T'
/-- The enum value `RequiresGsub` (line 619). -/
def RequiresGsub : Nat := 1
/-- The enum value `RequiresGpos` (line 620). -/
def RequiresGpos : Nat := 2

/-- The struct `OTScripts` (lines 623-626). -/
structure OTScripts where
  tag : Nat
  flags : Nat
  deriving DecidableEq, Repr

/-- The table `ot_scripts` (lines 627-682). -/
def ot_scripts : List OTScripts :=
  [ -- Common
    ⟨FT_MAKE_TAG 'l' 'a' 't' 'n', 0⟩,
    -- Greek
    ⟨FT_MAKE_TAG 'g' 'r' 'e' 'k', 0⟩,
    -- Cyrillic
    ⟨FT_MAKE_TAG 'c' 'y' 'r' 'l', 0⟩,
    -- Armenian
    ⟨FT_MAKE_TAG 'a' 'r' 'm' 'n', 0⟩,
    -- Hebrew
    ⟨FT_MAKE_TAG 'h' 'e' 'b' 'r', 1⟩,
    -- Arabic
    ⟨FT_MAKE_TAG 'a' 'r' 'a' 'b', 1⟩,
    -- Syriac
    ⟨FT_MAKE_TAG 's' 'y' 'r' 'c', 1⟩,
    -- Thaana
    ⟨FT_MAKE_TAG 't' 'h' 'a' 'a', 1⟩,
    -- Devanagari
    ⟨FT_MAKE_TAG 'd' 'e' 'v' 'a', 1⟩,
    -- Bengali
    ⟨FT_MAKE_TAG 'b' 'e' 'n' 'g', 1⟩,
    -- Gurmukhi
    ⟨FT_MAKE_TAG 'g' 'u' 'r' 'u', 1⟩,
    -- Gujarati
    ⟨FT_MAKE_TAG 'g' 'u' 'j' 'r', 1⟩,
    -- Oriya
    ⟨FT_MAKE_TAG 'o' 'r' 'y' 'a', 1⟩,
    -- Tamil
    ⟨FT_MAKE_TAG 't' 'a' 'm' 'l', 1⟩,
    -- Telugu
    ⟨FT_MAKE_TAG 't' 'e' 'l' 'u', 1⟩,
    -- Kannada
    ⟨FT_MAKE_TAG 'k' 'n' 'd' 'a', 1⟩,
    -- Malayalam
    ⟨FT_MAKE_TAG 'm' 'l' 'y' 'm', 1⟩,
    -- Sinhala
    ⟨FT_MAKE_TAG 's' 'i' 'n' 'h', 1⟩,
    -- Thai
    ⟨FT_MAKE_TAG 't' 'h' 'a' 'i', 1⟩,
    -- Lao
    ⟨FT_MAKE_TAG 'l' 'a' 'o' ' ', 1⟩,
    -- Tibetan
    ⟨FT_MAKE_TAG 't' 'i' 'b' 't', 1⟩,
    -- Myanmar
    ⟨FT_MAKE_TAG 'm' 'y' 'm' 'r', 1⟩,
    -- Georgian
    ⟨FT_MAKE_TAG 'g' 'e' 'o' 'r', 0⟩,
    -- Hangul
    ⟨FT_MAKE_TAG 'h' 'a' 'n' 'g', 1⟩,
    -- Ogham
    ⟨FT_MAKE_TAG 'o' 'g' 'a' 'm', 0⟩,
    -- Runic
    ⟨FT_MAKE_TAG 'r' 'u' 'n' 'r', 0⟩,
    -- Khmer
    ⟨FT_MAKE_TAG 'k' 'h' 'm' 'r', 1⟩ ]

/-- The function `checkScript(face, script)`; `none` when the assertion of
line 687 fails. -/
def checkScript {GSUB GPOS : Type} (ext : Collaborators GSUB GPOS) (face : HB_Face GSUB GPOS)
    (script : Nat) : Option Bool :=
  if script < HB_ScriptCount then
    let tag := (ot_scripts.getD script ⟨0, 0⟩).tag
    let requirements := (ot_scripts.getD script ⟨0, 0⟩).flags
    let gsubOk : Bool :=
      if requirements &&& RequiresGsub ≠ 0 then
        match face.gsub with
        | none => false
        | some gsub =>
          if (ext.HB_GSUB_Select_Script gsub tag).1 ≠ 0 then
            decide ((ext.HB_GSUB_Select_Script gsub DefaultScript).1 = 0)
          else true
      else true
    if gsubOk = false then some false
    else if requirements &&& RequiresGpos ≠ 0 then
      match face.gpos with
      | none => some false
      | some gpos =>
        if (ext.HB_GPOS_Select_Script gpos script).1 ≠ 0 then
          some (decide ((ext.HB_GPOS_Select_Script gpos DefaultScript).1 = 0))
        else some true
    else some true
  else none

/-- The loop of lines 820-828 over the feature array (`tag`, `property`),
which ends at the entry with tag 0. -/
def addGsubFeatures {GSUB GPOS : Type} (ext : Collaborators GSUB GPOS) (script_index : Nat) :
    List (Nat × Nat) → GSUB → GSUB
  | [], gsub => gsub
  | f :: rest, gsub =>
    if f.1 = 0 then gsub
    else
      let r := ext.HB_GSUB_Select_Feature gsub f.1 script_index 0xffff
      addGsubFeatures ext script_index rest
        (if r.1 = 0 then ext.HB_GSUB_Add_Feature gsub r.2 f.2 else gsub)

/-- The loop of lines 857-870 over the tag list of the font, which ends at
the tag 0: the table and the flag `has_opentype_kerning` after it. -/
def addGposFeatures {GSUB GPOS : Type} (ext : Collaborators GSUB GPOS) (script_index : Nat)
    (current_flags : Nat) : List Nat → GPOS × Bool → GPOS × Bool
  | [], st => st
  | t :: rest, st =>
    if t = 0 then st
    else if t = FT_MAKE_TAG 'k' 'e' 'r' 'n' ∧ current_flags &&& HB_ShaperFlag_NoKerning ≠ 0 then
      addGposFeatures ext script_index current_flags rest st
    else
      let kerning := if t = FT_MAKE_TAG 'k' 'e' 'r' 'n' then true else st.2
      let r := ext.HB_GPOS_Select_Feature st.1 t script_index 0xffff
      addGposFeatures ext script_index current_flags rest
        (if r.1 = 0 then (ext.HB_GPOS_Add_Feature st.1 r.2 ext.PositioningProperties, kerning)
         else (st.1, kerning))

/-- The function `HB_SelectScript(shaper_item, features)`: the returned flag
and the face; `features` is `none` for a null pointer; the result is `none`
when the assertion of line 799 fails. -/
def HB_SelectScript {GSUB GPOS : Type} (ext : Collaborators GSUB GPOS) (item : HB_ShaperItem)
    (face : HB_Face GSUB GPOS) (features : Option (List (Nat × Nat))) :
    Option (Bool × HB_Face GSUB GPOS) :=
  let script := item.item.script
  if face.supported_scripts script = false then some (false, face)
  else if face.current_script = script ∧ face.current_flags = item.shaperFlags then
    some (true, face)
  else if script < HB_ScriptCount then
    let tag := (ot_scripts.getD script ⟨0, 0⟩).tag
    let gsub1 : Option GSUB :=
      match face.gsub, features with
      | some gsub, some fs =>
        let cleared := ext.HB_GSUB_Clear_Features gsub
        let r := ext.HB_GSUB_Select_Script cleared tag
        if r.1 = 0 then some (addGsubFeatures ext r.2 fs cleared) else some cleared
      | g, _ => g
    let gpos1 : Option GPOS × Bool :=
      match face.gpos with
      | some gpos =>
        let cleared := ext.HB_GPOS_Clear_Features gpos
        let r := ext.HB_GPOS_Select_Script cleared tag
        if r.1 = 0 then
          let q := ext.HB_GPOS_Query_Features cleared r.2 0xffff
          if q.1 = 0 then
            let st := addGposFeatures ext r.2 item.shaperFlags q.2 (cleared, false)
            (some st.1, st.2)
          else (some cleared, false)
        else (some cleared, false)
      | none => (none, false)
    some (true,
      { face with
        current_script := script, current_flags := item.shaperFlags,
        gsub := gsub1, gpos := gpos1.1, has_opentype_kerning := gpos1.2 })
  else none

/-! ## The default shaper and the dispatch (source lines 482-590, 1054-1062) -/

/-- The array `basic_features` (lines 483-488), with its terminating entry. -/
def basic_features {GSUB GPOS : Type} (ext : Collaborators GSUB GPOS) : List (Nat × Nat) :=
  [ (FT_MAKE_TAG 'c' 'c' 'm' 'p', ext.CcmpProperty),
    (FT_MAKE_TAG 'l' 'i' 'g' 'a', ext.CcmpProperty),
    (FT_MAKE_TAG 'c' 'l' 'i' 'g', ext.CcmpProperty),
    (0, 0) ]

/-- The function `HB_BasicShape(shaper_item)`. -/
def HB_BasicShape {GSUB GPOS : Type} (ext : Collaborators GSUB GPOS) (item : HB_ShaperItem)
    (face : HB_Face GSUB GPOS) : ShapeResult GSUB GPOS :=
  let availableGlyphs := item.num_glyphs
  let r := ext.HB_StringToGlyphs item
  if r.1 = false then some (false, r.2, face)
  else
    match heuristicSetGlyphAttributesItem ext r.2 face with
    | none => none
    | some item1 =>
      match HB_SelectScript ext item1 face (some (basic_features ext)) with
      | none => none
      | some (true, face1) =>
        HB_OpenTypePosition ext item1 (HB_OpenTypeShape ext item1 face1 none).2
          availableGlyphs true
      | some (false, face1) => some (true, HB_HeuristicPosition ext item1, face1)

/-- One entry of `HB_ScriptEngines`: the shape operation and the attribute
function (`none` for a null pointer). -/
structure HB_ScriptEngine (GSUB GPOS : Type) where
  shape : HB_ShaperItem → HB_Face GSUB GPOS → ShapeResult GSUB GPOS
  charAttributes : Option HB_AttributeFunction

/-- The table `HB_ScriptEngines` (lines 518-573). The functions `indic_shape`
and `HB_TibetanShape` of lines 513-514 have an empty body and are taken from
the collaborators like the shapers of other files; `thai_attributes` is the
null pointer of line 516. -/
def HB_ScriptEngines {GSUB GPOS : Type} (ext : Collaborators GSUB GPOS) :
    List (HB_ScriptEngine GSUB GPOS) :=
  [ -- Common
    ⟨HB_BasicShape ext, none⟩,
    -- Greek
    ⟨HB_BasicShape ext, none⟩,
    -- Cyrillic
    ⟨HB_BasicShape ext, none⟩,
    -- Armenian
    ⟨HB_BasicShape ext, none⟩,
    -- Hebrew
    ⟨ext.HB_HebrewShape, none⟩,
    -- Arabic
    ⟨ext.HB_ArabicShape, none⟩,
    -- Syriac
    ⟨ext.HB_ArabicShape, none⟩,
    -- Thaana
    ⟨HB_BasicShape ext, none⟩,
    -- Devanagari
    ⟨ext.indic_shape, some ext.HB_IndicAttributes⟩,
    -- Bengali
    ⟨ext.indic_shape, some ext.HB_IndicAttributes⟩,
    -- Gurmukhi
    ⟨ext.indic_shape, some ext.HB_IndicAttributes⟩,
    -- Gujarati
    ⟨ext.indic_shape, some ext.HB_IndicAttributes⟩,
    -- Oriya
    ⟨ext.indic_shape, some ext.HB_IndicAttributes⟩,
    -- Tamil
    ⟨ext.indic_shape, some ext.HB_IndicAttributes⟩,
    -- Telugu
    ⟨ext.indic_shape, some ext.HB_IndicAttributes⟩,
    -- Kannada
    ⟨ext.indic_shape, some ext.HB_IndicAttributes⟩,
    -- Malayalam
    ⟨ext.indic_shape, some ext.HB_IndicAttributes⟩,
    -- Sinhala
    ⟨ext.indic_shape, some ext.HB_IndicAttributes⟩,
    -- Thai
    ⟨HB_BasicShape ext, none⟩,
    -- Lao
    ⟨HB_BasicShape ext, none⟩,
    -- Tibetan
    ⟨ext.HB_TibetanShape, some ext.HB_TibetanAttributes⟩,
    -- Myanmar
    ⟨ext.HB_MyanmarShape, some ext.HB_MyanmarAttributes⟩,
    -- Georgian
    ⟨HB_BasicShape ext, none⟩,
    -- Hangul
    ⟨ext.HB_HangulShape, none⟩,
    -- Ogham
    ⟨HB_BasicShape ext, none⟩,
    -- Runic
    ⟨HB_BasicShape ext, none⟩,
    -- Khmer
    ⟨ext.HB_KhmerShape, some ext.HB_KhmerAttributes⟩ ]

/-- The function `HB_ShapeItem(shaper_item)`; `none` when the assertion of
line 1060 fails. -/
def HB_ShapeItem {GSUB GPOS : Type} (ext : Collaborators GSUB GPOS) (item : HB_ShaperItem)
    (face : HB_Face GSUB GPOS) : ShapeResult GSUB GPOS :=
  if item.num_glyphs < item.item.length then
    some (false, { item with num_glyphs := item.item.length }, face)
  else if item.item.script < HB_ScriptCount then
    match (HB_ScriptEngines ext)[item.item.script]? with
    | some engine => engine.shape item face
    | none => none
  else none

/-- The loop of lines 581-589 of `HB_GetCharAttributes`, entered with the
counter `i`; `items` is the array of `numItems` runs. The loop goes on while
`i >= numItems` (line 581). The result is `none` when the call does not
return: a read of `items[i]` or of `HB_ScriptEngines[script]` outside the
array, a call through the null attribute function (the test of line 586
looks at the buffer `attributes`, which is not null), or no exit within
`fuel` iterations. -/
def getCharAttributesLoop {GSUB GPOS : Type} (ext : Collaborators GSUB GPOS)
    (string : List HB_UChar16) (items : List HB_ScriptItem) :
    Nat → Nat → (Nat → HB_CharAttributes) → Option (Nat → HB_CharAttributes)
  | 0, _, _ => none
  | fuel + 1, i, attributes =>
    if i ≥ items.length then
      match items[i]? with
      | none => none
      | some it =>
        let script := if it.script = HB_Script_Inherited then HB_Script_Common else it.script
        match (HB_ScriptEngines ext)[script]? with
        | none => none
        | some engine =>
          match engine.charAttributes with
          | none => none
          | some attributeFunction =>
            getCharAttributesLoop ext string items fuel (i + 1)
              (attributeFunction script string it.pos it.length attributes)
    else some attributes

/-- The function `HB_GetCharAttributes(string, stringLength, items, numItems,
attributes)`, with `stringLength` the length of `string` and `numItems` the
length of `items`. -/
def HB_GetCharAttributes {GSUB GPOS : Type} (ext : Collaborators GSUB GPOS)
    (string : List HB_UChar16) (items : List HB_ScriptItem)
    (attributes : Nat → HB_CharAttributes) : Option (Nat → HB_CharAttributes) :=
  getCharAttributesLoop ext string items (items.length + 1) 0
    (calcLineBreaks ext.HB_GetLineBreakClass string attributes)

/-! ## Reference definitions and sample data for the pipeline -/

/-- Reference value written from the words of the specification: the greatest
glyph index `k` below `m` whose cluster tag `tag k` is at most `j` (0 when
there is none). -/
def maxTagIndex (tag : Nat → Nat) (m j : Nat) : Nat :=
  Nat.findGreatest (fun k => tag k ≤ j) (m - 1)

/-- A substitution pass for sample runs: the glyphs 0x66, 0x69 ("f", "i") next
to each other become the one ligature glyph 0xfb01, tagged with the cluster
of the first. -/
def ligate : List HB_GlyphItemRec → List HB_GlyphItemRec
  | [] => []
  | [a] => [a]
  | a :: b :: rest =>
    if a.gindex = 0x66 ∧ b.gindex = 0x69 then
      ⟨0xfb01, a.properties, a.cluster⟩ :: ligate rest
    else a :: ligate (b :: rest)

/-- An attribute function for sample runs: it clears `charStop` on the code
units of the run. -/
def sampleAttributeFunction : HB_AttributeFunction :=
  fun _ _ pos len attributes i =>
    if pos ≤ i ∧ i < pos + len then { attributes i with charStop := false } else attributes i

/-- A table pass for sample runs that returns the given error code and
leaves the buffer as it is. -/
def passUnchanged (error : Nat) : HB_BufferRec → Nat × HB_BufferRec :=
  fun b => (error, b)

/-- A substitution pass for sample runs that succeeds and joins "f", "i". -/
def ligaturePass : HB_BufferRec → Nat × HB_BufferRec :=
  fun b => (0, { b with in_string := ligate b.in_string })

/-- A positioning pass for sample runs that succeeds: glyph 0 gets the new
advance 5, every other glyph the adjustment 3. -/
def kernPass : HB_BufferRec → Nat × HB_BufferRec :=
  fun b => (0, { b with positions := fun i =>
    { x_pos := 0, y_pos := 0, x_advance := if i = 0 then 5 else 3, y_advance := 0,
      back := 0, new_advance := decide (i = 0) } })

/-- Sample collaborators on tables without state. The substitution pass and
the positioning pass are given; every script and feature is selectable, the
font lists no positioning feature, each code unit maps to the glyph of the
same number, every advance is 10, script specific shapers succeed without
touching the request. -/
def sampleCollaborators (gsubApply gposApply : HB_BufferRec → Nat × HB_BufferRec) :
    Collaborators Unit Unit where
  HB_Err_Not_Covered := 0x1002
  CcmpProperty := 1
  PositioningProperties := 0x80000000
  HB_GSUB_Clear_Features := fun g => g
  HB_GSUB_Select_Script := fun _ _ => (0, 0)
  HB_GSUB_Select_Feature := fun _ _ _ _ => (0, 0)
  HB_GSUB_Add_Feature := fun g _ _ => g
  HB_GSUB_Apply_String := fun _ b => gsubApply b
  HB_GPOS_Clear_Features := fun g => g
  HB_GPOS_Select_Script := fun _ _ => (0, 0)
  HB_GPOS_Query_Features := fun _ _ _ => (0, [0])
  HB_GPOS_Select_Feature := fun _ _ _ _ => (0, 0)
  HB_GPOS_Add_Feature := fun g _ _ => g
  HB_GPOS_Apply_String := fun _ _ b => gposApply b
  HB_StringToGlyphs := fun item =>
    (true, { item with
             glyphs := fun i => (item.string.drop item.item.pos).getD i 0,
             num_glyphs := item.item.length })
  HB_GetAdvances := fun _ _ => 10
  HB_GetLineBreakClass := sampleLineBreakClass
  HB_GetUnicodeCharProperties := sampleCharProperties
  HB_IsControlChar := fun _ => false
  HB_HebrewShape := fun item face => some (true, item, face)
  HB_ArabicShape := fun item face => some (true, item, face)
  indic_shape := fun item face => some (true, item, face)
  HB_TibetanShape := fun item face => some (true, item, face)
  HB_MyanmarShape := fun item face => some (true, item, face)
  HB_HangulShape := fun item face => some (true, item, face)
  HB_KhmerShape := fun item face => some (true, item, face)
  HB_IndicAttributes := sampleAttributeFunction
  HB_TibetanAttributes := sampleAttributeFunction
  HB_MyanmarAttributes := sampleAttributeFunction
  HB_KhmerAttributes := sampleAttributeFunction

/-- A request on a run of the given string, with output arrays filled with
fixed values (glyph 0, advance 77, offset (0, 0), cluster 9). -/
def sampleItem (string : List HB_UChar16) (pos length script num_glyphs : Nat) : HB_ShaperItem :=
  { string := string,
    item := { pos := pos, length := length, script := script, bidiLevel := 0 },
    shaperFlags := 0,
    num_glyphs := num_glyphs,
    glyphs := fun _ => 0,
    attributes := constGlyphAttributes true,
    advances := fun _ => 77,
    offsets := fun _ => ⟨0, 0⟩,
    log_clusters := fun _ => 9,
    kerning_applied := false }

/-- A face as `HB_NewFace` leaves it on tables without state: no script
selected yet, the given tables, every script supported. -/
def sampleFace (gsub gpos : Option Unit) : HB_Face Unit Unit :=
  { isSymbolFont := false,
    gsub := gsub,
    gpos := gpos,
    supported_scripts := fun _ => true,
    current_script := HB_ScriptCount,
    current_flags := HB_ShaperFlag_Default,
    has_opentype_kerning := false,
    glyphs_substituted := false,
    buffer := { in_string := [], positions := fun _ => zeroPosition },
    tmpAttributes := constGlyphAttributes false,
    tmpLogClusters := fun _ => 0,
    length := 0 }

/-- A request on a run of `n` letters "a" whose glyph attributes are those of
letters: cluster starts that are no marks. -/
def plainItem (n : Nat) : HB_ShaperItem :=
  { sampleItem (List.replicate n 0x61) 0 n 0 n with
    glyphs := fun _ => 0x61,
    attributes := fun _ =>
      { mark := false, clusterStart := true, dontPrint := false, combiningClass := 0,
        justification := HB_JustificationClass.HB_Character } }

/-- A request on the run "fi" (glyphs 0x66, 0x69) whose glyph attributes are
those of letters. -/
def ligatureItem : HB_ShaperItem :=
  { plainItem 2 with
    string := [0x66, 0x69],
    glyphs := fun i => [0x66, 0x69].getD i 0 }

/-- The face after `HB_OpenTypeShape` on the run of `n` letters "a", with a
substitution table whose pass succeeds and leaves every glyph as it is. -/
def plainFace (n : Nat) : HB_Face Unit Unit :=
  (HB_OpenTypeShape (sampleCollaborators (passUnchanged 0) (passUnchanged 0))
    (plainItem n) (sampleFace (some ()) none) none).2

/-! ## More sample data -/

/-- A small excerpt of the Unicode data for Thai: the vowel signs and tone
marks U+0E31, U+0E34..U+0E3A, U+0E47..U+0E4E are nonspacing marks of
combining class 0; every other code unit is as in `sampleCharProperties`. -/
def thaiCharProperties (u : HB_UChar32) : Nat × Nat :=
  if u = 0xe31 ∨ (0xe34 ≤ u ∧ u ≤ 0xe3a) ∨ (0xe47 ≤ u ∧ u ≤ 0xe4e) then (HB_Mark_NonSpacing, 0)
  else sampleCharProperties u

/-- The line break property of `sampleLineBreakClass` with two more classes:
the ideographs of plane 2 are ID, the Thai letters U+0E01..U+0E2E are SA. -/
def wideLineBreakClass (u : HB_UChar32) : Nat :=
  if 0x20000 ≤ u ∧ u ≤ 0x2fffd then HB_LineBreak_ID
  else if 0xe01 ≤ u ∧ u ≤ 0xe2e then HB_LineBreak_SA
  else sampleLineBreakClass u

/-- A glyph attribute buffer for a base glyph followed by marks: glyph 0 is
a cluster start, every other glyph is a mark. -/
def markAttributes : Nat → HB_GlyphAttributes :=
  fun i => { mark := decide (i ≠ 0), clusterStart := decide (i = 0), dontPrint := false,
             combiningClass := 0, justification := HB_JustificationClass.HB_NoJustification }

/-! ## The scanner with checked array accesses -/

/-- The array access `breakTable[r][c]` within the bounds of the array of
26 rows and 26 columns: `none` for an index outside. -/
def breakTableChecked (r c : Nat) : Option break_class :=
  match breakTable[r]? with
  | none => none
  | some row => row[c]?

/-- An index into `charAttributes`, an array of `len` elements, computed in
`int`: `none` when it is negative or not below `len`. -/
def checkedIndex (len : Nat) (idx : Int) : Option Nat :=
  if 0 ≤ idx ∧ idx < len then some idx.toNat else none

/-- Lines 138-194 of the loop body as in `classifyPair`, with the table read
through `breakTableChecked`: `none` when line 163 reads outside the table. -/
def classifyPairChecked (cls lcls ncls : Nat) (prev : HB_UChar16) (i : Nat) :
    Option PairOutcome :=
  let lineBreakType := forcedBreakType cls ncls
  if ncls = HB_LineBreak_SP then
    some ⟨lineBreakType, cls, false⟩
  else if ncls ≥ HB_LineBreak_CR then
    some ⟨lineBreakType, ncls, false⟩
  else if cls = HB_LineBreak_SA ∧ ncls = HB_LineBreak_SA then
    some ⟨HB_LineBreakType.HB_Break, ncls, false⟩
  else
    let tcls := if ncls ≥ HB_LineBreak_SA then HB_LineBreak_ID else ncls
    let cls1 := if cls ≥ HB_LineBreak_SA then HB_LineBreak_ID else cls
    match breakTableChecked cls1 tcls with
    | none => none
    | some break_class.DirectBreak =>
      some ⟨if prev = 0xad then HB_LineBreakType.HB_SoftHyphen else HB_LineBreakType.HB_Break,
        ncls, false⟩
    | some break_class.IndirectBreak =>
      some ⟨if lcls = HB_LineBreak_SP then HB_LineBreakType.HB_Break
        else HB_LineBreakType.HB_NoBreak, ncls, false⟩
    | some break_class.CombiningIndirectBreak =>
      if lcls = HB_LineBreak_SP then
        some ⟨HB_LineBreakType.HB_NoBreak, ncls, decide (i > 1)⟩
      else
        some ⟨HB_LineBreakType.HB_NoBreak, cls1, false⟩
    | some break_class.CombiningProhibitedBreak =>
      if lcls ≠ HB_LineBreak_SP then
        some ⟨HB_LineBreakType.HB_NoBreak, cls1, false⟩
      else
        some ⟨HB_LineBreakType.HB_NoBreak, ncls, false⟩
    | some break_class.ProhibitedBreak =>
      some ⟨lineBreakType, ncls, false⟩

/-- One iteration of the loop of lines 114-196 as in `scanStep`, for a text
of `len` code units, with every store into `charAttributes` at a checked
index (`i`, `i-2`, `i-1`) and the table read checked: `none` when an access
is out of range. -/
def scanStepChecked (HB_GetLineBreakClass : HB_UChar32 → Nat) (uc : List HB_UChar16)
    (i : Nat) (st : ScanState) : Option ScanState :=
  match checkedIndex uc.length i with
  | none => none
  | some i0 =>
    let a1 := setCharStop (setWhiteSpace st.charAttributes i0 false) i0 true
    match surrogateClass HB_GetLineBreakClass uc i with
    | none => some { st with charAttributes := a1 }
    | some (ncls, pairLow) =>
      let a2 := if pairLow = true then setCharStop a1 i0 false else a1
      let a3 := if ncls ≥ HB_LineBreak_SP then setWhiteSpace a2 i0 true else a2
      let a4 := if ncls = HB_LineBreak_CM then setCharStop a3 i0 false else a3
      match classifyPairChecked st.cls st.lcls ncls (uc.getD (i - 1) 0) i with
      | none => none
      | some r =>
        let a5 : Option (Nat → HB_CharAttributes) :=
          if r.retroBreak = true then
            (checkedIndex uc.length ((i : Int) - 2)).map
              (fun i2 => setLineBreakType a4 i2 HB_LineBreakType.HB_Break)
          else some a4
        match a5, checkedIndex uc.length ((i : Int) - 1) with
        | some a, some i1 =>
          some { cls := r.cls, lcls := ncls,
                 charAttributes := setLineBreakType a i1 r.lineBreakType }
        | _, _ => none

/-- The state after the iterations `i = 1, ..., n` of the checked loop. -/
def scanUpToChecked (HB_GetLineBreakClass : HB_UChar32 → Nat) (uc : List HB_UChar16)
    (charAttributes : Nat → HB_CharAttributes) : Nat → Option ScanState
  | 0 =>
    (checkedIndex uc.length 0).map
      (fun _ => scanInit HB_GetLineBreakClass uc charAttributes)
  | n + 1 =>
    match scanUpToChecked HB_GetLineBreakClass uc charAttributes n with
    | none => none
    | some st => scanStepChecked HB_GetLineBreakClass uc (n + 1) st

/-- The function `calcLineBreaks` with checked accesses: `none` when a read
of `breakTable` or a store into `charAttributes` is out of range. -/
def calcLineBreaksChecked (HB_GetLineBreakClass : HB_UChar32 → Nat) (uc : List HB_UChar16)
    (charAttributes : Nat → HB_CharAttributes) : Option (Nat → HB_CharAttributes) :=
  if uc.length = 0 then some charAttributes
  else
    match scanUpToChecked HB_GetLineBreakClass uc charAttributes (uc.length - 1),
        checkedIndex uc.length ((uc.length : Int) - 1) with
    | some st, some l =>
      some (setLineBreakType st.charAttributes l HB_LineBreakType.HB_ForcedBreak)
    | _, _ => none

/-- A buffer of three glyphs with the cluster tags 2, 0, 1. -/
def reorderedBuffer : HB_BufferRec :=
  { in_string := [⟨0x63, 0, 2⟩, ⟨0x61, 0, 0⟩, ⟨0x62, 0, 1⟩],
    positions := fun _ => zeroPosition }

/-! ## The face constructor and sequences of script selections -/

/-- The function `HB_NewFace(ftface)` (lines 723-766). The table loaders are
not part of the source file: `gsub` and `gpos` are the tables they delivered
(`none` for a loader that failed), `fresh` is the content of the fresh
memory block, which the fields the function does not store keep, and the
buffer comes empty from `hb_buffer_new`. -/
def HB_NewFace {GSUB GPOS : Type} (ext : Collaborators GSUB GPOS) (gsub : Option GSUB)
    (gpos : Option GPOS) (fresh : HB_Face GSUB GPOS) : HB_Face GSUB GPOS :=
  let face0 : HB_Face GSUB GPOS :=
    { fresh with
      isSymbolFont := false,
      gsub := gsub,
      gpos := gpos,
      current_script := HB_ScriptCount,
      current_flags := HB_ShaperFlag_Default,
      has_opentype_kerning := false,
      glyphs_substituted := false }
  { face0 with
    supported_scripts := fun i =>
      if i < HB_ScriptCount then (checkScript ext face0 i).getD false
      else fresh.supported_scripts i,
    buffer := hb_buffer_clear fresh.buffer }

/-- A sequence of `HB_SelectScript` calls on one face, each with its request
and feature array; `none` when one of the calls does not return. -/
def selectScripts {GSUB GPOS : Type} (ext : Collaborators GSUB GPOS) :
    List (HB_ShaperItem × Option (List (Nat × Nat))) → HB_Face GSUB GPOS →
      Option (HB_Face GSUB GPOS)
  | [], face => some face
  | call :: rest, face =>
    match HB_SelectScript ext call.1 face call.2 with
    | none => none
    | some r => selectScripts ext rest r.2

/-- The tags of the font's feature list up to its terminating 0. -/
def listedTags (tags : List Nat) : List Nat :=
  tags.takeWhile (fun t => decide (t ≠ 0))

/-- Sample collaborators whose font lists the positioning features 'kern'
and 'mark'. -/
def kernCollaborators (gposApply : HB_BufferRec → Nat × HB_BufferRec) :
    Collaborators Unit Unit :=
  { sampleCollaborators (passUnchanged 0) gposApply with
    HB_GPOS_Query_Features := fun _ _ _ =>
      (0, [FT_MAKE_TAG 'k' 'e' 'r' 'n', FT_MAKE_TAG 'm' 'a' 'r' 'k', 0]) }

/-! ## The attachment chain -/

/-- Reference chain written from the words of the specification: the
attachment chain `c_0 = c`, `c_(k+1) = c_k - positions[c_k].back`, continued
while `positions[c_k].back` is not 0, with at most `fuel` steps. -/
def attachmentChainFrom (positions : Nat → HB_PositionRec) : Nat → Nat → List Nat
  | 0, c => [c]
  | fuel + 1, c =>
    if (positions c).back = 0 then [c]
    else c :: attachmentChainFrom positions fuel (c - (positions c).back)

/-- The attachment chain of glyph `i`; a chain inside the array has at most
`i` steps. -/
def attachmentChain (positions : Nat → HB_PositionRec) (i : Nat) : List Nat :=
  attachmentChainFrom positions i i

/-- A positioning pass for sample runs that succeeds and attaches every
glyph but the first to the glyph before it: glyph `i` gets the position
`(i + 1, 10 * (i + 1))`, glyph 0 the advance adjustment 4. -/
def attachPass : HB_BufferRec → Nat × HB_BufferRec :=
  fun b => (0, { b with positions := fun i =>
    { x_pos := (i : Int) + 1, y_pos := 10 * ((i : Int) + 1),
      x_advance := if i = 0 then 4 else 0, y_advance := 0,
      back := if i = 0 then 0 else 1, new_advance := false } })

/-- The request `sampleItem` with the bidi level of the run replaced. -/
def withBidiLevel (item : HB_ShaperItem) (bidiLevel : Nat) : HB_ShaperItem :=
  { item with item := { item.item with bidiLevel := bidiLevel } }

/-! ## The cluster rebuild with checked stores -/

/-- The loop `for (j = from; j < to; j++) logClusters[j] = v` as in
`fillLogClusters`, with every store checked against an array of `size`
entries: `none` when a store is at an index not below `size`. -/
def fillLogClustersChecked (size : Nat) (logClusters : Nat → Nat) (v : Nat) (j : Nat) :
    Nat → Option (Nat → Nat)
  | 0 => some logClusters
  | n + 1 =>
    if j < size then fillLogClustersChecked size (setLogCluster logClusters j v) v (j + 1) n
    else none

/-- One iteration of the loop of lines 967-977 as in `rebuildStep`, with the
stores of line 973 checked against `size` entries. -/
def rebuildStepChecked (size : Nat) (b : HB_BufferRec) (attributes : Nat → HB_GlyphAttributes)
    (i : Nat) (st : ClusterState) : Option ClusterState :=
  let ci := (glyphAt b i).cluster
  if (attributes i).mark = false ∧ (attributes i).clusterStart = true ∧ ci ≠ st.oldCi then
    (fillLogClustersChecked size st.logClusters st.clusterStart st.oldCi (ci - st.oldCi)).map
      (fun lc => { clusterStart := i, oldCi := ci, logClusters := lc })
  else some st

/-- The state after the iterations `0, ..., n-1` of the checked loop. -/
def rebuildUpToChecked (size : Nat) (b : HB_BufferRec) (attributes : Nat → HB_GlyphAttributes)
    (logClusters : Nat → Nat) : Nat → Option ClusterState
  | 0 => some { clusterStart := 0, oldCi := 0, logClusters := logClusters }
  | n + 1 =>
    match rebuildUpToChecked size b attributes logClusters n with
    | none => none
    | some st => rebuildStepChecked size b attributes n st

/-- Lines 962-980 as in `rebuildLogClusters`, with every store into
`logClusters` checked against the `length` entries the snapshot covers:
`none` when the rebuild stores at an index not below `length`. -/
def rebuildLogClustersChecked (b : HB_BufferRec) (length : Nat)
    (attributes : Nat → HB_GlyphAttributes) (logClusters : Nat → Nat) : Option (Nat → Nat) :=
  match rebuildUpToChecked length b attributes logClusters b.in_length with
  | none => none
  | some st =>
    fillLogClustersChecked length st.logClusters st.clusterStart st.oldCi (length - st.oldCi)

end HarfBuzz

/-! ## Facts about the table -/

namespace HarfBuzz

/-- Only the column CM of the table holds a combining cell. -/
theorem breakTableAt_not_combining :
    ∀ r < 26, ∀ c < 26, c ≠ 19 →
      breakTableAt r c ≠ break_class.CombiningIndirectBreak
        ∧ breakTableAt r c ≠ break_class.CombiningProhibitedBreak := by
  decide

theorem clampClass_lt (c : Nat) : clampClass c < 26 := by
  unfold clampClass HB_LineBreak_SA HB_LineBreak_ID
  split <;> omega

theorem clampClass_ne_CM (c : Nat) (h : c ≠ HB_LineBreak_CM) : clampClass c ≠ 19 := by
  unfold clampClass HB_LineBreak_SA HB_LineBreak_ID
  unfold HB_LineBreak_CM at h
  split <;> omega

/-! ## Frame lemmas for the stores -/

@[simp] theorem setLineBreakType_lineBreakType (a : Nat → HB_CharAttributes) (i j : Nat)
    (t : HB_LineBreakType) :
    (setLineBreakType a i t j).lineBreakType = if j = i then t else (a j).lineBreakType := by
  unfold setLineBreakType
  split <;> rfl

@[simp] theorem setWhiteSpace_lineBreakType (a : Nat → HB_CharAttributes) (i j : Nat) (b : Bool) :
    (setWhiteSpace a i b j).lineBreakType = (a j).lineBreakType := by
  unfold setWhiteSpace
  split <;> rfl

@[simp] theorem setCharStop_lineBreakType (a : Nat → HB_CharAttributes) (i j : Nat) (b : Bool) :
    (setCharStop a i b j).lineBreakType = (a j).lineBreakType := by
  unfold setCharStop
  split <;> rfl

/-- The effect of one iteration on the `lineBreakType` fields. -/
theorem scanStep_lineBreakType (gc : HB_UChar32 → Nat) (uc : List HB_UChar16) (i : Nat)
    (st : ScanState) (j : Nat) :
    ((scanStep gc uc i st).charAttributes j).lineBreakType =
      match surrogateClass gc uc i with
      | none => (st.charAttributes j).lineBreakType
      | some (ncls, _) =>
        if j = i - 1 then
          (classifyPair st.cls st.lcls ncls (uc.getD (i - 1) 0) i).lineBreakType
        else if (classifyPair st.cls st.lcls ncls (uc.getD (i - 1) 0) i).retroBreak = true
            ∧ j = i - 2 then
          HB_LineBreakType.HB_Break
        else (st.charAttributes j).lineBreakType := by
  unfold scanStep
  cases hs : surrogateClass gc uc i with
  | none => simp
  | some p =>
    obtain ⟨ncls, low⟩ := p
    simp only [setLineBreakType_lineBreakType]
    by_cases h1 : j = i - 1
    · simp [h1]
    · simp only [h1, if_false]
      split_ifs <;> simp_all

/-! ## The pair decision -/

/-- The pair decision when the table is consulted (line 163 is reached). -/
theorem classifyPair_table (cls lcls ncls prev i : Nat) (h1 : ncls ≠ HB_LineBreak_SP)
    (h2 : ¬ ncls ≥ HB_LineBreak_CR)
    (h3 : ¬ (cls = HB_LineBreak_SA ∧ ncls = HB_LineBreak_SA)) :
    classifyPair cls lcls ncls prev i =
      match breakTableAt (clampClass cls) (clampClass ncls) with
      | break_class.DirectBreak =>
        ⟨if prev = 0xad then HB_LineBreakType.HB_SoftHyphen else HB_LineBreakType.HB_Break,
          ncls, false⟩
      | break_class.IndirectBreak =>
        ⟨if lcls = HB_LineBreak_SP then HB_LineBreakType.HB_Break
          else HB_LineBreakType.HB_NoBreak, ncls, false⟩
      | break_class.CombiningIndirectBreak =>
        if lcls = HB_LineBreak_SP then
          ⟨HB_LineBreakType.HB_NoBreak, ncls, decide (i > 1)⟩
        else
          ⟨HB_LineBreakType.HB_NoBreak, clampClass cls, false⟩
      | break_class.CombiningProhibitedBreak =>
        if lcls ≠ HB_LineBreak_SP then
          ⟨HB_LineBreakType.HB_NoBreak, clampClass cls, false⟩
        else
          ⟨HB_LineBreakType.HB_NoBreak, ncls, false⟩
      | break_class.ProhibitedBreak =>
        ⟨forcedBreakType cls ncls, ncls, false⟩ := by
  unfold classifyPair
  simp only [if_neg h1, if_neg h2, if_neg h3]

/-- A class below CR other than CM is looked up in a column without
combining cells. -/
theorem breakTableAt_clamp_not_combining (cls ncls : Nat) (hcm : ncls ≠ HB_LineBreak_CM) :
    breakTableAt (clampClass cls) (clampClass ncls) ≠ break_class.CombiningIndirectBreak
      ∧ breakTableAt (clampClass cls) (clampClass ncls)
          ≠ break_class.CombiningProhibitedBreak :=
  breakTableAt_not_combining (clampClass cls) (clampClass_lt cls)
    (clampClass ncls) (clampClass_lt ncls) (clampClass_ne_CM ncls hcm)

/-- Line 177 is only reached for a combining mark after a space. -/
theorem classifyPair_retroBreak (cls lcls ncls prev i : Nat)
    (h : (classifyPair cls lcls ncls prev i).retroBreak = true) :
    lcls = HB_LineBreak_SP ∧ ncls = HB_LineBreak_CM ∧ 1 < i := by
  by_cases h1 : ncls = HB_LineBreak_SP
  · unfold classifyPair at h
    simp [h1] at h
  by_cases h2 : ncls ≥ HB_LineBreak_CR
  · unfold classifyPair at h
    simp [h1, h2] at h
  by_cases h3 : cls = HB_LineBreak_SA ∧ ncls = HB_LineBreak_SA
  · unfold classifyPair at h
    simp only [if_neg h1, if_neg h2, if_pos h3] at h
    simp at h
  rw [classifyPair_table cls lcls ncls prev i h1 h2 h3] at h
  by_cases hcm : ncls = HB_LineBreak_CM
  · cases hb : breakTableAt (clampClass cls) (clampClass ncls) <;> rw [hb] at h <;>
      simp at h
    · by_cases hl : lcls = HB_LineBreak_SP
      · simp [hl] at h
        exact ⟨hl, hcm, h⟩
      · simp [hl] at h
    · by_cases hl : lcls = HB_LineBreak_SP
      · simp [hl] at h
      · simp [hl] at h
  · exfalso
    have hn := breakTableAt_clamp_not_combining cls ncls hcm
    cases hb : breakTableAt (clampClass cls) (clampClass ncls) <;> rw [hb] at h <;>
      simp at h
    · exact hn.1 hb
    · exact hn.2 hb

/-- After a class other than SP and CM the current class is that class. -/
theorem classifyPair_cls (cls lcls ncls prev i : Nat) (h1 : ncls ≠ HB_LineBreak_SP)
    (hcm : ncls ≠ HB_LineBreak_CM) :
    (classifyPair cls lcls ncls prev i).cls = ncls := by
  by_cases h2 : ncls ≥ HB_LineBreak_CR
  · unfold classifyPair
    simp [h1, h2]
  by_cases h3 : cls = HB_LineBreak_SA ∧ ncls = HB_LineBreak_SA
  · unfold classifyPair
    simp only [if_neg h1, if_neg h2, if_pos h3]
  rw [classifyPair_table cls lcls ncls prev i h1 h2 h3]
  have hn := breakTableAt_clamp_not_combining cls ncls hcm
  cases hb : breakTableAt (clampClass cls) (clampClass ncls)
  · rfl
  · rfl
  · rfl
  · exact absurd hb hn.1
  · exact absurd hb hn.2

/-! ## The scan, iteration by iteration -/

theorem surrogateClass_of_ne_SG (gc : HB_UChar32 → Nat) (uc : List HB_UChar16) (i : Nat)
    (h : gc (uc.getD i 0) ≠ HB_LineBreak_SG) :
    surrogateClass gc uc i = some (gc (uc.getD i 0), false) := by
  unfold surrogateClass
  simp only [if_neg h]

theorem scanStep_lcls (gc : HB_UChar32 → Nat) (uc : List HB_UChar16) (i : Nat) (st : ScanState)
    (ncls : Nat) (b : Bool) (hs : surrogateClass gc uc i = some (ncls, b)) :
    (scanStep gc uc i st).lcls = ncls := by
  unfold scanStep
  rw [hs]

theorem scanStep_cls (gc : HB_UChar32 → Nat) (uc : List HB_UChar16) (i : Nat) (st : ScanState)
    (ncls : Nat) (b : Bool) (hs : surrogateClass gc uc i = some (ncls, b)) :
    (scanStep gc uc i st).cls
      = (classifyPair st.cls st.lcls ncls (uc.getD (i - 1) 0) i).cls := by
  unfold scanStep
  rw [hs]

/-- After a code unit whose class is not SG, SP or CM (and, for the first
code unit, not LF) both rolling classes are that class. -/
theorem scanUpTo_class (gc : HB_UChar32 → Nat) (uc : List HB_UChar16)
    (attrs : Nat → HB_CharAttributes) (k c : Nat) (hc : gc (uc.getD k 0) = c)
    (hsg : c ≠ HB_LineBreak_SG) (hsp : c ≠ HB_LineBreak_SP) (hcm : c ≠ HB_LineBreak_CM)
    (hlf : c ≠ HB_LineBreak_LF ∨ 1 ≤ k) :
    (scanUpTo gc uc attrs k).cls = c ∧ (scanUpTo gc uc attrs k).lcls = c := by
  cases k with
  | zero =>
    have hlf0 : c ≠ HB_LineBreak_LF := by
      rcases hlf with h | h
      · exact h
      · omega
    simp only [scanUpTo, scanInit, hc, if_neg hlf0, and_self]
  | succ n =>
    have hs : surrogateClass gc uc (n + 1) = some (c, false) := by
      rw [← hc]
      exact surrogateClass_of_ne_SG gc uc (n + 1) (by rw [hc]; exact hsg)
    refine ⟨?_, ?_⟩
    · show (scanStep gc uc (n + 1) (scanUpTo gc uc attrs n)).cls = c
      rw [scanStep_cls gc uc (n + 1) _ c false hs]
      exact classifyPair_cls _ _ c _ _ hsp hcm
    · show (scanStep gc uc (n + 1) (scanUpTo gc uc attrs n)).lcls = c
      exact scanStep_lcls gc uc (n + 1) _ c false hs

/-- The value stored at `k` by iteration `k+1`. -/
theorem scanUpTo_succ_lineBreakType (gc : HB_UChar32 → Nat) (uc : List HB_UChar16)
    (attrs : Nat → HB_CharAttributes) (k ncls : Nat) (b : Bool)
    (hs : surrogateClass gc uc (k + 1) = some (ncls, b)) :
    ((scanUpTo gc uc attrs (k + 1)).charAttributes k).lineBreakType
      = (classifyPair (scanUpTo gc uc attrs k).cls (scanUpTo gc uc attrs k).lcls ncls
          (uc.getD k 0) (k + 1)).lineBreakType := by
  show ((scanStep gc uc (k + 1) (scanUpTo gc uc attrs k)).charAttributes k).lineBreakType = _
  rw [scanStep_lineBreakType, hs]
  simp

/-- Iteration `k+2` leaves position `k` alone unless it is the combining mark
after a space of line 177. -/
theorem scanUpTo_two_lineBreakType (gc : HB_UChar32 → Nat) (uc : List HB_UChar16)
    (attrs : Nat → HB_CharAttributes) (k : Nat)
    (hsafe : (scanUpTo gc uc attrs (k + 1)).lcls ≠ HB_LineBreak_SP
      ∨ ∀ ncls b, surrogateClass gc uc (k + 2) = some (ncls, b) → ncls ≠ HB_LineBreak_CM) :
    ((scanUpTo gc uc attrs (k + 2)).charAttributes k).lineBreakType
      = ((scanUpTo gc uc attrs (k + 1)).charAttributes k).lineBreakType := by
  show ((scanStep gc uc (k + 2) (scanUpTo gc uc attrs (k + 1))).charAttributes k).lineBreakType = _
  rw [scanStep_lineBreakType]
  cases hs : surrogateClass gc uc (k + 2) with
  | none => rfl
  | some p =>
    obtain ⟨ncls, b⟩ := p
    have h1 : k ≠ k + 2 - 1 := by omega
    simp only [if_neg h1]
    split
    · rename_i hr
      have hrb := classifyPair_retroBreak _ _ _ _ _ hr.1
      rcases hsafe with h | h
      · exact absurd hrb.1 h
      · exact absurd hrb.2.1 (h ncls b hs)
    · rfl

/-- From iteration `k+3` on, position `k` is not written any more. -/
theorem scanUpTo_lineBreakType_stable (gc : HB_UChar32 → Nat) (uc : List HB_UChar16)
    (attrs : Nat → HB_CharAttributes) (k m : Nat) (hm : k + 2 ≤ m) :
    ((scanUpTo gc uc attrs m).charAttributes k).lineBreakType
      = ((scanUpTo gc uc attrs (k + 2)).charAttributes k).lineBreakType := by
  induction m, hm using Nat.le_induction with
  | base => rfl
  | succ n hn ih =>
    rw [← ih]
    show ((scanStep gc uc (n + 1) (scanUpTo gc uc attrs n)).charAttributes k).lineBreakType = _
    rw [scanStep_lineBreakType]
    cases hs : surrogateClass gc uc (n + 1) with
    | none => rfl
    | some p =>
      obtain ⟨ncls, b⟩ := p
      have h1 : k ≠ n + 1 - 1 := by omega
      have h2 : k ≠ n + 1 - 2 := by omega
      simp only [if_neg h1]
      rw [if_neg (fun h => h2 h.2)]

/-- The final value at a position before the last one is the value stored by
the iteration that follows it, as long as line 177 does not overwrite it. -/
theorem calcLineBreaks_lineBreakType_inner (gc : HB_UChar32 → Nat) (uc : List HB_UChar16)
    (attrs : Nat → HB_CharAttributes) (k : Nat) (hk : k + 1 < uc.length)
    (hsafe : (scanUpTo gc uc attrs (k + 1)).lcls ≠ HB_LineBreak_SP
      ∨ ∀ ncls b, surrogateClass gc uc (k + 2) = some (ncls, b) → ncls ≠ HB_LineBreak_CM) :
    (calcLineBreaks gc uc attrs k).lineBreakType
      = ((scanUpTo gc uc attrs (k + 1)).charAttributes k).lineBreakType := by
  unfold calcLineBreaks
  have h0 : uc.length ≠ 0 := by omega
  have h1 : k ≠ uc.length - 1 := by omega
  simp only [if_neg h0, setLineBreakType_lineBreakType, if_neg h1]
  by_cases h2 : uc.length - 1 = k + 1
  · rw [h2]
  · rw [scanUpTo_lineBreakType_stable gc uc attrs k (uc.length - 1) (by omega)]
    exact scanUpTo_two_lineBreakType gc uc attrs k hsafe

theorem clampClass_of_le (c : Nat) (h : c ≤ 25) : clampClass c = c := by
  unfold clampClass HB_LineBreak_SA
  rw [if_neg (by omega)]

theorem forcedBreakType_of_le (cls ncls : Nat) (h : cls ≤ 28) :
    forcedBreakType cls ncls = HB_LineBreakType.HB_NoBreak := by
  unfold forcedBreakType HB_LineBreak_LF HB_LineBreak_CR
  rw [if_neg (by omega), if_neg (by omega)]

/-! ## The claims on `calcLineBreaks` -/

/-- C1: for every non-empty text and every initial content of the attribute
buffer, `calcLineBreaks` leaves `HB_ForcedBreak` at the last character. -/
theorem calcLineBreaks_last_forced (gc : HB_UChar32 → Nat) (uc : List HB_UChar16)
    (attrs : Nat → HB_CharAttributes) (hlen : 1 ≤ uc.length) :
    (calcLineBreaks gc uc attrs (uc.length - 1)).lineBreakType
      = HB_LineBreakType.HB_ForcedBreak := by
  unfold calcLineBreaks
  rw [if_neg (by omega)]
  simp

theorem calcLineBreaks_last_forced_witness :
    1 ≤ [0x61, 0x62].length
      ∧ (calcLineBreaks sampleLineBreakClass [0x61, 0x62]
            (constAttributes HB_LineBreakType.HB_Break) ([0x61, 0x62].length - 1)).lineBreakType
          = HB_LineBreakType.HB_ForcedBreak :=
  ⟨by decide,
    calcLineBreaks_last_forced sampleLineBreakClass [0x61, 0x62]
      (constAttributes HB_LineBreakType.HB_Break) (by decide)⟩

/-- C2: when `uc[k]` has class CR and `uc[k+1]` has class LF, iteration `k+1`
stores `HB_NoBreak` at `k`, every later state of the scan still holds it, and
so does the result of `calcLineBreaks`. -/
theorem calcLineBreaks_cr_lf (gc : HB_UChar32 → Nat) (uc : List HB_UChar16)
    (attrs : Nat → HB_CharAttributes) (k : Nat) (hk : k + 1 < uc.length)
    (hcr : gc (uc.getD k 0) = HB_LineBreak_CR)
    (hlf : gc (uc.getD (k + 1) 0) = HB_LineBreak_LF) :
    (calcLineBreaks gc uc attrs k).lineBreakType = HB_LineBreakType.HB_NoBreak
      ∧ ∀ m, k + 1 ≤ m → m < uc.length →
          ((scanUpTo gc uc attrs m).charAttributes k).lineBreakType
            = HB_LineBreakType.HB_NoBreak := by
  have hst := scanUpTo_class gc uc attrs k HB_LineBreak_CR hcr (by decide) (by decide)
    (by decide) (Or.inl (by decide))
  have hs : surrogateClass gc uc (k + 1) = some (HB_LineBreak_LF, false) := by
    rw [← hlf]
    exact surrogateClass_of_ne_SG gc uc (k + 1) (by rw [hlf]; decide)
  have hstep : ((scanUpTo gc uc attrs (k + 1)).charAttributes k).lineBreakType
      = HB_LineBreakType.HB_NoBreak := by
    rw [scanUpTo_succ_lineBreakType gc uc attrs k _ _ hs, hst.1, hst.2]
    rfl
  have hl : (scanUpTo gc uc attrs (k + 1)).lcls ≠ HB_LineBreak_SP := by
    have : (scanUpTo gc uc attrs (k + 1)).lcls = HB_LineBreak_LF :=
      scanStep_lcls gc uc (k + 1) _ _ _ hs
    rw [this]
    decide
  refine ⟨?_, ?_⟩
  · rw [calcLineBreaks_lineBreakType_inner gc uc attrs k hk (Or.inl hl)]
    exact hstep
  · intro m hm _
    by_cases h1 : m = k + 1
    · rw [h1]
      exact hstep
    · rw [scanUpTo_lineBreakType_stable gc uc attrs k m (by omega),
        scanUpTo_two_lineBreakType gc uc attrs k (Or.inl hl)]
      exact hstep

theorem calcLineBreaks_cr_lf_witness :
    (1 + 1 < [0x61, 0x0d, 0x0a, 0x62].length
      ∧ sampleLineBreakClass ([0x61, 0x0d, 0x0a, 0x62].getD 1 0) = HB_LineBreak_CR
      ∧ sampleLineBreakClass ([0x61, 0x0d, 0x0a, 0x62].getD (1 + 1) 0) = HB_LineBreak_LF)
    ∧ (calcLineBreaks sampleLineBreakClass [0x61, 0x0d, 0x0a, 0x62]
        (constAttributes HB_LineBreakType.HB_Break) 1).lineBreakType
      = HB_LineBreakType.HB_NoBreak :=
  ⟨⟨by decide, by decide, by decide⟩,
    (calcLineBreaks_cr_lf sampleLineBreakClass [0x61, 0x0d, 0x0a, 0x62]
      (constAttributes HB_LineBreakType.HB_Break) 1 (by decide) (by decide) (by decide)).1⟩

/-- C9: the sixteen documented deviations are cells of `breakTable` with the
value `IndirectBreak` (row = class before, column = class after). -/
theorem breakTable_deviations :
    breakTableAt HB_LineBreak_EX HB_LineBreak_AL = break_class.IndirectBreak
      ∧ breakTableAt HB_LineBreak_SY HB_LineBreak_AL = break_class.IndirectBreak
      ∧ breakTableAt HB_LineBreak_SY HB_LineBreak_PO = break_class.IndirectBreak
      ∧ breakTableAt HB_LineBreak_SY HB_LineBreak_PR = break_class.IndirectBreak
      ∧ breakTableAt HB_LineBreak_SY HB_LineBreak_OP = break_class.IndirectBreak
      ∧ breakTableAt HB_LineBreak_AL HB_LineBreak_PR = break_class.IndirectBreak
      ∧ breakTableAt HB_LineBreak_AL HB_LineBreak_PO = break_class.IndirectBreak
      ∧ breakTableAt HB_LineBreak_PR HB_LineBreak_PR = break_class.IndirectBreak
      ∧ breakTableAt HB_LineBreak_PO HB_LineBreak_PO = break_class.IndirectBreak
      ∧ breakTableAt HB_LineBreak_PR HB_LineBreak_PO = break_class.IndirectBreak
      ∧ breakTableAt HB_LineBreak_PO HB_LineBreak_PR = break_class.IndirectBreak
      ∧ breakTableAt HB_LineBreak_HY HB_LineBreak_PO = break_class.IndirectBreak
      ∧ breakTableAt HB_LineBreak_HY HB_LineBreak_PR = break_class.IndirectBreak
      ∧ breakTableAt HB_LineBreak_HY HB_LineBreak_OP = break_class.IndirectBreak
      ∧ breakTableAt HB_LineBreak_NU HB_LineBreak_EX = break_class.IndirectBreak
      ∧ breakTableAt HB_LineBreak_EX HB_LineBreak_PO = break_class.IndirectBreak := by
  decide

/-- C4: on a text of length at least 2 whose classes are all table classes
other than CM, the value at every position `k` before the last one is the
reference value `plainTextBreak` of the cell `breakTable[class uc[k]][class uc[k+1]]`
(a Prohibited, Indirect or Direct cell); in particular OP followed by CL
gives `HB_NoBreak`. -/
theorem calcLineBreaks_plain_text (gc : HB_UChar32 → Nat) (uc : List HB_UChar16)
    (attrs : Nat → HB_CharAttributes) (hlen : 2 ≤ uc.length)
    (hplain : ∀ j, j < uc.length →
      gc (uc.getD j 0) ≤ HB_LineBreak_JT ∧ gc (uc.getD j 0) ≠ HB_LineBreak_CM)
    (k : Nat) (hk : k < uc.length - 1) :
    (breakTableAt (gc (uc.getD k 0)) (gc (uc.getD (k + 1) 0)) = break_class.ProhibitedBreak
        ∨ breakTableAt (gc (uc.getD k 0)) (gc (uc.getD (k + 1) 0)) = break_class.IndirectBreak
        ∨ breakTableAt (gc (uc.getD k 0)) (gc (uc.getD (k + 1) 0)) = break_class.DirectBreak)
      ∧ (calcLineBreaks gc uc attrs k).lineBreakType
          = plainTextBreak (breakTableAt (gc (uc.getD k 0)) (gc (uc.getD (k + 1) 0)))
              (uc.getD k 0)
      ∧ (gc (uc.getD k 0) = HB_LineBreak_OP → gc (uc.getD (k + 1) 0) = HB_LineBreak_CL →
          (calcLineBreaks gc uc attrs k).lineBreakType = HB_LineBreakType.HB_NoBreak) := by
  obtain ⟨ha, ha2⟩ := hplain k (by omega)
  obtain ⟨hn, hn2⟩ := hplain (k + 1) (by omega)
  generalize hca : gc (uc.getD k 0) = a at ha ha2
  generalize hcn : gc (uc.getD (k + 1) 0) = n at hn hn2
  unfold HB_LineBreak_JT at ha hn
  have hst := scanUpTo_class gc uc attrs k a hca
    (by unfold HB_LineBreak_SG; omega) (by unfold HB_LineBreak_SP; omega) ha2
    (Or.inl (by unfold HB_LineBreak_LF; omega))
  have hs : surrogateClass gc uc (k + 1) = some (n, false) := by
    rw [← hcn]
    exact surrogateClass_of_ne_SG gc uc (k + 1) (by rw [hcn]; unfold HB_LineBreak_SG; omega)
  have hl : (scanUpTo gc uc attrs (k + 1)).lcls ≠ HB_LineBreak_SP := by
    have : (scanUpTo gc uc attrs (k + 1)).lcls = n := scanStep_lcls gc uc (k + 1) _ _ _ hs
    rw [this]
    unfold HB_LineBreak_SP
    omega
  have hval : (calcLineBreaks gc uc attrs k).lineBreakType
      = (classifyPair a a n (uc.getD k 0) (k + 1)).lineBreakType := by
    rw [calcLineBreaks_lineBreakType_inner gc uc attrs k (by omega) (Or.inl hl),
      scanUpTo_succ_lineBreakType gc uc attrs k _ _ hs, hst.1, hst.2]
  have htab := classifyPair_table a a n (uc.getD k 0) (k + 1)
    (by unfold HB_LineBreak_SP; omega) (by unfold HB_LineBreak_CR; omega)
    (by unfold HB_LineBreak_SA; omega)
  rw [clampClass_of_le a ha, clampClass_of_le n hn, forcedBreakType_of_le a n (by omega)] at htab
  have hnc := breakTableAt_not_combining a (by omega) n (by omega)
    (by unfold HB_LineBreak_CM at hn2; exact hn2)
  have hasp : a ≠ HB_LineBreak_SP := by unfold HB_LineBreak_SP; omega
  rw [hval, htab]
  cases hb : breakTableAt a n
  · refine ⟨Or.inl rfl, rfl, fun _ _ => rfl⟩
  · refine ⟨Or.inr (Or.inr rfl), rfl, ?_⟩
    intro h1 h2
    rw [h1, h2] at hb
    exact absurd hb (by decide)
  · refine ⟨Or.inr (Or.inl rfl), ?_, ?_⟩
    · simp [plainTextBreak, hasp]
    · intro _ _
      simp [hasp]
  · exact absurd hb hnc.1
  · exact absurd hb hnc.2

theorem calcLineBreaks_plain_text_witness :
    (2 ≤ [0x28, 0x29, 0xad, 0x61].length
      ∧ (∀ j, j < [0x28, 0x29, 0xad, 0x61].length →
          sampleLineBreakClass ([0x28, 0x29, 0xad, 0x61].getD j 0) ≤ HB_LineBreak_JT
            ∧ sampleLineBreakClass ([0x28, 0x29, 0xad, 0x61].getD j 0) ≠ HB_LineBreak_CM)
      ∧ 2 < [0x28, 0x29, 0xad, 0x61].length - 1)
    ∧ (calcLineBreaks sampleLineBreakClass [0x28, 0x29, 0xad, 0x61]
          (constAttributes HB_LineBreakType.HB_Break) 2).lineBreakType
        = plainTextBreak
            (breakTableAt (sampleLineBreakClass ([0x28, 0x29, 0xad, 0x61].getD 2 0))
              (sampleLineBreakClass ([0x28, 0x29, 0xad, 0x61].getD (2 + 1) 0)))
            ([0x28, 0x29, 0xad, 0x61].getD 2 0) :=
  ⟨⟨by decide, by decide, by decide⟩,
    (calcLineBreaks_plain_text sampleLineBreakClass [0x28, 0x29, 0xad, 0x61]
      (constAttributes HB_LineBreakType.HB_Break) (by decide) (by decide) 2 (by decide)).2.1⟩

/-- A space keeps the current class and leaves the forced-break value. -/
theorem classifyPair_SP (cls lcls prev i : Nat) :
    classifyPair cls lcls HB_LineBreak_SP prev i
      = ⟨forcedBreakType cls HB_LineBreak_SP, cls, false⟩ := by
  unfold classifyPair
  simp

/-- C5: a digit followed by an exclamation mark (NU, EX) gives `HB_NoBreak`
between them; with a space in between (NU, SP, EX) there is `HB_NoBreak`
after the digit and `HB_Break` after the space. -/
theorem calcLineBreaks_nu_ex (gc : HB_UChar32 → Nat) (uc : List HB_UChar16)
    (attrs : Nat → HB_CharAttributes) (k : Nat)
    (hnu : gc (uc.getD k 0) = HB_LineBreak_NU) :
    (k + 1 < uc.length → gc (uc.getD (k + 1) 0) = HB_LineBreak_EX →
        (calcLineBreaks gc uc attrs k).lineBreakType = HB_LineBreakType.HB_NoBreak)
      ∧ (k + 2 < uc.length → gc (uc.getD (k + 1) 0) = HB_LineBreak_SP →
          gc (uc.getD (k + 2) 0) = HB_LineBreak_EX →
          (calcLineBreaks gc uc attrs k).lineBreakType = HB_LineBreakType.HB_NoBreak
            ∧ (calcLineBreaks gc uc attrs (k + 1)).lineBreakType
                = HB_LineBreakType.HB_Break) := by
  have hst := scanUpTo_class gc uc attrs k HB_LineBreak_NU hnu (by decide) (by decide)
    (by decide) (Or.inl (by decide))
  refine ⟨?_, ?_⟩
  · intro hk hex
    have hs : surrogateClass gc uc (k + 1) = some (HB_LineBreak_EX, false) := by
      rw [← hex]
      exact surrogateClass_of_ne_SG gc uc (k + 1) (by rw [hex]; decide)
    have hl : (scanUpTo gc uc attrs (k + 1)).lcls ≠ HB_LineBreak_SP := by
      have : (scanUpTo gc uc attrs (k + 1)).lcls = HB_LineBreak_EX :=
        scanStep_lcls gc uc (k + 1) _ _ _ hs
      rw [this]
      decide
    rw [calcLineBreaks_lineBreakType_inner gc uc attrs k hk (Or.inl hl),
      scanUpTo_succ_lineBreakType gc uc attrs k _ _ hs, hst.1, hst.2]
    rfl
  · intro hk hsp hex
    have hs1 : surrogateClass gc uc (k + 1) = some (HB_LineBreak_SP, false) := by
      rw [← hsp]
      exact surrogateClass_of_ne_SG gc uc (k + 1) (by rw [hsp]; decide)
    have hs2 : surrogateClass gc uc (k + 2) = some (HB_LineBreak_EX, false) := by
      rw [← hex]
      exact surrogateClass_of_ne_SG gc uc (k + 2) (by rw [hex]; decide)
    have hl1 : (scanUpTo gc uc attrs (k + 1)).lcls = HB_LineBreak_SP :=
      scanStep_lcls gc uc (k + 1) _ _ _ hs1
    have hc1 : (scanUpTo gc uc attrs (k + 1)).cls = HB_LineBreak_NU := by
      show (scanStep gc uc (k + 1) (scanUpTo gc uc attrs k)).cls = _
      rw [scanStep_cls gc uc (k + 1) _ _ _ hs1, classifyPair_SP]
      exact hst.1
    have hl2 : (scanUpTo gc uc attrs (k + 1 + 1)).lcls ≠ HB_LineBreak_SP := by
      have : (scanUpTo gc uc attrs (k + 1 + 1)).lcls = HB_LineBreak_EX :=
        scanStep_lcls gc uc (k + 1 + 1) _ _ _ hs2
      rw [this]
      decide
    refine ⟨?_, ?_⟩
    · have hsafe : ∀ ncls b, surrogateClass gc uc (k + 2) = some (ncls, b) →
          ncls ≠ HB_LineBreak_CM := by
        intro ncls b h
        rw [hs2] at h
        cases h
        decide
      rw [calcLineBreaks_lineBreakType_inner gc uc attrs k (by omega) (Or.inr hsafe),
        scanUpTo_succ_lineBreakType gc uc attrs k _ _ hs1, hst.1, hst.2]
      rfl
    · rw [calcLineBreaks_lineBreakType_inner gc uc attrs (k + 1) (by omega) (Or.inl hl2),
        scanUpTo_succ_lineBreakType gc uc attrs (k + 1) _ _ hs2, hc1, hl1]
      rfl

theorem calcLineBreaks_nu_ex_witness :
    (sampleLineBreakClass ([0x61, 0x31, 0x21, 0x32, 0x20, 0x21, 0x62].getD 1 0)
        = HB_LineBreak_NU
      ∧ sampleLineBreakClass ([0x61, 0x31, 0x21, 0x32, 0x20, 0x21, 0x62].getD 3 0)
        = HB_LineBreak_NU)
    ∧ (calcLineBreaks sampleLineBreakClass [0x61, 0x31, 0x21, 0x32, 0x20, 0x21, 0x62]
          (constAttributes HB_LineBreakType.HB_SoftHyphen) 1).lineBreakType
        = HB_LineBreakType.HB_NoBreak
    ∧ (calcLineBreaks sampleLineBreakClass [0x61, 0x31, 0x21, 0x32, 0x20, 0x21, 0x62]
          (constAttributes HB_LineBreakType.HB_SoftHyphen) 3).lineBreakType
        = HB_LineBreakType.HB_NoBreak
    ∧ (calcLineBreaks sampleLineBreakClass [0x61, 0x31, 0x21, 0x32, 0x20, 0x21, 0x62]
          (constAttributes HB_LineBreakType.HB_SoftHyphen) (3 + 1)).lineBreakType
        = HB_LineBreakType.HB_Break :=
  ⟨⟨by decide, by decide⟩,
    (calcLineBreaks_nu_ex sampleLineBreakClass [0x61, 0x31, 0x21, 0x32, 0x20, 0x21, 0x62]
      (constAttributes HB_LineBreakType.HB_SoftHyphen) 1 (by decide)).1 (by decide) (by decide),
    (calcLineBreaks_nu_ex sampleLineBreakClass [0x61, 0x31, 0x21, 0x32, 0x20, 0x21, 0x62]
      (constAttributes HB_LineBreakType.HB_SoftHyphen) 3 (by decide)).2 (by decide) (by decide)
      (by decide)⟩

/-- The pair decision at a Direct cell. -/
theorem classifyPair_of_pairLookup_direct (cls lcls ncls prev i : Nat)
    (h : pairLookup cls ncls = some break_class.DirectBreak) :
    ncls ≠ HB_LineBreak_SP
      ∧ (classifyPair cls lcls ncls prev i).lineBreakType
          = if prev = 0xad then HB_LineBreakType.HB_SoftHyphen
            else HB_LineBreakType.HB_Break := by
  unfold pairLookup at h
  by_cases h1 : ncls = HB_LineBreak_SP
  · simp [h1] at h
  by_cases h2 : ncls ≥ HB_LineBreak_CR
  · simp only [if_neg h1, if_pos h2] at h
    cases h
  by_cases h3 : cls = HB_LineBreak_SA ∧ ncls = HB_LineBreak_SA
  · simp only [if_neg h1, if_neg h2, if_pos h3] at h
    cases h
  simp only [if_neg h1, if_neg h2, if_neg h3, Option.some.injEq] at h
  refine ⟨h1, ?_⟩
  rw [classifyPair_table cls lcls ncls prev i h1 h2 h3, h]

/-- C6: whenever iteration `i` reads a Direct cell from the table and
`uc[i-1]` is the soft hyphen U+00AD, the result holds `HB_SoftHyphen` at `i-1`;
concretely, with U+00AD of class BA, this is so whenever the class of the
next code unit is a column where row BA is Direct. -/
theorem calcLineBreaks_soft_hyphen (gc : HB_UChar32 → Nat) (uc : List HB_UChar16)
    (attrs : Nat → HB_CharAttributes) (k : Nat) (hk : k + 1 < uc.length)
    (hsh : uc.getD k 0 = 0xad) :
    (lookupAt gc uc attrs (k + 1) = some break_class.DirectBreak →
        (calcLineBreaks gc uc attrs k).lineBreakType = HB_LineBreakType.HB_SoftHyphen)
      ∧ (gc 0xad = HB_LineBreak_BA → gc (uc.getD (k + 1) 0) ≤ HB_LineBreak_JT →
          breakTableAt HB_LineBreak_BA (gc (uc.getD (k + 1) 0)) = break_class.DirectBreak →
          (calcLineBreaks gc uc attrs k).lineBreakType = HB_LineBreakType.HB_SoftHyphen) := by
  have main : lookupAt gc uc attrs (k + 1) = some break_class.DirectBreak →
      (calcLineBreaks gc uc attrs k).lineBreakType = HB_LineBreakType.HB_SoftHyphen := by
    intro hlook
    unfold lookupAt at hlook
    cases hs : surrogateClass gc uc (k + 1) with
    | none => rw [hs] at hlook; cases hlook
    | some p =>
      obtain ⟨ncls, b⟩ := p
      rw [hs] at hlook
      simp only [Nat.add_sub_cancel] at hlook
      have hd := classifyPair_of_pairLookup_direct _ (scanUpTo gc uc attrs k).lcls ncls
        (uc.getD k 0) (k + 1) hlook
      have hl : (scanUpTo gc uc attrs (k + 1)).lcls ≠ HB_LineBreak_SP := by
        have : (scanUpTo gc uc attrs (k + 1)).lcls = ncls :=
          scanStep_lcls gc uc (k + 1) _ _ _ hs
        rw [this]
        exact hd.1
      rw [calcLineBreaks_lineBreakType_inner gc uc attrs k hk (Or.inl hl),
        scanUpTo_succ_lineBreakType gc uc attrs k _ _ hs, hd.2, if_pos hsh]
  refine ⟨main, ?_⟩
  intro hba hn hcell
  apply main
  have hst := scanUpTo_class gc uc attrs k HB_LineBreak_BA (by rw [hsh]; exact hba)
    (by decide) (by decide) (by decide) (Or.inl (by decide))
  unfold HB_LineBreak_JT at hn
  have hs : surrogateClass gc uc (k + 1) = some (gc (uc.getD (k + 1) 0), false) :=
    surrogateClass_of_ne_SG gc uc (k + 1) (by unfold HB_LineBreak_SG; omega)
  unfold lookupAt
  rw [hs]
  simp only [Nat.add_sub_cancel, hst.1]
  unfold pairLookup
  rw [if_neg (by unfold HB_LineBreak_SP; omega), if_neg (by unfold HB_LineBreak_CR; omega),
    if_neg (by unfold HB_LineBreak_SA; omega), clampClass_of_le _ hn,
    clampClass_of_le HB_LineBreak_BA (by decide), hcell]

theorem calcLineBreaks_soft_hyphen_witness :
    (1 + 1 < [0x61, 0xad, 0x62].length ∧ [0x61, 0xad, 0x62].getD 1 0 = 0xad
      ∧ lookupAt sampleLineBreakClass [0x61, 0xad, 0x62]
          (constAttributes HB_LineBreakType.HB_Break) (1 + 1) = some break_class.DirectBreak)
    ∧ (calcLineBreaks sampleLineBreakClass [0x61, 0xad, 0x62]
          (constAttributes HB_LineBreakType.HB_Break) 1).lineBreakType
        = HB_LineBreakType.HB_SoftHyphen :=
  ⟨⟨by decide, by decide, by decide⟩,
    (calcLineBreaks_soft_hyphen sampleLineBreakClass [0x61, 0xad, 0x62]
      (constAttributes HB_LineBreakType.HB_Break) 1 (by decide) (by decide)).1 (by decide)⟩

/-- C3: the scanner at texts with a mandatory break. After the line feed of
"a LF b" it leaves `HB_Break`, after the line feed of "a LF ellipsis" and of
"a LF combining-mark" it leaves `HB_NoBreak`, after the carriage return of
"a CR b" and after the line feed of "a LF space combining-mark" it leaves
`HB_Break`: in none of them `HB_ForcedBreak`, although the classes are LF and
CR (not followed by LF). -/
theorem calcLineBreaks_mandatory_break_lost :
    sampleLineBreakClass 0x0a = HB_LineBreak_LF
      ∧ sampleLineBreakClass 0x0d = HB_LineBreak_CR
      ∧ (calcLineBreaks sampleLineBreakClass [0x61, 0x0a, 0x62]
            (constAttributes HB_LineBreakType.HB_ForcedBreak) 1).lineBreakType
          = HB_LineBreakType.HB_Break
      ∧ (calcLineBreaks sampleLineBreakClass [0x61, 0x0a, 0x2026]
            (constAttributes HB_LineBreakType.HB_ForcedBreak) 1).lineBreakType
          = HB_LineBreakType.HB_NoBreak
      ∧ (calcLineBreaks sampleLineBreakClass [0x61, 0x0a, 0x300]
            (constAttributes HB_LineBreakType.HB_ForcedBreak) 1).lineBreakType
          = HB_LineBreakType.HB_NoBreak
      ∧ (calcLineBreaks sampleLineBreakClass [0x61, 0x0d, 0x62]
            (constAttributes HB_LineBreakType.HB_ForcedBreak) 1).lineBreakType
          = HB_LineBreakType.HB_Break
      ∧ (calcLineBreaks sampleLineBreakClass [0x61, 0x0a, 0x20, 0x300]
            (constAttributes HB_LineBreakType.HB_ForcedBreak) 1).lineBreakType
          = HB_LineBreakType.HB_Break := by
  decide

/-- C7: the scanner at a text that starts with an unpaired high surrogate.
The class in use for position 0 is SG, not AL, and the break decision after
it is the one of row ID (`HB_Break` before a letter), whereas the same
unpaired surrogate at position 1 is classified AL (`HB_NoBreak` before a
letter). -/
theorem calcLineBreaks_leading_surrogate :
    (scanInit sampleLineBreakClass [0xd800, 0x61, 0x62]
        (constAttributes HB_LineBreakType.HB_ForcedBreak)).cls = HB_LineBreak_SG
      ∧ (calcLineBreaks sampleLineBreakClass [0xd800, 0x61, 0x62]
            (constAttributes HB_LineBreakType.HB_ForcedBreak) 0).lineBreakType
          = HB_LineBreakType.HB_Break
      ∧ surrogateClass sampleLineBreakClass [0x61, 0xd800, 0x61, 0x62] 1
          = some (HB_LineBreak_AL, false)
      ∧ (calcLineBreaks sampleLineBreakClass [0x61, 0xd800, 0x61, 0x62]
            (constAttributes HB_LineBreakType.HB_ForcedBreak) 1).lineBreakType
          = HB_LineBreakType.HB_NoBreak := by
  decide

/-- C8: two runs of the scanner on the same text "a" followed by a
surrogate pair, started on buffers that differ in `lineBreakType`, end with
different `lineBreakType` at index 0: the iteration that meets the high
surrogate leaves by the `continue` of line 122 and never stores the value. -/
theorem calcLineBreaks_depends_on_buffer :
    (calcLineBreaks sampleLineBreakClass [0x61, 0xd800, 0xdc00]
        (constAttributes HB_LineBreakType.HB_Break) 0).lineBreakType
      = HB_LineBreakType.HB_Break
      ∧ (calcLineBreaks sampleLineBreakClass [0x61, 0xd800, 0xdc00]
          (constAttributes HB_LineBreakType.HB_NoBreak) 0).lineBreakType
        = HB_LineBreakType.HB_NoBreak
      ∧ (calcLineBreaks sampleLineBreakClass [0x61, 0xd800, 0xdc00]
          (constAttributes HB_LineBreakType.HB_SoftHyphen) 0).lineBreakType
        = HB_LineBreakType.HB_SoftHyphen := by
  decide

/-! ## The cluster loop -/

theorem not_low_of_high (u : Nat) (h : HB_IsHighSurrogate u = true) :
    HB_IsLowSurrogate u = false := by
  unfold HB_IsHighSurrogate at h
  unfold HB_IsLowSurrogate
  simp only [decide_eq_true_eq] at h
  simp only [decide_eq_false_iff_not]
  intro hc
  exact absurd (Nat.le_trans hc.1 h.2) (by decide)

theorem surrogatePairs_cons_of_not_high (v : HB_UChar16) (rest : List HB_UChar16)
    (h : HB_IsHighSurrogate v = false) :
    surrogatePairs (v :: rest) = surrogatePairs rest := by
  cases rest with
  | nil => rfl
  | cons w rest2 =>
    cases rest2 with
    | nil => simp [surrogatePairs, h]
    | cons x rest3 => simp [surrogatePairs, h]

theorem clusterLoop_pair (u v : HB_UChar16) (rest : List HB_UChar16) (i g : Nat)
    (lc : Nat → Nat) (h : HB_IsHighSurrogate u = true ∧ HB_IsLowSurrogate v = true) :
    clusterLoop (u :: v :: rest) i g lc
      = clusterLoop rest (i + 2) (g + 1) (setLogCluster (setLogCluster lc i g) (i + 1) g) := by
  rw [clusterLoop, if_pos h]

theorem clusterLoop_single (u v : HB_UChar16) (rest : List HB_UChar16) (i g : Nat)
    (lc : Nat → Nat) (h : ¬ (HB_IsHighSurrogate u = true ∧ HB_IsLowSurrogate v = true)) :
    clusterLoop (u :: v :: rest) i g lc
      = clusterLoop (v :: rest) (i + 1) (g + 1) (setLogCluster lc i g) := by
  rw [clusterLoop, if_neg h]

/-- The glyph position after the loop counts one glyph per code unit, less one
per surrogate pair. -/
theorem clusterLoop_count (l : List HB_UChar16) (i g : Nat) (lc : Nat → Nat) :
    (clusterLoop l i g lc).2 + surrogatePairs l = g + l.length := by
  induction l, i, g, lc using clusterLoop.induct with
  | case1 i g lc => simp [clusterLoop, surrogatePairs]
  | case2 u i g lc => simp [clusterLoop, surrogatePairs]
  | case3 u v rest i g lc h ih =>
    rw [clusterLoop_pair u v rest i g lc h]
    have hv : HB_IsHighSurrogate v = false := by
      cases hh : HB_IsHighSurrogate v
      · rfl
      · have := not_low_of_high v hh
        rw [h.2] at this
        cases this
    simp only [surrogatePairs, if_pos h, surrogatePairs_cons_of_not_high v rest hv,
      List.length_cons]
    omega
  | case4 u v rest i g lc h ih =>
    rw [clusterLoop_single u v rest i g lc h]
    simp only [surrogatePairs, if_neg h, List.length_cons]
    simp only [List.length_cons] at ih
    omega

theorem clusterLoop_glyph_pos_le (l : List HB_UChar16) (i g : Nat) (lc : Nat → Nat) :
    g ≤ (clusterLoop l i g lc).2 ∧ (l ≠ [] → g < (clusterLoop l i g lc).2) := by
  induction l, i, g, lc using clusterLoop.induct with
  | case1 i g lc => simp [clusterLoop]
  | case2 u i g lc => simp [clusterLoop]
  | case3 u v rest i g lc h ih =>
    rw [clusterLoop_pair u v rest i g lc h]
    refine ⟨by omega, fun _ => by omega⟩
  | case4 u v rest i g lc h ih =>
    rw [clusterLoop_single u v rest i g lc h]
    refine ⟨by omega, fun _ => by omega⟩

/-- The loop does not write below its start index. -/
theorem clusterLoop_frame (l : List HB_UChar16) (i g : Nat) (lc : Nat → Nat) (j : Nat)
    (hj : j < i) : (clusterLoop l i g lc).1 j = lc j := by
  induction l, i, g, lc using clusterLoop.induct with
  | case1 i g lc => simp [clusterLoop]
  | case2 u i g lc =>
    simp only [clusterLoop, setLogCluster]
    rw [if_neg (by omega)]
  | case3 u v rest i g lc h ih =>
    rw [clusterLoop_pair u v rest i g lc h, ih (by omega)]
    simp only [setLogCluster]
    rw [if_neg (by omega), if_neg (by omega)]
  | case4 u v rest i g lc h ih =>
    rw [clusterLoop_single u v rest i g lc h, ih (by omega)]
    simp only [setLogCluster]
    rw [if_neg (by omega)]

/-- The first entry written is the starting glyph position. -/
theorem clusterLoop_head (l : List HB_UChar16) (i g : Nat) (lc : Nat → Nat) (hl : l ≠ [])
    (hg : (clusterLoop l i g lc).2 ≤ 65536) : (clusterLoop l i g lc).1 i = g := by
  have hlt := (clusterLoop_glyph_pos_le l i g lc).2 hl
  have hmod : g % 65536 = g := Nat.mod_eq_of_lt (by omega)
  match l, hl with
  | [u], _ =>
    simp only [clusterLoop, setLogCluster, if_true, hmod]
  | u :: v :: rest, _ =>
    by_cases h : HB_IsHighSurrogate u = true ∧ HB_IsLowSurrogate v = true
    · rw [clusterLoop_pair u v rest i g lc h, clusterLoop_frame _ _ _ _ i (by omega)]
      simp only [setLogCluster]
      rw [if_neg (by omega), if_pos trivial, hmod]
    · rw [clusterLoop_single u v rest i g lc h, clusterLoop_frame _ _ _ _ i (by omega)]
      simp only [setLogCluster]
      rw [if_pos trivial, hmod]

/-- Every entry written by the loop lies between the starting and the final
glyph position, and consecutive entries are equal (on a surrogate pair) or
grow by one. -/
theorem clusterLoop_entries (l : List HB_UChar16) (i g : Nat) (lc : Nat → Nat)
    (hg : (clusterLoop l i g lc).2 ≤ 65536) :
    (∀ j, i ≤ j → j < i + l.length →
        g ≤ (clusterLoop l i g lc).1 j ∧ (clusterLoop l i g lc).1 j < (clusterLoop l i g lc).2)
      ∧ (∀ j, i ≤ j → j + 1 < i + l.length →
          ((clusterLoop l i g lc).1 (j + 1) = (clusterLoop l i g lc).1 j
              ∧ HB_IsHighSurrogate (l.getD (j - i) 0) = true
              ∧ HB_IsLowSurrogate (l.getD (j + 1 - i) 0) = true)
            ∨ (clusterLoop l i g lc).1 (j + 1) = (clusterLoop l i g lc).1 j + 1) := by
  induction l, i, g, lc using clusterLoop.induct with
  | case1 i g lc =>
    refine ⟨fun j h1 h2 => ?_, fun j h1 h2 => ?_⟩
    · simp only [List.length_nil] at h2
      omega
    · simp only [List.length_nil] at h2
      omega
  | case2 u i g lc =>
    refine ⟨fun j h1 h2 => ?_, fun j h1 h2 => ?_⟩
    · simp only [List.length_singleton] at h2
      have hji : j = i := by omega
      have hlt : g < 65536 := by
        simp only [clusterLoop] at hg
        omega
      simp only [clusterLoop, setLogCluster, hji, if_true, Nat.mod_eq_of_lt hlt]
      omega
    · simp only [List.length_singleton] at h2
      omega
  | case3 u v rest i g lc h ih =>
    rw [clusterLoop_pair u v rest i g lc h] at hg ⊢
    have ih1 := (ih hg).1
    have ih2 := (ih hg).2
    have hge := (clusterLoop_glyph_pos_le rest (i + 2) (g + 1)
      (setLogCluster (setLogCluster lc i g) (i + 1) g)).1
    have hmod : g % 65536 = g := Nat.mod_eq_of_lt (by omega)
    have hi : (clusterLoop rest (i + 2) (g + 1)
        (setLogCluster (setLogCluster lc i g) (i + 1) g)).1 i = g := by
      rw [clusterLoop_frame _ _ _ _ i (by omega)]
      simp only [setLogCluster]
      rw [if_neg (by omega), if_pos trivial, hmod]
    have hi1 : (clusterLoop rest (i + 2) (g + 1)
        (setLogCluster (setLogCluster lc i g) (i + 1) g)).1 (i + 1) = g := by
      rw [clusterLoop_frame _ _ _ _ (i + 1) (by omega)]
      simp only [setLogCluster]
      rw [if_pos trivial, hmod]
    refine ⟨fun j h1 h2 => ?_, fun j h1 h2 => ?_⟩
    · simp only [List.length_cons] at h2
      by_cases hj : j = i
      · rw [hj, hi]
        omega
      by_cases hj1 : j = i + 1
      · rw [hj1, hi1]
        omega
      have := ih1 j (by omega) (by omega)
      omega
    · simp only [List.length_cons] at h2
      by_cases hj : j = i
      · left
        rw [hj, hi, hi1]
        refine ⟨rfl, ?_, ?_⟩
        · simpa using h.1
        · simpa using h.2
      by_cases hj1 : j = i + 1
      · right
        have hne : rest ≠ [] := by
          intro hr
          rw [hr] at h2
          simp only [List.length_nil] at h2
          omega
        rw [hj1, hi1, clusterLoop_head rest (i + 2) (g + 1) _ hne hg]
      have hsh := ih2 j (by omega) (by omega)
      have e1 : j - i = (j - (i + 2)) + 1 + 1 := by omega
      have e2 : j + 1 - i = (j + 1 - (i + 2)) + 1 + 1 := by omega
      rw [e1, e2]
      simpa using hsh
  | case4 u v rest i g lc h ih =>
    rw [clusterLoop_single u v rest i g lc h] at hg ⊢
    have ih1 := (ih hg).1
    have ih2 := (ih hg).2
    have hge := (clusterLoop_glyph_pos_le (v :: rest) (i + 1) (g + 1)
      (setLogCluster lc i g)).1
    have hmod : g % 65536 = g := Nat.mod_eq_of_lt (by omega)
    have hi : (clusterLoop (v :: rest) (i + 1) (g + 1) (setLogCluster lc i g)).1 i = g := by
      rw [clusterLoop_frame _ _ _ _ i (by omega)]
      simp only [setLogCluster]
      rw [if_pos trivial, hmod]
    have hi1 : (clusterLoop (v :: rest) (i + 1) (g + 1) (setLogCluster lc i g)).1 (i + 1)
        = g + 1 :=
      clusterLoop_head (v :: rest) (i + 1) (g + 1) _ (by simp) hg
    refine ⟨fun j h1 h2 => ?_, fun j h1 h2 => ?_⟩
    · simp only [List.length_cons] at h2
      by_cases hj : j = i
      · rw [hj, hi]
        omega
      have := ih1 j (by omega) (by simp only [List.length_cons]; omega)
      omega
    · simp only [List.length_cons] at h2
      by_cases hj : j = i
      · right
        rw [hj, hi, hi1]
      have hsh := ih2 j (by omega) (by simp only [List.length_cons]; omega)
      have e1 : j - i = (j - (i + 1)) + 1 := by omega
      have e2 : j + 1 - i = (j + 1 - (i + 1)) + 1 := by omega
      rw [e1, e2]
      simpa using hsh

/-! ## The attribute loop -/

theorem attrStep_same_glyph (gp : HB_UChar32 → Nat × Nat) (ctrl : HB_UChar16 → Bool)
    (sym : Bool) (uc : List HB_UChar16) (i : Nat) (st : AttrState)
    (h : st.logClusters i = st.pos) : attrStep gp ctrl sym uc i st = st := by
  unfold attrStep
  rw [if_pos h]

theorem attrStep_new_glyph (gp : HB_UChar32 → Nat × Nat) (ctrl : HB_UChar16 → Bool)
    (sym : Bool) (uc : List HB_UChar16) (i : Nat) (st : AttrState)
    (h : ¬ st.logClusters i = st.pos) :
    (attrStep gp ctrl sym uc i st).pos = max (st.pos + 1) (st.logClusters i)
      ∧ (attrStep gp ctrl sym uc i st).cStart
          = (if (gp (uc.getD i 0)).1 ≠ HB_Mark_NonSpacing then st.logClusters i else st.cStart)
      ∧ (attrStep gp ctrl sym uc i st).logClusters
          = (if (gp (uc.getD i 0)).1 ≠ HB_Mark_NonSpacing then st.logClusters
             else setLogCluster st.logClusters i st.cStart) := by
  unfold attrStep
  rw [if_neg h]
  exact ⟨rfl, rfl, rfl⟩

/-- The invariant of the attribute loop, for a cluster array `L` as the first
loop leaves it and property data that gives no high surrogate of a pair the
category nonspacing mark. -/
theorem attrUpTo_invariant (gp : HB_UChar32 → Nat × Nat) (ctrl : HB_UChar16 → Bool)
    (sym : Bool) (uc : List HB_UChar16) (init : AttrState) (L : Nat → Nat) (G : Nat)
    (hL0 : L 0 = 0)
    (hstep : ∀ j, j + 1 < uc.length →
      (L (j + 1) = L j ∧ HB_IsHighSurrogate (uc.getD j 0) = true
          ∧ HB_IsLowSurrogate (uc.getD (j + 1) 0) = true)
        ∨ L (j + 1) = L j + 1)
    (hrange : ∀ j, j < uc.length → L j < G) (hG : G ≤ 65536)
    (hpos : init.pos = 0) (hcs : init.cStart = 0) (hlc : init.logClusters = L)
    (hcat : ∀ j, j + 1 < uc.length → HB_IsHighSurrogate (uc.getD j 0) = true →
      HB_IsLowSurrogate (uc.getD (j + 1) 0) = true →
      (gp (uc.getD j 0)).1 ≠ HB_Mark_NonSpacing)
    (m : Nat) (hm : m < uc.length) :
    (attrUpTo gp ctrl sym uc init m).pos = L m
      ∧ (∀ j, m < j → (attrUpTo gp ctrl sym uc init m).logClusters j = L j)
      ∧ (attrUpTo gp ctrl sym uc init m).cStart ≤ L m
      ∧ (attrUpTo gp ctrl sym uc init m).logClusters m
          = (attrUpTo gp ctrl sym uc init m).cStart
      ∧ (m + 1 < uc.length → HB_IsHighSurrogate (uc.getD m 0) = true →
          HB_IsLowSurrogate (uc.getD (m + 1) 0) = true →
          (attrUpTo gp ctrl sym uc init m).cStart = L m)
      ∧ (∀ j, j + 1 ≤ m → (attrUpTo gp ctrl sym uc init m).logClusters j
          ≤ (attrUpTo gp ctrl sym uc init m).logClusters (j + 1))
      ∧ (∀ j, j ≤ m → (attrUpTo gp ctrl sym uc init m).logClusters j < G) := by
  induction m with
  | zero =>
    simp only [attrUpTo]
    refine ⟨by rw [hpos, hL0], fun j _ => by rw [hlc], by rw [hcs]; omega,
      by rw [hlc, hcs, hL0], fun _ _ _ => by rw [hcs, hL0], fun j hj => by omega, ?_⟩
    intro j hj
    have : j = 0 := by omega
    rw [this, hlc]
    exact hrange 0 hm
  | succ n ih =>
    obtain ⟨i1, i2, i3, i4, i5, i6, i7⟩ := ih (by omega)
    generalize hst : attrUpTo gp ctrl sym uc init n = st at i1 i2 i3 i4 i5 i6 i7
    have hS : attrUpTo gp ctrl sym uc init (n + 1) = attrStep gp ctrl sym uc (n + 1) st := by
      rw [← hst]
      rfl
    rw [hS]
    have hLn1 : st.logClusters (n + 1) = L (n + 1) := i2 (n + 1) (by omega)
    have hr1 := hrange (n + 1) hm
    have hr0 := hrange n (by omega)
    by_cases hsame : st.logClusters (n + 1) = st.pos
    · rw [attrStep_same_glyph gp ctrl sym uc (n + 1) st hsame]
      have heq : L (n + 1) = L n := by rw [← hLn1, hsame, i1]
      rcases hstep n hm with hp | hp
      · have hcsn := i5 hm hp.2.1 hp.2.2
        refine ⟨by rw [i1, heq], fun j hj => i2 j (by omega), by omega,
          by rw [hLn1, heq, hcsn], ?_, ?_, ?_⟩
        · intro _ hhigh _
          have := not_low_of_high _ hhigh
          rw [hp.2.2] at this
          cases this
        · intro j hj
          by_cases hjn : j = n
          · rw [hjn, i4, hLn1, heq, hcsn]
          · exact i6 j (by omega)
        · intro j hj
          by_cases hjn : j = n + 1
          · rw [hjn, hLn1]
            exact hr1
          · exact i7 j (by omega)
      · omega
    · obtain ⟨s1, s2, s3⟩ := attrStep_new_glyph gp ctrl sym uc (n + 1) st hsame
      have hne : L (n + 1) ≠ L n := by
        intro h
        apply hsame
        rw [hLn1, h, i1]
      have hinc : L (n + 1) = L n + 1 := by
        rcases hstep n hm with hp | hp
        · exact absurd hp.1 hne
        · exact hp
      have hposn : (attrStep gp ctrl sym uc (n + 1) st).pos = L (n + 1) := by
        rw [s1, i1, hLn1, hinc]
        simp
      by_cases hc : (gp (uc.getD (n + 1) 0)).1 ≠ HB_Mark_NonSpacing
      · rw [if_pos hc] at s2 s3
        rw [s2, s3]
        refine ⟨hposn, fun j hj => i2 j (by omega), by omega, rfl,
          fun _ _ _ => hLn1, ?_, ?_⟩
        · intro j hj
          by_cases hjn : j = n
          · rw [hjn, i4, hLn1]
            omega
          · exact i6 j (by omega)
        · intro j hj
          by_cases hjn : j = n + 1
          · rw [hjn, hLn1]
            exact hr1
          · exact i7 j (by omega)
      · rw [if_neg hc] at s2 s3
        rw [s2, s3]
        have hmod : st.cStart % 65536 = st.cStart := Nat.mod_eq_of_lt (by omega)
        have hnew : setLogCluster st.logClusters (n + 1) st.cStart (n + 1) = st.cStart := by
          simp only [setLogCluster, if_true, hmod]
        have hold : ∀ j, j ≠ n + 1 →
            setLogCluster st.logClusters (n + 1) st.cStart j = st.logClusters j := by
          intro j hj
          simp only [setLogCluster, if_neg hj]
        refine ⟨hposn, ?_, by omega, hnew, ?_, ?_, ?_⟩
        · intro j hj
          rw [hold j (by omega)]
          exact i2 j (by omega)
        · intro h1 h2 h3
          exact absurd (hcat (n + 1) h1 h2 h3) hc
        · intro j hj
          by_cases hjn : j = n
          · rw [hjn, hnew, hold n (by omega), i4]
          · rw [hold j (by omega), hold (j + 1) (by omega)]
            exact i6 j (by omega)
        · intro j hj
          by_cases hjn : j = n + 1
          · rw [hjn, hnew]
            omega
          · rw [hold j hjn]
            exact i7 j (by omega)

theorem fillAttributes_frame (n : Nat) (a : Nat → HB_GlyphAttributes) (pos j : Nat)
    (hj : j < pos) : fillAttributes a pos n j = a j := by
  induction n generalizing a pos with
  | zero => rfl
  | succ k ih =>
    rw [fillAttributes, ih _ _ (by omega)]
    simp only [setAttr]
    rw [if_neg (by omega)]

theorem setAttr_of_ne (a : Nat → HB_GlyphAttributes) (i j : Nat) (g : HB_GlyphAttributes)
    (h : j ≠ i) : setAttr a i g j = a j := by
  unfold setAttr
  rw [if_neg h]

theorem setAttr_justification_mark (a : Nat → HB_GlyphAttributes) (i j : Nat)
    (x : HB_JustificationClass) :
    (setAttr a i { a i with justification := x } j).mark = (a j).mark := by
  unfold setAttr
  split
  · rename_i h
    rw [h]
  · rfl

/-- No iteration of the attribute loop changes the `mark` flag of glyph 0. -/
theorem attrStep_mark_zero (gp : HB_UChar32 → Nat × Nat) (ctrl : HB_UChar16 → Bool)
    (sym : Bool) (uc : List HB_UChar16) (i : Nat) (st : AttrState) :
    ((attrStep gp ctrl sym uc i st).attributes 0).mark = (st.attributes 0).mark := by
  by_cases hsame : st.logClusters i = st.pos
  · rw [attrStep_same_glyph gp ctrl sym uc i st hsame]
  · unfold attrStep
    rw [if_neg hsame]
    have hp : 0 ≠ max (st.pos + 1) (st.logClusters i) := by
      have := Nat.le_max_left (st.pos + 1) (st.logClusters i)
      omega
    have hf := fillAttributes_frame (st.logClusters i - (st.pos + 1)) st.attributes
      (st.pos + 1) 0 (by omega)
    simp only []
    rw [setAttr_justification_mark]
    split
    · rw [setAttr_of_ne _ _ _ _ hp]
      split
      · rw [setAttr_of_ne _ _ _ _ hp, hf]
      · rw [hf]
    · rw [setAttr_of_ne _ _ _ _ hp]
      split
      · rw [setAttr_of_ne _ _ _ _ hp, hf]
      · rw [hf]

theorem attrUpTo_mark_zero (gp : HB_UChar32 → Nat × Nat) (ctrl : HB_UChar16 → Bool)
    (sym : Bool) (uc : List HB_UChar16) (init : AttrState) (m : Nat) :
    ((attrUpTo gp ctrl sym uc init m).attributes 0).mark = (init.attributes 0).mark := by
  induction m with
  | zero => rfl
  | succ n ih =>
    rw [← ih]
    exact attrStep_mark_zero gp ctrl sym uc (n + 1) _

/-- Without a high surrogate the loop stores the glyph positions one by one,
reduced to 16 bits. -/
theorem clusterLoop_no_high (l : List HB_UChar16) (i g : Nat) (lc : Nat → Nat)
    (h : ∀ u, u ∈ l → HB_IsHighSurrogate u = false) :
    clusterLoop l i g lc
      = (fun j => if i ≤ j ∧ j < i + l.length then (g + (j - i)) % 65536 else lc j,
         g + l.length) := by
  induction l, i, g, lc using clusterLoop.induct with
  | case1 i g lc =>
    simp only [clusterLoop, List.length_nil, Nat.add_zero]
    congr 1
    funext j
    rw [if_neg (by omega)]
  | case2 u i g lc =>
    simp only [clusterLoop, List.length_singleton]
    congr 1
    funext j
    simp only [setLogCluster]
    by_cases hj : j = i
    · rw [if_pos hj, if_pos (by omega), hj]
      simp
    · rw [if_neg hj, if_neg (by omega)]
  | case3 u v rest i g lc hp ih =>
    have := h u (by simp)
    rw [hp.1] at this
    cases this
  | case4 u v rest i g lc hp ih =>
    rw [clusterLoop_single u v rest i g lc hp, ih (fun w hw => h w (by simp [hw]))]
    simp only [List.length_cons]
    congr 1
    · funext j
      simp only [setLogCluster]
      by_cases hj : j = i
      · rw [if_neg (by omega), if_pos hj, if_pos (by omega), hj]
        simp
      · by_cases hr : i + 1 ≤ j ∧ j < i + 1 + (rest.length + 1)
        · rw [if_pos hr, if_pos (by omega)]
          congr 1
          omega
        · rw [if_neg hr, if_neg hj, if_neg (by omega)]
    · omega

/-- When no code unit of the run is a nonspacing mark the attribute loop
leaves the cluster array as the first loop wrote it. -/
theorem attrUpTo_logClusters_of_no_mark (gp : HB_UChar32 → Nat × Nat)
    (ctrl : HB_UChar16 → Bool) (sym : Bool) (uc : List HB_UChar16) (init : AttrState)
    (h : ∀ i, (gp (uc.getD i 0)).1 ≠ HB_Mark_NonSpacing) (m : Nat) :
    (attrUpTo gp ctrl sym uc init m).logClusters = init.logClusters := by
  induction m with
  | zero => rfl
  | succ n ih =>
    rw [← ih]
    show (attrStep gp ctrl sym uc (n + 1) (attrUpTo gp ctrl sym uc init n)).logClusters
      = (attrUpTo gp ctrl sym uc init n).logClusters
    by_cases hsame : (attrUpTo gp ctrl sym uc init n).logClusters (n + 1)
        = (attrUpTo gp ctrl sym uc init n).pos
    · rw [attrStep_same_glyph gp ctrl sym uc (n + 1) _ hsame]
    · rw [(attrStep_new_glyph gp ctrl sym uc (n + 1) _ hsame).2.2, if_pos (h (n + 1))]

/-- C10 (as amended): for a run of length at least 1 whose glyph count
`num_glyphs` is the number of its code points, and for any property data,
`HB_HeuristicSetGlyphAttributes` returns and glyph 0 is not a mark; when
moreover `num_glyphs` fits the 16-bit cluster entries and the property data
gives no high surrogate of a valid pair the category nonspacing mark,
`log_clusters` is non-decreasing over the run and every entry is below
`num_glyphs`. -/
theorem HB_HeuristicSetGlyphAttributes_clusters (gp : HB_UChar32 → Nat × Nat)
    (ctrl : HB_UChar16 → Bool) (sym : Bool) (uc : List HB_UChar16) (num_glyphs : Nat)
    (attrs : Nat → HB_GlyphAttributes) (lc : Nat → Nat)
    (hlen : 1 ≤ uc.length) (hn : num_glyphs = uc.length - surrogatePairs uc) :
    ∃ r, HB_HeuristicSetGlyphAttributes gp ctrl sym uc num_glyphs attrs lc = some r
      ∧ (r.attributes 0).mark = false
      ∧ (num_glyphs ≤ 65536 →
          (∀ j, j + 1 < uc.length → HB_IsHighSurrogate (uc.getD j 0) = true →
            HB_IsLowSurrogate (uc.getD (j + 1) 0) = true →
            (gp (uc.getD j 0)).1 ≠ HB_Mark_NonSpacing) →
          (∀ i j, i ≤ j → j < uc.length → r.log_clusters i ≤ r.log_clusters j)
            ∧ (∀ i, i < uc.length → r.log_clusters i < num_glyphs)) := by
  have hcount := clusterLoop_count uc 0 0 lc
  have hG : (clusterLoop uc 0 0 lc).2 = num_glyphs := by omega
  have hle : num_glyphs ≤ uc.length := by omega
  have hne : uc ≠ [] := by
    intro h
    rw [h] at hlen
    simp at hlen
  unfold HB_HeuristicSetGlyphAttributes
  rw [if_pos hle]
  simp only [hG, if_true]
  refine ⟨_, rfl, ?_, ?_⟩
  · simp only []
    rw [setAttr_justification_mark, attrUpTo_mark_zero]
    rfl
  · intro h16 hcat
    have hent := clusterLoop_entries uc 0 0 lc (by omega)
    have hhead := clusterLoop_head uc 0 0 lc hne (by omega)
    have hinv := attrUpTo_invariant gp ctrl sym uc
      (attrInit gp ctrl sym uc attrs (clusterLoop uc 0 0 lc).1) (clusterLoop uc 0 0 lc).1
      num_glyphs hhead
      (fun j hj => by
        have := hent.2 j (by omega) (by omega)
        simpa using this)
      (fun j hj => by
        have := (hent.1 j (by omega) (by omega)).2
        omega)
      h16 rfl rfl rfl hcat (uc.length - 1) (by omega)
    obtain ⟨-, -, -, -, -, i6, i7⟩ := hinv
    refine ⟨?_, ?_⟩
    · intro i j hij hj
      simp only []
      induction j, hij using Nat.le_induction with
      | base => exact Nat.le_refl _
      | succ k hk ih =>
        exact Nat.le_trans (ih (by omega)) (i6 k (by omega))
    · intro i hi
      exact i7 i (by omega)

/-- On a run without surrogates and without nonspacing marks, with one glyph
per code unit, the cluster entry of index `j` is `j` reduced to 16 bits. -/
theorem HB_HeuristicSetGlyphAttributes_plain_run (gp : HB_UChar32 → Nat × Nat)
    (ctrl : HB_UChar16 → Bool) (sym : Bool) (uc : List HB_UChar16)
    (attrs : Nat → HB_GlyphAttributes) (lc : Nat → Nat)
    (h1 : ∀ u, u ∈ uc → HB_IsHighSurrogate u = false)
    (h2 : ∀ i, (gp (uc.getD i 0)).1 ≠ HB_Mark_NonSpacing) :
    (HB_HeuristicSetGlyphAttributes gp ctrl sym uc uc.length attrs lc).map
        (fun r => r.log_clusters)
      = some (fun j => if j < uc.length then j % 65536 else lc j) := by
  unfold HB_HeuristicSetGlyphAttributes
  rw [if_pos (Nat.le_refl _), clusterLoop_no_high uc 0 0 lc h1]
  simp only [Nat.zero_add, if_true, Option.map_some']
  rw [attrUpTo_logClusters_of_no_mark gp ctrl sym uc _ h2]
  simp only [attrInit]
  congr 1
  funext j
  simp

theorem surrogatePairs_of_no_high (l : List HB_UChar16)
    (h : ∀ u, u ∈ l → HB_IsHighSurrogate u = false) : surrogatePairs l = 0 := by
  have hc := clusterLoop_count l 0 0 (fun _ => 0)
  rw [clusterLoop_no_high l 0 0 _ h] at hc
  have hc2 : 0 + l.length + surrogatePairs l = 0 + l.length := hc
  omega

/-- C10 (as stated) fails. On "a", a surrogate pair and U+0300, with property
data that reports the high surrogate as a nonspacing mark, the cluster array
ends as 0, 0, 1, 0, so entry 3 is below entry 2. On a run of 65537 letters
the 16-bit entry of index 65536 wraps to 0, below the entry 65535 before it. -/
theorem HB_HeuristicSetGlyphAttributes_not_monotone :
    (1 ≤ [0x61, 0xd800, 0xdc00, 0x300].length
        ∧ 3 = [0x61, 0xd800, 0xdc00, 0x300].length
                - surrogatePairs [0x61, 0xd800, 0xdc00, 0x300]
        ∧ (HB_HeuristicSetGlyphAttributes markedSurrogateProperties (fun _ => false) false
              [0x61, 0xd800, 0xdc00, 0x300] 3 (constGlyphAttributes false) (fun _ => 0)).map
            (fun r => (r.log_clusters 2, r.log_clusters 3)) = some (1, 0))
      ∧ (1 ≤ (List.replicate 65537 0x61).length
        ∧ 65537 = (List.replicate 65537 0x61).length
                - surrogatePairs (List.replicate 65537 0x61)
        ∧ (HB_HeuristicSetGlyphAttributes sampleCharProperties (fun _ => false) false
              (List.replicate 65537 0x61) 65537 (constGlyphAttributes false) (fun _ => 0)).map
            (fun r => (r.log_clusters 65535, r.log_clusters 65536)) = some (65535, 0)) := by
  have hhigh : ∀ u, u ∈ List.replicate 65537 0x61 → HB_IsHighSurrogate u = false := by
    intro u hu
    rw [List.eq_of_mem_replicate hu]
    decide
  have hcatr : ∀ i, (sampleCharProperties ((List.replicate 65537 0x61).getD i 0)).1
      ≠ HB_Mark_NonSpacing := by
    intro i
    rw [List.getD_eq_getElem?_getD, List.getElem?_replicate]
    split <;> decide
  have hplain := HB_HeuristicSetGlyphAttributes_plain_run sampleCharProperties
    (fun _ => false) false (List.replicate 65537 0x61) (constGlyphAttributes false)
    (fun _ => 0) hhigh hcatr
  have hlenr : (List.replicate 65537 0x61).length = 65537 := List.length_replicate _ _
  have hpairs : surrogatePairs (List.replicate 65537 0x61) = 0 :=
    surrogatePairs_of_no_high _ hhigh
  rw [hlenr] at hplain
  refine ⟨⟨by decide, by decide, by decide⟩, by rw [hlenr]; omega, by rw [hlenr, hpairs], ?_⟩
  cases hr : HB_HeuristicSetGlyphAttributes sampleCharProperties (fun _ => false) false
      (List.replicate 65537 0x61) 65537 (constGlyphAttributes false) (fun _ => 0) with
  | none =>
    rw [hr] at hplain
    cases hplain
  | some r =>
    rw [hr] at hplain
    simp only [Option.map_some', Option.some.injEq] at hplain
    simp only [Option.map_some', hplain]
    decide

theorem HB_HeuristicSetGlyphAttributes_clusters_witness :
    (1 ≤ [0x61, 0x300, 0xd800, 0xdc00, 0x20].length
      ∧ 4 = [0x61, 0x300, 0xd800, 0xdc00, 0x20].length
              - surrogatePairs [0x61, 0x300, 0xd800, 0xdc00, 0x20]
      ∧ 4 ≤ 65536
      ∧ ∀ j, j + 1 < [0x61, 0x300, 0xd800, 0xdc00, 0x20].length →
          HB_IsHighSurrogate ([0x61, 0x300, 0xd800, 0xdc00, 0x20].getD j 0) = true →
          HB_IsLowSurrogate ([0x61, 0x300, 0xd800, 0xdc00, 0x20].getD (j + 1) 0) = true →
          (sampleCharProperties ([0x61, 0x300, 0xd800, 0xdc00, 0x20].getD j 0)).1
            ≠ HB_Mark_NonSpacing)
    ∧ (∃ r, HB_HeuristicSetGlyphAttributes sampleCharProperties (fun _ => false) false
          [0x61, 0x300, 0xd800, 0xdc00, 0x20] 4 (constGlyphAttributes true) (fun _ => 9)
          = some r
        ∧ (r.attributes 0).mark = false
        ∧ (∀ i j, i ≤ j → j < [0x61, 0x300, 0xd800, 0xdc00, 0x20].length →
            r.log_clusters i ≤ r.log_clusters j)
        ∧ (∀ i, i < [0x61, 0x300, 0xd800, 0xdc00, 0x20].length → r.log_clusters i < 4))
    ∧ ∃ r, HB_HeuristicSetGlyphAttributes markedSurrogateProperties (fun _ => false) false
          [0x61, 0xd800, 0xdc00, 0x300] 3 (constGlyphAttributes true) (fun _ => 0) = some r
        ∧ (r.attributes 0).mark = false := by
  have hcat : ∀ j, j + 1 < [0x61, 0x300, 0xd800, 0xdc00, 0x20].length →
      HB_IsHighSurrogate ([0x61, 0x300, 0xd800, 0xdc00, 0x20].getD j 0) = true →
      HB_IsLowSurrogate ([0x61, 0x300, 0xd800, 0xdc00, 0x20].getD (j + 1) 0) = true →
      (sampleCharProperties ([0x61, 0x300, 0xd800, 0xdc00, 0x20].getD j 0)).1
        ≠ HB_Mark_NonSpacing := by
    intro j hj
    have hj4 : j < 4 := by
      have hj5 := hj
      simp only [List.length_cons, List.length_nil] at hj5
      omega
    interval_cases j <;> decide
  obtain ⟨r, hr, hm, himp⟩ := HB_HeuristicSetGlyphAttributes_clusters sampleCharProperties
    (fun _ => false) false [0x61, 0x300, 0xd800, 0xdc00, 0x20] 4 (constGlyphAttributes true)
    (fun _ => 9) (by decide) (by decide)
  obtain ⟨r2, hr2, hm2, -⟩ := HB_HeuristicSetGlyphAttributes_clusters markedSurrogateProperties
    (fun _ => false) false [0x61, 0xd800, 0xdc00, 0x300] 3 (constGlyphAttributes true)
    (fun _ => 0) (by decide) (by decide)
  exact ⟨⟨by decide, by decide, by decide, hcat⟩,
    ⟨r, hr, hm, (himp (by decide) hcat).1, (himp (by decide) hcat).2⟩, ⟨r2, hr2, hm2⟩⟩

/-! ## The flags `whiteSpace` and `charStop` -/

@[simp] theorem setLineBreakType_whiteSpace (a : Nat → HB_CharAttributes) (i j : Nat)
    (t : HB_LineBreakType) : (setLineBreakType a i t j).whiteSpace = (a j).whiteSpace := by
  unfold setLineBreakType
  split <;> rfl

@[simp] theorem setLineBreakType_charStop (a : Nat → HB_CharAttributes) (i j : Nat)
    (t : HB_LineBreakType) : (setLineBreakType a i t j).charStop = (a j).charStop := by
  unfold setLineBreakType
  split <;> rfl

@[simp] theorem setWhiteSpace_whiteSpace (a : Nat → HB_CharAttributes) (i j : Nat) (b : Bool) :
    (setWhiteSpace a i b j).whiteSpace = if j = i then b else (a j).whiteSpace := by
  unfold setWhiteSpace
  split <;> rfl

@[simp] theorem setWhiteSpace_charStop (a : Nat → HB_CharAttributes) (i j : Nat) (b : Bool) :
    (setWhiteSpace a i b j).charStop = (a j).charStop := by
  unfold setWhiteSpace
  split <;> rfl

@[simp] theorem setCharStop_charStop (a : Nat → HB_CharAttributes) (i j : Nat) (b : Bool) :
    (setCharStop a i b j).charStop = if j = i then b else (a j).charStop := by
  unfold setCharStop
  split <;> rfl

@[simp] theorem setCharStop_whiteSpace (a : Nat → HB_CharAttributes) (i j : Nat) (b : Bool) :
    (setCharStop a i b j).whiteSpace = (a j).whiteSpace := by
  unfold setCharStop
  split <;> rfl

/-- The effect of one iteration on the `whiteSpace` flags. -/
theorem scanStep_whiteSpace (gc : HB_UChar32 → Nat) (uc : List HB_UChar16) (i : Nat)
    (st : ScanState) (j : Nat) :
    ((scanStep gc uc i st).charAttributes j).whiteSpace =
      if j = i then
        match surrogateClass gc uc i with
        | none => false
        | some (ncls, _) => decide (ncls ≥ HB_LineBreak_SP)
      else (st.charAttributes j).whiteSpace := by
  unfold scanStep
  cases hs : surrogateClass gc uc i with
  | none => simp
  | some p =>
    obtain ⟨ncls, low⟩ := p
    by_cases hj : j = i
    · simp only [hj, if_true]
      split_ifs <;> simp_all
    · simp only [if_neg hj]
      split_ifs <;> simp_all

/-- The effect of one iteration on the `charStop` flags. -/
theorem scanStep_charStop (gc : HB_UChar32 → Nat) (uc : List HB_UChar16) (i : Nat)
    (st : ScanState) (j : Nat) :
    ((scanStep gc uc i st).charAttributes j).charStop =
      if j = i then
        match surrogateClass gc uc i with
        | none => true
        | some (ncls, low) => decide (low = false ∧ ncls ≠ HB_LineBreak_CM)
      else (st.charAttributes j).charStop := by
  unfold scanStep
  cases hs : surrogateClass gc uc i with
  | none => simp
  | some p =>
    obtain ⟨ncls, low⟩ := p
    by_cases hj : j = i
    · simp only [hj, if_true]
      split_ifs <;> simp_all
    · simp only [if_neg hj]
      split_ifs <;> simp_all

/-- Position `i` keeps the flags it has after iteration `i`. -/
theorem scanUpTo_flags_stable (gc : HB_UChar32 → Nat) (uc : List HB_UChar16)
    (attrs : Nat → HB_CharAttributes) (i m : Nat) (hm : i ≤ m) :
    ((scanUpTo gc uc attrs m).charAttributes i).whiteSpace
        = ((scanUpTo gc uc attrs i).charAttributes i).whiteSpace
      ∧ ((scanUpTo gc uc attrs m).charAttributes i).charStop
        = ((scanUpTo gc uc attrs i).charAttributes i).charStop := by
  induction m, hm using Nat.le_induction with
  | base => exact ⟨rfl, rfl⟩
  | succ n hn ih =>
    rw [← ih.1, ← ih.2]
    have hne : i ≠ n + 1 := by omega
    constructor
    · show ((scanStep gc uc (n + 1) (scanUpTo gc uc attrs n)).charAttributes i).whiteSpace = _
      rw [scanStep_whiteSpace, if_neg hne]
    · show ((scanStep gc uc (n + 1) (scanUpTo gc uc attrs n)).charAttributes i).charStop = _
      rw [scanStep_charStop, if_neg hne]

/-- The flags of the result at `i` are those the scan holds after iteration `i`. -/
theorem calcLineBreaks_flags (gc : HB_UChar32 → Nat) (uc : List HB_UChar16)
    (attrs : Nat → HB_CharAttributes) (i : Nat) (hi : i < uc.length) :
    (calcLineBreaks gc uc attrs i).whiteSpace
        = ((scanUpTo gc uc attrs i).charAttributes i).whiteSpace
      ∧ (calcLineBreaks gc uc attrs i).charStop
        = ((scanUpTo gc uc attrs i).charAttributes i).charStop := by
  unfold calcLineBreaks
  rw [if_neg (by omega)]
  simp only [setLineBreakType_whiteSpace, setLineBreakType_charStop]
  exact scanUpTo_flags_stable gc uc attrs i (uc.length - 1) (by omega)

/-- The flags `whiteSpace` and `charStop` of the result depend on the text
only, not on the initial content of the buffer. -/
theorem calcLineBreaks_flags_pure (gc : HB_UChar32 → Nat) (uc : List HB_UChar16)
    (attrs1 attrs2 : Nat → HB_CharAttributes) (i : Nat) (hi : i < uc.length) :
    (calcLineBreaks gc uc attrs1 i).whiteSpace = (calcLineBreaks gc uc attrs2 i).whiteSpace
      ∧ (calcLineBreaks gc uc attrs1 i).charStop
          = (calcLineBreaks gc uc attrs2 i).charStop := by
  rw [(calcLineBreaks_flags gc uc attrs1 i hi).1, (calcLineBreaks_flags gc uc attrs1 i hi).2,
    (calcLineBreaks_flags gc uc attrs2 i hi).1, (calcLineBreaks_flags gc uc attrs2 i hi).2]
  cases i with
  | zero => simp [scanUpTo, scanInit]
  | succ n =>
    constructor
    · show ((scanStep gc uc (n + 1) _).charAttributes (n + 1)).whiteSpace
        = ((scanStep gc uc (n + 1) _).charAttributes (n + 1)).whiteSpace
      rw [scanStep_whiteSpace, scanStep_whiteSpace, if_pos rfl, if_pos rfl]
    · show ((scanStep gc uc (n + 1) _).charAttributes (n + 1)).charStop
        = ((scanStep gc uc (n + 1) _).charAttributes (n + 1)).charStop
      rw [scanStep_charStop, scanStep_charStop, if_pos rfl, if_pos rfl]

/-- The low half of a valid surrogate pair at `i ≥ 1`: the class in use is
the class of the combined code point, `charStop` is cleared, `whiteSpace`
and the last class follow the combined code point. -/
theorem calcLineBreaks_surrogate_pair (gc : HB_UChar32 → Nat) (uc : List HB_UChar16)
    (attrs : Nat → HB_CharAttributes) (i : Nat)
    (hsg : ∀ u, HB_IsHighSurrogate u = true ∨ HB_IsLowSurrogate u = true →
      gc u = HB_LineBreak_SG)
    (hi : 1 ≤ i) (hlen : i < uc.length)
    (hhigh : HB_IsHighSurrogate (uc.getD (i - 1) 0) = true)
    (hlow : HB_IsLowSurrogate (uc.getD i 0) = true) :
    surrogateClass gc uc i
        = some (gc (HB_SurrogateToUcs4 (uc.getD (i - 1) 0) (uc.getD i 0)), true)
      ∧ (calcLineBreaks gc uc attrs i).charStop = false
      ∧ (calcLineBreaks gc uc attrs i).whiteSpace
          = decide (gc (HB_SurrogateToUcs4 (uc.getD (i - 1) 0) (uc.getD i 0))
              ≥ HB_LineBreak_SP)
      ∧ (scanUpTo gc uc attrs i).lcls
          = gc (HB_SurrogateToUcs4 (uc.getD (i - 1) 0) (uc.getD i 0)) := by
  have hnh : HB_IsHighSurrogate (uc.getD i 0) = false := by
    cases hh : HB_IsHighSurrogate (uc.getD i 0)
    · rfl
    · have := not_low_of_high _ hh
      rw [hlow] at this
      cases this
  have hs : surrogateClass gc uc i
      = some (gc (HB_SurrogateToUcs4 (uc.getD (i - 1) 0) (uc.getD i 0)), true) := by
    unfold surrogateClass
    simp only [hsg _ (Or.inr hlow), if_true, hnh, hlow, hhigh, and_self]
    simp
  obtain ⟨n, rfl⟩ : ∃ n, i = n + 1 := ⟨i - 1, by omega⟩
  refine ⟨hs, ?_, ?_, ?_⟩
  · rw [(calcLineBreaks_flags gc uc attrs (n + 1) hlen).2]
    show ((scanStep gc uc (n + 1) _).charAttributes (n + 1)).charStop = false
    rw [scanStep_charStop, if_pos rfl, hs]
    simp
  · rw [(calcLineBreaks_flags gc uc attrs (n + 1) hlen).1]
    show ((scanStep gc uc (n + 1) _).charAttributes (n + 1)).whiteSpace = _
    rw [scanStep_whiteSpace, if_pos rfl, hs]
  · exact scanStep_lcls gc uc (n + 1) _ _ _ hs

/-- A surrogate code unit at `i ≥ 1` that is in no valid pair is classified AL. -/
theorem surrogateClass_unpaired (gc : HB_UChar32 → Nat) (uc : List HB_UChar16) (i : Nat)
    (hsg : gc (uc.getD i 0) = HB_LineBreak_SG)
    (h1 : ¬ (HB_IsHighSurrogate (uc.getD i 0) = true ∧ i < uc.length - 1
      ∧ HB_IsLowSurrogate (uc.getD (i + 1) 0) = true))
    (h2 : ¬ (HB_IsLowSurrogate (uc.getD i 0) = true
      ∧ HB_IsHighSurrogate (uc.getD (i - 1) 0) = true)) :
    surrogateClass gc uc i = some (HB_LineBreak_AL, false) := by
  unfold surrogateClass
  simp only [hsg, if_true, if_neg h1, if_neg h2]

/-! ## The positioning loop -/

/-- A chain walk returns when every `back` it meets stays inside the array. -/
theorem chainWalk_isSome {α : Type} (positions : Nat → HB_PositionRec) (i : Nat)
    (step : Nat → α → α) (hback : ∀ k, k ≤ i → (positions k).back ≤ k) :
    ∀ (fuel back : Nat) (acc : α), back ≤ i → i - back < fuel →
      ∃ r, chainWalk positions i step fuel back acc = some r := by
  intro fuel
  induction fuel with
  | zero =>
    intro back acc _ h
    omega
  | succ n ih =>
    intro back acc hb hf
    rw [chainWalk]
    by_cases h0 : (positions (i - back)).back = 0
    · rw [if_pos h0]
      exact ⟨acc, rfl⟩
    · rw [if_neg h0]
      have hk := hback (i - back) (by omega)
      have hle : back + (positions (i - back)).back ≤ i := by omega
      simp only [if_pos hle]
      exact ih _ _ hle (by omega)

/-- The right-to-left walk returns when it starts with `back` at most `i + 1`. -/
theorem rtlWalk_isSome (advances : Nat → Int) (i : Nat) :
    ∀ (back : Nat) (x : Int), back ≤ i + 1 → ∃ r, rtlWalk advances i back x = some r := by
  intro back
  induction back with
  | zero =>
    intro x _
    exact ⟨x, rfl⟩
  | succ n ih =>
    intro x h
    rw [rtlWalk, if_pos (by omega)]
    exact ih _ (by omega)

/-- What one iteration of the positioning loop does to the item when it
returns: only `advances[i]` and `offsets[i]` change. -/
theorem positionStep_some (positions : Nat → HB_PositionRec) (bidiLevel i : Nat)
    (item it : HB_ShaperItem) (h : positionStep positions bidiLevel i item = some it) :
    it.advances = (fun j =>
        if j = i then
          (if (positions i).new_advance = true then
            (if bidiLevel % 2 ≠ 0 then - (positions i).x_advance else (positions i).x_advance)
           else item.advances i
             + (if bidiLevel % 2 ≠ 0 then - (positions i).x_advance
                else (positions i).x_advance))
        else item.advances j)
      ∧ it.attributes = item.attributes ∧ it.log_clusters = item.log_clusters
      ∧ it.num_glyphs = item.num_glyphs ∧ it.glyphs = item.glyphs
      ∧ it.item = item.item
      ∧ ∀ j, j ≠ i → it.offsets j = item.offsets j := by
  unfold positionStep at h
  simp only [] at h
  split at h
  · cases h
  · split at h
    · cases h
    · simp only [Option.some.injEq] at h
      subst h
      refine ⟨rfl, rfl, rfl, rfl, rfl, rfl, fun j hj => ?_⟩
      simp only [if_neg hj]

/-- One iteration of the positioning loop returns when the `back` values up
to glyph `i` stay inside the array. -/
theorem positionStep_isSome (positions : Nat → HB_PositionRec) (bidiLevel i : Nat)
    (item : HB_ShaperItem) (hback : ∀ k, k ≤ i → (positions k).back ≤ k) :
    ∃ it, positionStep positions bidiLevel i item = some it := by
  unfold positionStep
  simp only []
  obtain ⟨o, ho⟩ := chainWalk_isSome positions i
    (fun k (o : HB_FixedPoint) => (⟨o.x + (positions k).x_pos, o.y + (positions k).y_pos⟩ :
      HB_FixedPoint))
    hback (i + 1) 0 ⟨(positions i).x_pos, (positions i).y_pos⟩ (by omega) (by omega)
  rw [ho]
  simp only []
  by_cases hb : bidiLevel % 2 ≠ 0
  · simp only [if_pos hb]
    obtain ⟨x, hx⟩ := rtlWalk_isSome
      (fun j =>
        if j = i then
          (if (positions i).new_advance = true then
            (if bidiLevel % 2 ≠ 0 then - (positions i).x_advance else (positions i).x_advance)
           else item.advances i
             + (if bidiLevel % 2 ≠ 0 then - (positions i).x_advance
                else (positions i).x_advance))
        else item.advances j) i (positions i).back o.x
      (by have := hback i (Nat.le_refl i); omega)
    simp only [if_pos hb] at hx
    rw [hx]
    exact ⟨_, rfl⟩
  · simp only [if_neg hb]
    obtain ⟨x, hx⟩ := chainWalk_isSome positions i
      (fun k (x : Int) => x - (fun j =>
        if j = i then
          (if (positions i).new_advance = true then (positions i).x_advance
           else item.advances i + (positions i).x_advance)
        else item.advances j) k)
      hback (i + 1) 0 o.x (by omega) (by omega)
    rw [hx]
    exact ⟨_, rfl⟩

/-- The advance the positioning loop leaves at glyph `i`, from the advance
`a` stored before the loop. -/
theorem signed_advance (bidiLevel : Nat) (x : Int) :
    (if bidiLevel % 2 ≠ 0 then - x else x)
      = (if bidiLevel % 2 = 1 then (-1 : Int) else 1) * x := by
  by_cases h : bidiLevel % 2 = 1
  · rw [if_pos (by omega), if_pos h]
    omega
  · rw [if_neg (by omega), if_neg h]
    omega

/-- The item after `n` iterations of the positioning loop, when they return. -/
theorem positionUpTo_some (positions : Nat → HB_PositionRec) (bidiLevel : Nat)
    (item : HB_ShaperItem) :
    ∀ (n : Nat) (it : HB_ShaperItem), positionUpTo positions bidiLevel item n = some it →
      (∀ i, it.advances i =
          if i < n then
            (if (positions i).new_advance = true then
              (if bidiLevel % 2 = 1 then (-1 : Int) else 1) * (positions i).x_advance
             else item.advances i
               + (if bidiLevel % 2 = 1 then (-1 : Int) else 1) * (positions i).x_advance)
          else item.advances i)
        ∧ it.attributes = item.attributes ∧ it.log_clusters = item.log_clusters
        ∧ it.num_glyphs = item.num_glyphs ∧ it.glyphs = item.glyphs
        ∧ it.item = item.item := by
  intro n
  induction n with
  | zero =>
    intro it h
    simp only [positionUpTo, Option.some.injEq] at h
    subst h
    refine ⟨fun i => ?_, rfl, rfl, rfl, rfl, rfl⟩
    rw [if_neg (by omega)]
  | succ k ih =>
    intro it h
    rw [positionUpTo] at h
    cases hp : positionUpTo positions bidiLevel item k with
    | none =>
      rw [hp] at h
      cases h
    | some it0 =>
      rw [hp] at h
      simp only [] at h
      obtain ⟨a1, a2, a3, a4, a5, a6⟩ := ih it0 hp
      obtain ⟨s1, s2, s3, s4, s5, s6, -⟩ := positionStep_some positions bidiLevel k it0 it h
      refine ⟨fun i => ?_, by rw [s2, a2], by rw [s3, a3], by rw [s4, a4], by rw [s5, a5],
        by rw [s6, a6]⟩
      rw [s1]
      simp only []
      by_cases hik : i = k
      · subst hik
        have hk0 : it0.advances i = item.advances i := by
          rw [a1 i]
          exact if_neg (Nat.lt_irrefl i)
        have hlt1 : i < i + 1 := Nat.lt_succ_self i
        rw [if_pos rfl, if_pos hlt1, hk0, signed_advance bidiLevel]
      · rw [if_neg hik, a1 i]
        by_cases hlt : i < k
        · have hlt1 : i < k + 1 := by omega
          rw [if_pos hlt, if_pos hlt1]
        · have hlt1 : ¬ i < k + 1 := by omega
          rw [if_neg hlt, if_neg hlt1]

/-- The positioning loop returns when every `back` stays inside the array. -/
theorem positionUpTo_isSome (positions : Nat → HB_PositionRec) (bidiLevel : Nat)
    (item : HB_ShaperItem) :
    ∀ n, (∀ k, k < n → (positions k).back ≤ k) →
      ∃ it, positionUpTo positions bidiLevel item n = some it := by
  intro n
  induction n with
  | zero =>
    intro _
    exact ⟨item, rfl⟩
  | succ k ih =>
    intro hback
    obtain ⟨it0, h0⟩ := ih (fun j hj => hback j (by omega))
    rw [positionUpTo, h0]
    exact positionStep_isSome positions bidiLevel k it0 (fun j hj => hback j (by omega))

/-- C20: when the positioning pass ran and the capacity suffices, every
result of `HB_OpenTypePosition` has, at each output glyph `i`, the advance
`s * x_advance` when `new_advance` is set and `a0[i] + s * x_advance`
otherwise, with `a0` the advances `HB_GetAdvances` stored for the item
written back and `s` = -1 for an odd bidi level, +1 otherwise; and the call
returns (with true) when every `back` of the buffer stays inside the array. -/
theorem HB_OpenTypePosition_advances {GSUB GPOS : Type} (ext : Collaborators GSUB GPOS)
    (item : HB_ShaperItem) (face : HB_Face GSUB GPOS) (availableGlyphs : Nat)
    (doLogClusters : Bool)
    (hpos : (applyPositioning ext face).1 = true)
    (hcap : (applyPositioning ext face).2.buffer.in_length ≤ availableGlyphs) :
    (∀ ok item1 face1,
        HB_OpenTypePosition ext item face availableGlyphs doLogClusters
          = some (ok, item1, face1) →
        ∀ i, i < (applyPositioning ext face).2.buffer.in_length →
          item1.advances i =
            if ((applyPositioning ext face).2.buffer.positions i).new_advance = true then
              (if item.item.bidiLevel % 2 = 1 then (-1 : Int) else 1)
                * ((applyPositioning ext face).2.buffer.positions i).x_advance
            else
              ext.HB_GetAdvances (writeBack (applyPositioning ext face).2 item doLogClusters) i
                + (if item.item.bidiLevel % 2 = 1 then (-1 : Int) else 1)
                  * ((applyPositioning ext face).2.buffer.positions i).x_advance)
      ∧ ((∀ k, k < (applyPositioning ext face).2.buffer.in_length →
            ((applyPositioning ext face).2.buffer.positions k).back ≤ k) →
          ∃ item1 face1,
            HB_OpenTypePosition ext item face availableGlyphs doLogClusters
              = some (true, item1, face1)) := by
  have hno : ¬ ((applyPositioning ext face).2.glyphs_substituted = false
      ∧ (applyPositioning ext face).1 = false) := by
    rw [hpos]
    intro h
    exact absurd h.2 (by decide)
  have hcap2 : ¬ availableGlyphs < (applyPositioning ext face).2.buffer.in_length := by omega
  refine ⟨?_, ?_⟩
  · intro ok item1 face1 h i hi
    unfold HB_OpenTypePosition at h
    simp only [if_neg hno, if_neg hcap2, if_pos hpos] at h
    split at h
    · cases h
    · rename_i item4 h4
      simp only [Option.some.injEq, Prod.mk.injEq] at h
      obtain ⟨-, hitem, -⟩ := h
      have h5 := (positionUpTo_some _ _ _ _ item4 h4).1 i
      rw [if_pos hi] at h5
      rw [← hitem]
      exact h5
  · intro hback
    unfold HB_OpenTypePosition
    simp only [if_neg hno, if_neg hcap2, if_pos hpos]
    obtain ⟨it, hit⟩ := positionUpTo_isSome (applyPositioning ext face).2.buffer.positions
      item.item.bidiLevel
      { writeBack (applyPositioning ext face).2 item doLogClusters with
        advances := ext.HB_GetAdvances
          (writeBack (applyPositioning ext face).2 item doLogClusters) }
      (applyPositioning ext face).2.buffer.in_length hback
    rw [hit]
    exact ⟨_, _, rfl⟩

theorem HB_OpenTypePosition_advances_witness :
    ((applyPositioning (sampleCollaborators (passUnchanged 0) kernPass)
          (HB_OpenTypeShape (sampleCollaborators (passUnchanged 0) kernPass)
            (sampleItem [0x66, 0x69] 0 2 0 2) (sampleFace none (some ())) none).2).1 = true
      ∧ (applyPositioning (sampleCollaborators (passUnchanged 0) kernPass)
          (HB_OpenTypeShape (sampleCollaborators (passUnchanged 0) kernPass)
            (sampleItem [0x66, 0x69] 0 2 0 2) (sampleFace none (some ())) none).2
          ).2.buffer.in_length ≤ 2)
    ∧ ∃ item1 face1,
        HB_OpenTypePosition (sampleCollaborators (passUnchanged 0) kernPass)
            (sampleItem [0x66, 0x69] 0 2 0 2)
            (HB_OpenTypeShape (sampleCollaborators (passUnchanged 0) kernPass)
              (sampleItem [0x66, 0x69] 0 2 0 2) (sampleFace none (some ())) none).2 2 true
          = some (true, item1, face1)
        ∧ item1.advances 0 = 5 ∧ item1.advances 1 = 13 := by
  refine ⟨⟨by decide, by decide⟩, ?_⟩
  have hthm := HB_OpenTypePosition_advances (sampleCollaborators (passUnchanged 0) kernPass)
    (sampleItem [0x66, 0x69] 0 2 0 2)
    (HB_OpenTypeShape (sampleCollaborators (passUnchanged 0) kernPass)
      (sampleItem [0x66, 0x69] 0 2 0 2) (sampleFace none (some ())) none).2 2 true
    (by decide) (by decide)
  obtain ⟨item1, face1, h⟩ := hthm.2 (by decide)
  refine ⟨item1, face1, h, ?_, ?_⟩
  · rw [hthm.1 true item1 face1 h 0 (by decide)]
    decide
  · rw [hthm.1 true item1 face1 h 1 (by decide)]
    decide

/-! ## The write-back and the cluster rebuild -/

theorem fillLogClusters_apply (v : Nat) :
    ∀ (n : Nat) (lc : Nat → Nat) (j k : Nat),
      fillLogClusters lc v j n k = if j ≤ k ∧ k < j + n then v % 65536 else lc k := by
  intro n
  induction n with
  | zero =>
    intro lc j k
    rw [fillLogClusters, if_neg (by omega)]
  | succ m ih =>
    intro lc j k
    rw [fillLogClusters, ih]
    by_cases h1 : j + 1 ≤ k ∧ k < j + 1 + m
    · rw [if_pos h1, if_pos (by omega)]
    · rw [if_neg h1]
      simp only [setLogCluster]
      by_cases h2 : k = j
      · rw [if_pos h2, if_pos (by omega)]
      · rw [if_neg h2, if_neg (by omega)]

/-- The attributes the write-back loop stores at glyph `k`. -/
theorem writeBackUpTo_fields {GSUB GPOS : Type} (face : HB_Face GSUB GPOS)
    (item : HB_ShaperItem) :
    ∀ n, (∀ k, (writeBackUpTo face item n).attributes k =
          if k < n then
            (if k ≠ 0 ∧ (glyphAt face.buffer k).cluster = (glyphAt face.buffer (k - 1)).cluster
             then { face.tmpAttributes (glyphAt face.buffer k).cluster with
                    clusterStart := false }
             else face.tmpAttributes (glyphAt face.buffer k).cluster)
          else item.attributes k)
      ∧ (writeBackUpTo face item n).log_clusters = item.log_clusters
      ∧ (writeBackUpTo face item n).advances = item.advances
      ∧ (writeBackUpTo face item n).offsets = item.offsets
      ∧ (writeBackUpTo face item n).item = item.item := by
  intro n
  induction n with
  | zero =>
    refine ⟨fun k => ?_, rfl, rfl, rfl, rfl⟩
    rw [if_neg (by omega)]
    rfl
  | succ m ih =>
    obtain ⟨h1, h2, h3, h4, h5⟩ := ih
    refine ⟨fun k => ?_, ?_, ?_, ?_, ?_⟩
    · simp only [writeBackUpTo, setAttr]
      by_cases hk : k = m
      · have hlt : k < m + 1 := by omega
        rw [if_pos hk, if_pos hlt, hk]
      · rw [if_neg hk, h1 k]
        by_cases hlt : k < m
        · have hlt1 : k < m + 1 := by omega
          rw [if_pos hlt, if_pos hlt1]
        · have hlt1 : ¬ k < m + 1 := by omega
          rw [if_neg hlt, if_neg hlt1]
    · simp only [writeBackUpTo]
      exact h2
    · simp only [writeBackUpTo]
      exact h3
    · simp only [writeBackUpTo]
      exact h4
    · simp only [writeBackUpTo]
      exact h5

/-- Tags that grow from each glyph to the next grow along the buffer. -/
theorem tag_mono (tag : Nat → Nat) (m : Nat) (hinc : ∀ k, k < m - 1 → tag k < tag (k + 1)) :
    ∀ a b, a ≤ b → b < m → tag a ≤ tag b := by
  intro a b hab
  induction b, hab using Nat.le_induction with
  | base => intro _; exact Nat.le_refl _
  | succ n hn ih =>
    intro hb
    have := hinc n (by omega)
    have := ih (by omega)
    omega

/-- The invariant of the rebuild loop on a buffer whose tags start at 0 and
grow from glyph to glyph, all glyphs being cluster starts that are no marks. -/
theorem rebuildUpTo_sorted (b : HB_BufferRec) (attributes : Nat → HB_GlyphAttributes)
    (logClusters : Nat → Nat) (m : Nat)
    (hattr : ∀ k, k < m → (attributes k).mark = false ∧ (attributes k).clusterStart = true)
    (h0 : (glyphAt b 0).cluster = 0)
    (hinc : ∀ k, k < m - 1 → (glyphAt b k).cluster < (glyphAt b (k + 1)).cluster) :
    ∀ n, 1 ≤ n → n ≤ m →
      (rebuildUpTo b attributes logClusters n).clusterStart = n - 1
        ∧ (rebuildUpTo b attributes logClusters n).oldCi = (glyphAt b (n - 1)).cluster
        ∧ ∀ k j, k + 1 < n → (glyphAt b k).cluster ≤ j → j < (glyphAt b (k + 1)).cluster →
            (rebuildUpTo b attributes logClusters n).logClusters j = k % 65536 := by
  intro n hn
  induction n, hn using Nat.le_induction with
  | base =>
    intro _
    have hstep : rebuildUpTo b attributes logClusters 1
        = { clusterStart := 0, oldCi := 0, logClusters := logClusters } := by
      simp only [rebuildUpTo, rebuildStep, h0]
      rw [if_neg (by simp)]
    rw [hstep]
    refine ⟨rfl, by simp [h0], fun k j hk => by omega⟩
  | succ n hn ih =>
    intro hm
    obtain ⟨i1, i2, i3⟩ := ih (by omega)
    have hlt := hinc (n - 1) (by omega)
    have hn1 : n - 1 + 1 = n := by omega
    rw [hn1] at hlt
    have ha := hattr n (by omega)
    have hcond : (attributes n).mark = false ∧ (attributes n).clusterStart = true
        ∧ (glyphAt b n).cluster ≠ (rebuildUpTo b attributes logClusters n).oldCi := by
      refine ⟨ha.1, ha.2, ?_⟩
      rw [i2]
      omega
    have hstep : rebuildUpTo b attributes logClusters (n + 1)
        = { clusterStart := n, oldCi := (glyphAt b n).cluster,
            logClusters := fillLogClusters (rebuildUpTo b attributes logClusters n).logClusters
              (rebuildUpTo b attributes logClusters n).clusterStart
              (rebuildUpTo b attributes logClusters n).oldCi
              ((glyphAt b n).cluster - (rebuildUpTo b attributes logClusters n).oldCi) } := by
      show rebuildStep b attributes n (rebuildUpTo b attributes logClusters n) = _
      unfold rebuildStep
      simp only [if_pos hcond]
    rw [hstep]
    refine ⟨by simp, by simp, fun k j hk hj1 hj2 => ?_⟩
    simp only [fillLogClusters_apply, i1, i2]
    by_cases hkn : k + 1 = n
    · have hk1 : n - 1 = k := by omega
      rw [hk1] at hlt ⊢
      rw [hkn] at hj2
      rw [if_pos (by omega)]
    · have hmono := tag_mono (fun k => (glyphAt b k).cluster) m hinc (k + 1) (n - 1)
        (by omega) (by omega)
      simp only [] at hmono
      rw [if_neg (by omega)]
      exact i3 k j (by omega) hj1 hj2

/-- The cluster array after the rebuild on such a buffer: index `j` between
the tag of glyph `k` and the tag of the next glyph holds `k`, in 16 bits. -/
theorem rebuildLogClusters_sorted (b : HB_BufferRec) (length : Nat)
    (attributes : Nat → HB_GlyphAttributes) (logClusters : Nat → Nat)
    (hm : 1 ≤ b.in_length)
    (hattr : ∀ k, k < b.in_length →
      (attributes k).mark = false ∧ (attributes k).clusterStart = true)
    (h0 : (glyphAt b 0).cluster = 0)
    (hinc : ∀ k, k < b.in_length - 1 → (glyphAt b k).cluster < (glyphAt b (k + 1)).cluster)
    (k j : Nat) (hk : k < b.in_length) (hj1 : (glyphAt b k).cluster ≤ j)
    (hj2 : k < b.in_length - 1 → j < (glyphAt b (k + 1)).cluster) (hj3 : j < length) :
    rebuildLogClusters b length attributes logClusters j = k % 65536 := by
  obtain ⟨i1, i2, i3⟩ := rebuildUpTo_sorted b attributes logClusters b.in_length hattr h0 hinc
    b.in_length hm (Nat.le_refl _)
  unfold rebuildLogClusters
  simp only [fillLogClusters_apply, i1, i2]
  by_cases hlast : k = b.in_length - 1
  · rw [← hlast, if_pos (by omega)]
  · have hmono := tag_mono (fun k => (glyphAt b k).cluster) b.in_length hinc (k + 1)
      (b.in_length - 1) (by omega) (by omega)
    simp only [] at hmono
    have hj2' := hj2 (by omega)
    rw [if_neg (by omega)]
    exact i3 k j (by omega) hj1 hj2'

/-- The positioning pass touches the buffer only. -/
theorem applyPositioning_fields {GSUB GPOS : Type} (ext : Collaborators GSUB GPOS)
    (face : HB_Face GSUB GPOS) :
    (applyPositioning ext face).2.glyphs_substituted = face.glyphs_substituted
      ∧ (applyPositioning ext face).2.tmpAttributes = face.tmpAttributes
      ∧ (applyPositioning ext face).2.length = face.length
      ∧ (applyPositioning ext face).2.has_opentype_kerning = face.has_opentype_kerning := by
  unfold applyPositioning
  cases face.gpos <;> exact ⟨rfl, rfl, rfl, rfl⟩

/-- The loop of `HB_HeuristicPosition` changes nothing (the body of
`positionCluster` is compiled out). -/
theorem heuristicPositionLoop_eq :
    ∀ (n : Nat) (cEnd : Option Nat) (item : HB_ShaperItem),
      heuristicPositionLoop n cEnd item = item := by
  intro n
  induction n with
  | zero => intro cEnd item; rfl
  | succ k ih =>
    intro cEnd item
    rw [heuristicPositionLoop]
    split
    · exact ih _ _
    · split
      · rw [ih]
        rfl
      · exact ih _ _

/-- The function `HB_HeuristicPosition` stores the advances and nothing else. -/
theorem HB_HeuristicPosition_eq {GSUB GPOS : Type} (ext : Collaborators GSUB GPOS)
    (item : HB_ShaperItem) :
    HB_HeuristicPosition ext item = { item with advances := ext.HB_GetAdvances item } := by
  unfold HB_HeuristicPosition
  exact heuristicPositionLoop_eq _ _ _

/-- When something changed and the capacity suffices, every result of
`HB_OpenTypePosition` is a success that carries the glyph count, attributes
and cluster array of the write-back; the call returns when nothing was
positioned or every `back` stays inside the array. -/
theorem HB_OpenTypePosition_written {GSUB GPOS : Type} (ext : Collaborators GSUB GPOS)
    (item : HB_ShaperItem) (face : HB_Face GSUB GPOS) (availableGlyphs : Nat)
    (doLogClusters : Bool)
    (hchanged : face.glyphs_substituted = true ∨ (applyPositioning ext face).1 = true)
    (hcap : (applyPositioning ext face).2.buffer.in_length ≤ availableGlyphs) :
    (∀ ok item1 face1,
        HB_OpenTypePosition ext item face availableGlyphs doLogClusters
          = some (ok, item1, face1) →
        ok = true
          ∧ item1.num_glyphs
              = (writeBack (applyPositioning ext face).2 item doLogClusters).num_glyphs
          ∧ item1.attributes
              = (writeBack (applyPositioning ext face).2 item doLogClusters).attributes
          ∧ item1.log_clusters
              = (writeBack (applyPositioning ext face).2 item doLogClusters).log_clusters)
      ∧ (((applyPositioning ext face).1 = false
            ∨ ∀ k, k < (applyPositioning ext face).2.buffer.in_length →
                ((applyPositioning ext face).2.buffer.positions k).back ≤ k) →
          ∃ item1 face1,
            HB_OpenTypePosition ext item face availableGlyphs doLogClusters
              = some (true, item1, face1)) := by
  have hno : ¬ ((applyPositioning ext face).2.glyphs_substituted = false
      ∧ (applyPositioning ext face).1 = false) := by
    rw [(applyPositioning_fields ext face).1]
    intro h
    rcases hchanged with h1 | h1
    · rw [h1] at h
      exact absurd h.1 (by decide)
    · rw [h1] at h
      exact absurd h.2 (by decide)
  have hcap2 : ¬ availableGlyphs < (applyPositioning ext face).2.buffer.in_length := by omega
  refine ⟨?_, ?_⟩
  · intro ok item1 face1 h
    unfold HB_OpenTypePosition at h
    simp only [if_neg hno, if_neg hcap2] at h
    by_cases hpos : (applyPositioning ext face).1 = true
    · simp only [if_pos hpos] at h
      split at h
      · cases h
      · rename_i item4 h4
        simp only [Option.some.injEq, Prod.mk.injEq] at h
        obtain ⟨hok, hitem, -⟩ := h
        obtain ⟨-, a2, a3, a4, -, -⟩ := positionUpTo_some _ _ _ _ item4 h4
        rw [← hitem]
        exact ⟨hok.symm, a4, a2, a3⟩
    · simp only [if_neg hpos, Option.some.injEq, Prod.mk.injEq] at h
      obtain ⟨hok, hitem, -⟩ := h
      rw [← hitem, HB_HeuristicPosition_eq]
      exact ⟨hok.symm, rfl, rfl, rfl⟩
  · intro hret
    unfold HB_OpenTypePosition
    simp only [if_neg hno, if_neg hcap2]
    by_cases hpos : (applyPositioning ext face).1 = true
    · simp only [if_pos hpos]
      have hback : ∀ k, k < (applyPositioning ext face).2.buffer.in_length →
          ((applyPositioning ext face).2.buffer.positions k).back ≤ k := by
        rcases hret with h | h
        · rw [hpos] at h
          cases h
        · exact h
      obtain ⟨it, hit⟩ := positionUpTo_isSome (applyPositioning ext face).2.buffer.positions
        item.item.bidiLevel
        { writeBack (applyPositioning ext face).2 item doLogClusters with
          advances := ext.HB_GetAdvances
            (writeBack (applyPositioning ext face).2 item doLogClusters) }
        (applyPositioning ext face).2.buffer.in_length hback
      rw [hit]
      exact ⟨_, _, rfl⟩
    · simp only [if_neg hpos]
      exact ⟨_, _, rfl⟩

/-- The write-back on a buffer whose tags start at 0 and grow from glyph to
glyph, with snapshot attributes at the tags that are cluster starts and no
marks: the glyph count is the buffer length, every glyph keeps its snapshot
attributes, and index `j` of the cluster array holds `maxTagIndex` in 16 bits. -/
theorem writeBack_sorted {GSUB GPOS : Type} (face : HB_Face GSUB GPOS) (item : HB_ShaperItem)
    (hm : 1 ≤ face.buffer.in_length)
    (h0 : (glyphAt face.buffer 0).cluster = 0)
    (hinc : ∀ k, k < face.buffer.in_length - 1 →
      (glyphAt face.buffer k).cluster < (glyphAt face.buffer (k + 1)).cluster)
    (hattr : ∀ k, k < face.buffer.in_length →
      (face.tmpAttributes (glyphAt face.buffer k).cluster).mark = false
        ∧ (face.tmpAttributes (glyphAt face.buffer k).cluster).clusterStart = true) :
    (writeBack face item true).num_glyphs = face.buffer.in_length
      ∧ (∀ k, k < face.buffer.in_length →
          (writeBack face item true).attributes k
            = face.tmpAttributes (glyphAt face.buffer k).cluster)
      ∧ ∀ j, j < face.length →
          (writeBack face item true).log_clusters j
            = maxTagIndex (fun k => (glyphAt face.buffer k).cluster) face.buffer.in_length j
                % 65536 := by
  have hfields := writeBackUpTo_fields face item face.buffer.in_length
  have hA : ∀ k, k < face.buffer.in_length →
      (writeBackUpTo face item face.buffer.in_length).attributes k
        = face.tmpAttributes (glyphAt face.buffer k).cluster := by
    intro k hk
    rw [hfields.1 k, if_pos hk]
    by_cases hk0 : k = 0
    · rw [if_neg (fun h => h.1 hk0)]
    · have := hinc (k - 1) (by omega)
      have hk1 : k - 1 + 1 = k := by omega
      rw [hk1] at this
      rw [if_neg (fun h => by omega)]
  refine ⟨rfl, hA, ?_⟩
  intro j hj
  have hK : ∃ K, maxTagIndex (fun k => (glyphAt face.buffer k).cluster)
        face.buffer.in_length j = K
      ∧ K ≤ face.buffer.in_length - 1 ∧ (glyphAt face.buffer K).cluster ≤ j
      ∧ ∀ l, K < l → l ≤ face.buffer.in_length - 1 → ¬ (glyphAt face.buffer l).cluster ≤ j := by
    refine ⟨_, rfl, ?_, ?_, ?_⟩
    · exact Nat.findGreatest_le (P := fun k => (glyphAt face.buffer k).cluster ≤ j)
        (face.buffer.in_length - 1)
    · exact Nat.findGreatest_spec (P := fun k => (glyphAt face.buffer k).cluster ≤ j)
        (Nat.zero_le (face.buffer.in_length - 1)) (by show (glyphAt face.buffer 0).cluster ≤ j; omega)
    · intro l h1 h2
      exact Nat.findGreatest_is_greatest
        (P := fun k => (glyphAt face.buffer k).cluster ≤ j) h1 h2
  obtain ⟨K, hKeq, hK1, hK2, hK3⟩ := hK
  rw [hKeq]
  show rebuildLogClusters face.buffer face.length
      (writeBackUpTo face item face.buffer.in_length).attributes
      (writeBackUpTo face item face.buffer.in_length).log_clusters j = _
  apply rebuildLogClusters_sorted face.buffer face.length _ _ hm _ h0 hinc
  · omega
  · exact hK2
  · intro hk
    have := hK3 (K + 1) (by omega) (by omega)
    omega
  · exact hj
  · intro k hk
    rw [hA k hk]
    exact hattr k hk

/-- The buffer after `n` calls of `hb_buffer_add_glyph`: the glyphs of the item
are appended in order, glyph `k` with the cluster tag `k`. -/
theorem addGlyphsUpTo_in_string (item : HB_ShaperItem) (properties : Option (Nat → Nat))
    (b : HB_BufferRec) :
    ∀ n, (addGlyphsUpTo item properties b n).in_string
      = b.in_string ++ (List.range n).map (fun k =>
          (⟨item.glyphs k, (match properties with
                            | some p => p k
                            | none => 0), k⟩ : HB_GlyphItemRec)) := by
  intro n
  induction n with
  | zero => simp [addGlyphsUpTo]
  | succ m ih =>
    simp only [addGlyphsUpTo, hb_buffer_add_glyph, ih, List.range_succ, List.map_append,
      List.map_cons, List.map_nil, List.append_assoc]

/-- The buffer `HB_OpenTypeShape` builds from an empty one: `n` glyphs, glyph
`k` tagged `k`. -/
theorem addGlyphsUpTo_glyphAt (item : HB_ShaperItem) (properties : Option (Nat → Nat))
    (b : HB_BufferRec) (hb : b.in_string = []) (n : Nat) :
    (addGlyphsUpTo item properties b n).in_length = n
      ∧ ∀ k, k < n → (glyphAt (addGlyphsUpTo item properties b n) k).cluster = k := by
  have h := addGlyphsUpTo_in_string item properties b n
  rw [hb, List.nil_append] at h
  refine ⟨?_, fun k hk => ?_⟩
  · unfold HB_BufferRec.in_length
    rw [h, List.length_map, List.length_range]
  · unfold glyphAt
    rw [h, List.getD_eq_getElem?_getD, List.getElem?_map, List.getElem?_range hk]
    rfl

/-! ## The claims on the dispatch and on script selection -/

/-- The table `HB_ScriptEngines` has one entry per script. -/
theorem HB_ScriptEngines_length {GSUB GPOS : Type} (ext : Collaborators GSUB GPOS) :
    (HB_ScriptEngines ext).length = HB_ScriptCount := rfl

/-- C11: with a capacity `num_glyphs` below the run length `HB_ShapeItem`
returns false with `num_glyphs` set to the run length and nothing else of the
item or the face changed, whatever the shapers are; otherwise (for a script of
the table) it returns what the shape operation of `HB_ScriptEngines` for the
script of the item returns. -/
theorem HB_ShapeItem_capacity {GSUB GPOS : Type} (ext : Collaborators GSUB GPOS)
    (item : HB_ShaperItem) (face : HB_Face GSUB GPOS) :
    (item.num_glyphs < item.item.length →
        HB_ShapeItem ext item face
            = some (false, { item with num_glyphs := item.item.length }, face)
          ∧ ∀ ext2 : Collaborators GSUB GPOS,
              HB_ShapeItem ext2 item face = HB_ShapeItem ext item face)
      ∧ (item.item.length ≤ item.num_glyphs → item.item.script < HB_ScriptCount →
          ∃ engine, (HB_ScriptEngines ext)[item.item.script]? = some engine
            ∧ HB_ShapeItem ext item face = engine.shape item face) := by
  refine ⟨fun h => ⟨?_, fun ext2 => ?_⟩, fun h hs => ?_⟩
  · unfold HB_ShapeItem
    rw [if_pos h]
  · unfold HB_ShapeItem
    rw [if_pos h, if_pos h]
  · have hlt : item.item.script < (HB_ScriptEngines ext).length := by
      rw [HB_ScriptEngines_length]
      exact hs
    refine ⟨(HB_ScriptEngines ext)[item.item.script], List.getElem?_eq_getElem hlt, ?_⟩
    unfold HB_ShapeItem
    rw [if_neg (by omega), if_pos hs, List.getElem?_eq_getElem hlt]

theorem HB_ShapeItem_capacity_witness :
    ((sampleItem [0x66, 0x69] 0 2 0 1).num_glyphs < (sampleItem [0x66, 0x69] 0 2 0 1).item.length
      ∧ (sampleItem [0x66, 0x69] 0 2 0 2).item.length ≤ (sampleItem [0x66, 0x69] 0 2 0 2).num_glyphs
      ∧ (sampleItem [0x66, 0x69] 0 2 0 2).item.script < HB_ScriptCount)
    ∧ HB_ShapeItem (sampleCollaborators (passUnchanged 0) (passUnchanged 0)) (sampleItem [0x66, 0x69] 0 2 0 1)
          (sampleFace none none)
        = some (false,
            { sampleItem [0x66, 0x69] 0 2 0 1 with
              num_glyphs := (sampleItem [0x66, 0x69] 0 2 0 1).item.length },
            sampleFace none none)
    ∧ ∃ engine,
        (HB_ScriptEngines (sampleCollaborators (passUnchanged 0) (passUnchanged 0)))[
            (sampleItem [0x66, 0x69] 0 2 0 2).item.script]? = some engine
          ∧ HB_ShapeItem (sampleCollaborators (passUnchanged 0) (passUnchanged 0))
              (sampleItem [0x66, 0x69] 0 2 0 2) (sampleFace none none)
            = engine.shape (sampleItem [0x66, 0x69] 0 2 0 2) (sampleFace none none) :=
  ⟨⟨by decide, by decide, by decide⟩,
    ((HB_ShapeItem_capacity (sampleCollaborators (passUnchanged 0) (passUnchanged 0))
      (sampleItem [0x66, 0x69] 0 2 0 1) (sampleFace none none)).1 (by decide)).1,
    (HB_ShapeItem_capacity (sampleCollaborators (passUnchanged 0) (passUnchanged 0))
      (sampleItem [0x66, 0x69] 0 2 0 2) (sampleFace none none)).2 (by decide) (by decide)⟩

/-- C12: when substitution or positioning changed something and the buffer
(as the positioning pass leaves it) holds more glyphs than `availableGlyphs`,
`HB_OpenTypePosition` returns false, `num_glyphs` is the glyph count of the
buffer and the arrays of the item are those of the entry. -/
theorem HB_OpenTypePosition_capacity {GSUB GPOS : Type} (ext : Collaborators GSUB GPOS)
    (item : HB_ShaperItem) (face : HB_Face GSUB GPOS) (availableGlyphs : Nat)
    (doLogClusters : Bool)
    (hchanged : face.glyphs_substituted = true ∨ (applyPositioning ext face).1 = true)
    (hcap : availableGlyphs < (applyPositioning ext face).2.buffer.in_length) :
    ∃ item1 face1,
      HB_OpenTypePosition ext item face availableGlyphs doLogClusters
          = some (false, item1, face1)
        ∧ item1.num_glyphs = (applyPositioning ext face).2.buffer.in_length
        ∧ item1.glyphs = item.glyphs ∧ item1.attributes = item.attributes
        ∧ item1.log_clusters = item.log_clusters ∧ item1.advances = item.advances
        ∧ item1.offsets = item.offsets
        ∧ item1 = { item with num_glyphs := (applyPositioning ext face).2.buffer.in_length } := by
  have hsub : (applyPositioning ext face).2.glyphs_substituted = face.glyphs_substituted := by
    unfold applyPositioning
    cases face.gpos <;> rfl
  refine ⟨{ item with num_glyphs := (applyPositioning ext face).2.buffer.in_length },
    (applyPositioning ext face).2, ?_, rfl, rfl, rfl, rfl, rfl, rfl, rfl⟩
  unfold HB_OpenTypePosition
  have hno : ¬ ((applyPositioning ext face).2.glyphs_substituted = false
      ∧ (applyPositioning ext face).1 = false) := by
    rw [hsub]
    intro h
    rcases hchanged with h1 | h1
    · rw [h1] at h
      exact absurd h.1 (by decide)
    · rw [h1] at h
      exact absurd h.2 (by decide)
  simp only [if_neg hno, if_pos hcap]

theorem HB_OpenTypePosition_capacity_witness :
    (((HB_OpenTypeShape (sampleCollaborators (passUnchanged 0) (passUnchanged 0))
          (sampleItem [0x66, 0x69] 0 2 0 2) (sampleFace (some ()) none) none).2.glyphs_substituted
          = true
        ∨ (applyPositioning (sampleCollaborators (passUnchanged 0) (passUnchanged 0))
            (HB_OpenTypeShape (sampleCollaborators (passUnchanged 0) (passUnchanged 0))
              (sampleItem [0x66, 0x69] 0 2 0 2) (sampleFace (some ()) none) none).2).1 = true)
      ∧ 1 < (applyPositioning (sampleCollaborators (passUnchanged 0) (passUnchanged 0))
            (HB_OpenTypeShape (sampleCollaborators (passUnchanged 0) (passUnchanged 0))
              (sampleItem [0x66, 0x69] 0 2 0 2) (sampleFace (some ()) none)
              none).2).2.buffer.in_length)
    ∧ ∃ item1 face1,
        HB_OpenTypePosition (sampleCollaborators (passUnchanged 0) (passUnchanged 0))
            (sampleItem [0x66, 0x69] 0 2 0 2)
            (HB_OpenTypeShape (sampleCollaborators (passUnchanged 0) (passUnchanged 0))
              (sampleItem [0x66, 0x69] 0 2 0 2) (sampleFace (some ()) none) none).2 1 true
          = some (false, item1, face1)
        ∧ item1.num_glyphs = 2
        ∧ item1.glyphs = (sampleItem [0x66, 0x69] 0 2 0 2).glyphs
        ∧ item1.attributes = (sampleItem [0x66, 0x69] 0 2 0 2).attributes
        ∧ item1.log_clusters = (sampleItem [0x66, 0x69] 0 2 0 2).log_clusters
        ∧ item1.advances = (sampleItem [0x66, 0x69] 0 2 0 2).advances
        ∧ item1.offsets = (sampleItem [0x66, 0x69] 0 2 0 2).offsets :=
  ⟨⟨Or.inl (by decide), by decide⟩,
    by
      obtain ⟨item1, face1, h, h1, h2, h3, h4, h5, h6, -⟩ :=
        HB_OpenTypePosition_capacity (sampleCollaborators (passUnchanged 0) (passUnchanged 0))
          (sampleItem [0x66, 0x69] 0 2 0 2)
          (HB_OpenTypeShape (sampleCollaborators (passUnchanged 0) (passUnchanged 0))
            (sampleItem [0x66, 0x69] 0 2 0 2) (sampleFace (some ()) none) none).2 1 true
          (Or.inl (by decide)) (by decide)
      exact ⟨item1, face1, h, h1, h2, h3, h4, h5, h6⟩⟩

/-- A call of `HB_SelectScript` that returns leaves the support flags alone,
and with the script supported it leaves the script and flags of the item in
the cache and returns true. -/
theorem HB_SelectScript_result {GSUB GPOS : Type} (ext : Collaborators GSUB GPOS)
    (item : HB_ShaperItem) (face : HB_Face GSUB GPOS) (features : Option (List (Nat × Nat)))
    (r : Bool) (face1 : HB_Face GSUB GPOS)
    (h : HB_SelectScript ext item face features = some (r, face1)) :
    face1.supported_scripts = face.supported_scripts
      ∧ (face.supported_scripts item.item.script = true →
          r = true ∧ face1.current_script = item.item.script
            ∧ face1.current_flags = item.shaperFlags)
      ∧ (face.supported_scripts item.item.script = false → r = false ∧ face1 = face) := by
  unfold HB_SelectScript at h
  by_cases hs : face.supported_scripts item.item.script = false
  · simp only [if_pos hs, Option.some.injEq, Prod.mk.injEq] at h
    refine ⟨by rw [← h.2], fun hc => ?_, fun _ => ⟨h.1.symm, h.2.symm⟩⟩
    rw [hs] at hc
    cases hc
  · have hst : face.supported_scripts item.item.script = true := by
      cases hv : face.supported_scripts item.item.script
      · exact absurd hv hs
      · rfl
    simp only [if_neg hs] at h
    by_cases hc : face.current_script = item.item.script
        ∧ face.current_flags = item.shaperFlags
    · simp only [if_pos hc, Option.some.injEq, Prod.mk.injEq] at h
      refine ⟨by rw [← h.2], fun _ => ⟨h.1.symm, ?_, ?_⟩, fun hf => absurd hf hs⟩
      · rw [← h.2]
        exact hc.1
      · rw [← h.2]
        exact hc.2
    · simp only [if_neg hc] at h
      by_cases hn : item.item.script < HB_ScriptCount
      · simp only [if_pos hn, Option.some.injEq, Prod.mk.injEq] at h
        refine ⟨by rw [← h.2], fun _ => ⟨h.1.symm, ?_, ?_⟩, fun hf => absurd hf hs⟩
        · rw [← h.2]
        · rw [← h.2]
      · simp only [if_neg hn] at h
        cases h

/-- C13: after a call of `HB_SelectScript` that returned on a supported
script, a second call with the same script and flags (and any feature list)
returns true and leaves the face as the first call left it; a call returns
false exactly when the script is not supported, and then the face is the one
of the entry; for a script of the table the call returns. -/
theorem HB_SelectScript_idempotent {GSUB GPOS : Type} (ext : Collaborators GSUB GPOS)
    (item item2 : HB_ShaperItem) (face : HB_Face GSUB GPOS)
    (features features2 : Option (List (Nat × Nat)))
    (hscript : item2.item.script = item.item.script)
    (hflags : item2.shaperFlags = item.shaperFlags) :
    (∀ r face1, face.supported_scripts item.item.script = true →
        HB_SelectScript ext item face features = some (r, face1) →
        r = true ∧ HB_SelectScript ext item2 face1 features2 = some (true, face1))
      ∧ ((∃ face1, HB_SelectScript ext item face features = some (false, face1))
          ↔ face.supported_scripts item.item.script = false)
      ∧ (face.supported_scripts item.item.script = false →
          HB_SelectScript ext item face features = some (false, face))
      ∧ (item.item.script < HB_ScriptCount →
          ∃ r face1, HB_SelectScript ext item face features = some (r, face1)) := by
  have hfalse : face.supported_scripts item.item.script = false →
      HB_SelectScript ext item face features = some (false, face) := by
    intro hs
    unfold HB_SelectScript
    simp only [if_pos hs]
  refine ⟨?_, ?_, hfalse, ?_⟩
  · intro r face1 hs h
    obtain ⟨h1, h2, -⟩ := HB_SelectScript_result ext item face features r face1 h
    obtain ⟨hr, hcs, hcf⟩ := h2 hs
    refine ⟨hr, ?_⟩
    unfold HB_SelectScript
    have hs1 : ¬ face1.supported_scripts item2.item.script = false := by
      rw [h1, hscript, hs]
      decide
    have hhit : face1.current_script = item2.item.script
        ∧ face1.current_flags = item2.shaperFlags := by
      rw [hscript, hflags]
      exact ⟨hcs, hcf⟩
    simp only [if_neg hs1, if_pos hhit]
  · constructor
    · rintro ⟨face1, h⟩
      obtain ⟨-, h2, -⟩ := HB_SelectScript_result ext item face features false face1 h
      cases hv : face.supported_scripts item.item.script
      · rfl
      · exact absurd (h2 hv).1 (by decide)
    · intro hs
      exact ⟨face, hfalse hs⟩
  · intro hn
    unfold HB_SelectScript
    by_cases hs : face.supported_scripts item.item.script = false
    · simp only [if_pos hs]
      exact ⟨_, _, rfl⟩
    · simp only [if_neg hs]
      by_cases hc : face.current_script = item.item.script
          ∧ face.current_flags = item.shaperFlags
      · simp only [if_pos hc]
        exact ⟨_, _, rfl⟩
      · simp only [if_neg hc, if_pos hn]
        exact ⟨_, _, rfl⟩

theorem HB_SelectScript_idempotent_witness :
    ((sampleItem [0x66, 0x69] 0 2 0 2).item.script = (sampleItem [0x61] 0 1 0 1).item.script
      ∧ (sampleItem [0x66, 0x69] 0 2 0 2).shaperFlags = (sampleItem [0x61] 0 1 0 1).shaperFlags
      ∧ (sampleItem [0x61] 0 1 0 1).item.script < HB_ScriptCount)
    ∧ ∃ r face1,
        HB_SelectScript (sampleCollaborators (passUnchanged 0) (passUnchanged 0)) (sampleItem [0x61] 0 1 0 1)
            (sampleFace (some ()) (some ()))
            (some (basic_features (sampleCollaborators (passUnchanged 0) (passUnchanged 0))))
          = some (r, face1)
        ∧ r = true
        ∧ HB_SelectScript (sampleCollaborators (passUnchanged 0) (passUnchanged 0))
            (sampleItem [0x66, 0x69] 0 2 0 2) face1 none = some (true, face1) := by
  refine ⟨⟨by decide, by decide, by decide⟩, ?_⟩
  have hthm := HB_SelectScript_idempotent (sampleCollaborators (passUnchanged 0) (passUnchanged 0))
    (sampleItem [0x61] 0 1 0 1) (sampleItem [0x66, 0x69] 0 2 0 2)
    (sampleFace (some ()) (some ()))
    (some (basic_features (sampleCollaborators (passUnchanged 0) (passUnchanged 0)))) none
    (by decide) (by decide)
  obtain ⟨r, face1, h⟩ := hthm.2.2.2 (by decide)
  exact ⟨r, face1, h, (hthm.1 r face1 (by decide) h).1, (hthm.1 r face1 (by decide) h).2⟩

/-! ## The default shaper and the character attributes at concrete requests -/

/-- C15: the pipeline on the run "surrogate pair, f, i" (4 code units, 3
glyphs) with a substitution that joins f and i into one ligature. After
`HB_HeuristicSetGlyphAttributes`, `HB_OpenTypeShape` and a successful
`HB_OpenTypePosition` with `doLogClusters` there are 2 glyphs and the cluster
array over the 4 code units is 0, 1, 1, 2: the entry of the last code unit is
not below the glyph count, and the low surrogate is mapped to glyph 1. -/
theorem HB_OpenTypePosition_clusters_surrogate_pair :
    (heuristicSetGlyphAttributesItem
        (sampleCollaborators ligaturePass (passUnchanged 0))
        { sampleItem [0xd800, 0xdc00, 0x66, 0x69] 0 4 0 3 with
          glyphs := fun i => [0x1, 0x66, 0x69].getD i 0 }
        (sampleFace (some ()) none)).bind
      (fun it =>
        (HB_OpenTypePosition
          (sampleCollaborators ligaturePass (passUnchanged 0)) it
          (HB_OpenTypeShape
            (sampleCollaborators ligaturePass (passUnchanged 0))
            it (sampleFace (some ()) none) none).2 3 true).map
          (fun r => (r.1, r.2.1.num_glyphs, List.map r.2.1.log_clusters [0, 1, 2, 3])))
      = some (true, 2, [0, 1, 1, 2]) := by
  decide

/-- C16: `HB_HeuristicSetGlyphAttributes` on a run of length 0 with 0 glyphs,
alone and as reached from `HB_ShapeItem`. It returns, and glyph 0 of the
attribute array is overwritten (`mark` goes from true to false) with a
`dontPrint` flag that is read from the code unit at the position of the run
(true for U+00AD, false for "a"); the justification is stored at the glyph
found in `log_clusters[4294967295]` (glyph 9 here), the index `length - 1`
computed without sign. -/
theorem HB_HeuristicSetGlyphAttributes_empty_run :
    ((sampleItem [0xad] 0 0 0 0).attributes 0).mark = true
      ∧ ((sampleItem [0xad] 0 0 0 0).attributes 9).justification
          = HB_JustificationClass.HB_NoJustification
      ∧ (sampleItem [0xad] 0 0 0 0).log_clusters 4294967295 = 9
      ∧ (heuristicSetGlyphAttributesItem (sampleCollaborators (passUnchanged 0) (passUnchanged 0))
            (sampleItem [0xad] 0 0 0 0) (sampleFace none none)).map
          (fun r => ((r.attributes 0).mark, (r.attributes 0).dontPrint,
                     (r.attributes 9).justification))
          = some (false, true, HB_JustificationClass.HB_Character)
      ∧ (heuristicSetGlyphAttributesItem (sampleCollaborators (passUnchanged 0) (passUnchanged 0))
            (sampleItem [0x61] 0 0 0 0) (sampleFace none none)).map
          (fun r => ((r.attributes 0).mark, (r.attributes 0).dontPrint,
                     (r.attributes 9).justification))
          = some (false, false, HB_JustificationClass.HB_Character)
      ∧ (HB_ShapeItem (sampleCollaborators (passUnchanged 0) (passUnchanged 0))
            (sampleItem [0xad] 0 0 0 0) (sampleFace none none)).map
          (fun r => (r.1, (r.2.1.attributes 0).mark, (r.2.1.attributes 0).dontPrint,
                     (r.2.1.attributes 9).justification))
          = some (true, false, true, HB_JustificationClass.HB_Character) := by
  decide

/-- With at least one run the loop of `HB_GetCharAttributes` is not entered:
the result is the one of `calcLineBreaks`, whatever the attribute functions. -/
theorem HB_GetCharAttributes_of_ne_nil {GSUB GPOS : Type} (ext : Collaborators GSUB GPOS)
    (string : List HB_UChar16) (items : List HB_ScriptItem)
    (attributes : Nat → HB_CharAttributes) (h : items ≠ []) :
    HB_GetCharAttributes ext string items attributes
      = some (calcLineBreaks ext.HB_GetLineBreakClass string attributes) := by
  unfold HB_GetCharAttributes
  have hlen : ¬ 0 ≥ items.length := by
    have := List.length_pos.mpr h
    omega
  rw [getCharAttributesLoop, if_neg hlen]

/-- Without a run the loop of `HB_GetCharAttributes` is entered and reads
`items[0]`, outside the array: the call does not return. -/
theorem HB_GetCharAttributes_nil {GSUB GPOS : Type} (ext : Collaborators GSUB GPOS)
    (string : List HB_UChar16) (attributes : Nat → HB_CharAttributes) :
    HB_GetCharAttributes ext string [] attributes = none := by
  unfold HB_GetCharAttributes
  rfl

/-- C17: `HB_GetCharAttributes` on a Devanagari run of two code units, whose
script has the attribute function `HB_IndicAttributes` (here one that clears
`charStop`). The call returns the result of `calcLineBreaks` with `charStop`
still set at both code units: the attribute function was not applied. With
an empty run list the call does not return. -/
theorem HB_GetCharAttributes_skips_runs :
    ((HB_ScriptEngines (sampleCollaborators (passUnchanged 0) (passUnchanged 0))).getD 8
        ⟨fun item face => some (true, item, face), none⟩).charAttributes.isSome = true
      ∧ (HB_GetCharAttributes (sampleCollaborators (passUnchanged 0) (passUnchanged 0)) [0x915, 0x94d]
            [⟨0, 2, 8, 0⟩] (constAttributes HB_LineBreakType.HB_Break)).map
          (fun a => ((a 0).charStop, (a 1).charStop)) = some (true, true)
      ∧ ((sampleAttributeFunction 8 [0x915, 0x94d] 0 2
            (calcLineBreaks sampleLineBreakClass [0x915, 0x94d]
              (constAttributes HB_LineBreakType.HB_Break)) 0).charStop,
          (sampleAttributeFunction 8 [0x915, 0x94d] 0 2
            (calcLineBreaks sampleLineBreakClass [0x915, 0x94d]
              (constAttributes HB_LineBreakType.HB_Break)) 1).charStop) = (false, false)
      ∧ (HB_GetCharAttributes (sampleCollaborators (passUnchanged 0) (passUnchanged 0)) [0x915, 0x94d]
            [] (constAttributes HB_LineBreakType.HB_Break)).isNone = true := by
  decide

/-- C18: `HB_BasicShape` on "fi", script Common. With a substitution table
whose `HB_GSUB_Apply_String` returns the error 0x1001 (neither 0 nor
`HB_Err_Not_Covered` = 0x1002) and no positioning table, `HB_OpenTypeShape`
returns false and `HB_BasicShape` returns true. With a positioning table whose
`HB_GPOS_Apply_String` returns the error 0x1001, `HB_BasicShape` returns true. -/
theorem HB_BasicShape_ignores_table_errors :
    (sampleCollaborators (passUnchanged 0x1001) (passUnchanged 0x1001)).HB_Err_Not_Covered = 0x1002
      ∧ (HB_OpenTypeShape (sampleCollaborators (passUnchanged 0x1001) (passUnchanged 0x1001))
            (sampleItem [0x66, 0x69] 0 2 0 2) (sampleFace (some ()) none) none).1 = false
      ∧ (HB_BasicShape (sampleCollaborators (passUnchanged 0x1001) (passUnchanged 0x1001))
            (sampleItem [0x66, 0x69] 0 2 0 2) (sampleFace (some ()) none)).map (fun r => r.1)
          = some true
      ∧ (HB_BasicShape (sampleCollaborators (passUnchanged 0x1002) (passUnchanged 0x1001))
            (sampleItem [0x66, 0x69] 0 2 0 2) (sampleFace none (some ()))).map (fun r => r.1)
          = some true := by
  decide

/-- C19: `HB_BasicShape` on "fi", script Common, on a face without GSUB and
GPOS table. Glyph mapping and script selection succeed, nothing is
substituted or positioned, and `HB_BasicShape` returns true with the advances
of the entry (77), not those of `HB_GetAdvances` (10): the heuristic
positioner was not run. When script selection fails it is run. -/
theorem HB_BasicShape_skips_heuristic_position :
    checkScript (sampleCollaborators (passUnchanged 0) (passUnchanged 0)) (sampleFace none none)
        HB_Script_Common = some true
      ∧ (HB_SelectScript (sampleCollaborators (passUnchanged 0) (passUnchanged 0))
            (sampleItem [0x66, 0x69] 0 2 0 2) (sampleFace none none)
            (some (basic_features (sampleCollaborators (passUnchanged 0) (passUnchanged 0))))).map
          (fun r => r.1) = some true
      ∧ (sampleItem [0x66, 0x69] 0 2 0 2).advances 0 = 77
      ∧ (sampleCollaborators (passUnchanged 0) (passUnchanged 0)).HB_GetAdvances
          (sampleItem [0x66, 0x69] 0 2 0 2) 0 = 10
      ∧ (HB_BasicShape (sampleCollaborators (passUnchanged 0) (passUnchanged 0))
            (sampleItem [0x66, 0x69] 0 2 0 2) (sampleFace none none)).map
          (fun r => (r.1, r.2.1.advances 0, r.2.1.advances 1)) = some (true, 77, 77)
      ∧ (HB_BasicShape (sampleCollaborators (passUnchanged 0) (passUnchanged 0))
            (sampleItem [0x66, 0x69] 0 2 0 2)
            { sampleFace none none with supported_scripts := fun _ => false }).map
          (fun r => (r.1, r.2.1.advances 0, r.2.1.advances 1)) = some (true, 10, 10) := by
  decide

/-! ## The cluster rebuild after substitution -/

/-- A checked fill whose last index is below `size` is the fill of the model. -/
theorem fillLogClustersChecked_eq (size v : Nat) :
    ∀ (n : Nat) (lc : Nat → Nat) (j : Nat), (n = 0 ∨ j + n ≤ size) →
      fillLogClustersChecked size lc v j n = some (fillLogClusters lc v j n) := by
  intro n
  induction n with
  | zero =>
    intro lc j _
    rfl
  | succ m ih =>
    intro lc j h
    rw [fillLogClustersChecked, if_pos (by omega), fillLogClusters]
    exact ih _ _ (by omega)

/-- When every cluster tag of the buffer is below `length`, the checked loop
never stores outside and is the loop of the model; `oldCi` is a tag or 0. -/
theorem rebuildUpToChecked_eq (b : HB_BufferRec) (length : Nat)
    (attributes : Nat → HB_GlyphAttributes) (lc : Nat → Nat)
    (htags : ∀ k, k < b.in_length → (glyphAt b k).cluster < length) :
    ∀ n, n ≤ b.in_length →
      rebuildUpToChecked length b attributes lc n = some (rebuildUpTo b attributes lc n)
        ∧ ((rebuildUpTo b attributes lc n).oldCi = 0
            ∨ (rebuildUpTo b attributes lc n).oldCi < length) := by
  intro n
  induction n with
  | zero =>
    intro _
    exact ⟨rfl, Or.inl rfl⟩
  | succ k ih =>
    intro hk
    obtain ⟨e, ho⟩ := ih (by omega)
    have ht := htags k (by omega)
    rw [rebuildUpToChecked, e]
    simp only []
    have e1 : rebuildUpTo b attributes lc (k + 1)
        = rebuildStep b attributes k (rebuildUpTo b attributes lc k) := rfl
    rw [e1]
    generalize rebuildUpTo b attributes lc k = S at *
    unfold rebuildStepChecked rebuildStep
    simp only []
    by_cases hc : (attributes k).mark = false ∧ (attributes k).clusterStart = true
        ∧ (glyphAt b k).cluster ≠ S.oldCi
    · simp only [if_pos hc]
      rw [fillLogClustersChecked_eq length S.clusterStart _ _ _ (by omega)]
      exact ⟨rfl, Or.inr ht⟩
    · simp only [if_neg hc]
      exact ⟨trivial, ho⟩

/-- When every cluster tag of the buffer is below `length`, the checked
rebuild never stores outside `0 .. length-1` and is the rebuild of the model. -/
theorem rebuildLogClustersChecked_eq (b : HB_BufferRec) (length : Nat)
    (attributes : Nat → HB_GlyphAttributes) (lc : Nat → Nat)
    (htags : ∀ k, k < b.in_length → (glyphAt b k).cluster < length) :
    rebuildLogClustersChecked b length attributes lc
      = some (rebuildLogClusters b length attributes lc) := by
  obtain ⟨e, ho⟩ := rebuildUpToChecked_eq b length attributes lc htags b.in_length
    (Nat.le_refl _)
  unfold rebuildLogClustersChecked rebuildLogClusters
  rw [e]
  simp only []
  exact fillLogClustersChecked_eq length _ _ _ _ (by omega)

/-- The face after `HB_OpenTypeShape` covers `item->num_glyphs` glyphs. -/
theorem HB_OpenTypeShape_length {GSUB GPOS : Type} (ext : Collaborators GSUB GPOS)
    (item : HB_ShaperItem) (face : HB_Face GSUB GPOS) (properties : Option (Nat → Nat)) :
    (HB_OpenTypeShape ext item face properties).2.length = item.num_glyphs := by
  unfold HB_OpenTypeShape
  simp only []
  cases face.gsub with
  | none => rfl
  | some g =>
    simp only []
    split <;> rfl

/-- C14 (as amended): for a run of `n` code units without surrogate pair and
with `n` glyphs, shaped by `HB_OpenTypeShape`, when substitution or
positioning reported a change and the buffer holds `m` glyphs, `1 ≤ m ≤ 65536`
and `m` within the capacity, whose cluster tags grow from glyph to glyph from
`t_0 = 0` to `t_(m-1) < n` and whose snapshot attributes at the tags are
cluster starts that are no marks: every result of `HB_OpenTypePosition` with
`doLogClusters` is a success with `num_glyphs = m`, `clusterStart` set at
every output glyph and `log_clusters[j] = max{k : t_k ≤ j}` for every `j < n`;
no store of the rebuild is outside `0 .. n-1`; and the call returns when
nothing was positioned or every `back` stays inside the array. -/
theorem HB_OpenTypePosition_cluster_rebuild {GSUB GPOS : Type}
    (ext : Collaborators GSUB GPOS) (item : HB_ShaperItem) (face1 face : HB_Face GSUB GPOS)
    (properties : Option (Nat → Nat)) (availableGlyphs : Nat)
    (hpairs : surrogatePairs ((item.string.drop item.item.pos).take item.item.length) = 0)
    (hglyphs : item.num_glyphs = item.item.length
      - surrogatePairs ((item.string.drop item.item.pos).take item.item.length))
    (hface : face = (HB_OpenTypeShape ext item face1 properties).2)
    (hchanged : face.glyphs_substituted = true ∨ (applyPositioning ext face).1 = true)
    (hm : 1 ≤ (applyPositioning ext face).2.buffer.in_length)
    (hcap : (applyPositioning ext face).2.buffer.in_length ≤ availableGlyphs)
    (h16 : (applyPositioning ext face).2.buffer.in_length ≤ 65536)
    (h0 : (glyphAt (applyPositioning ext face).2.buffer 0).cluster = 0)
    (hinc : ∀ k, k < (applyPositioning ext face).2.buffer.in_length - 1 →
      (glyphAt (applyPositioning ext face).2.buffer k).cluster
        < (glyphAt (applyPositioning ext face).2.buffer (k + 1)).cluster)
    (hlast : (glyphAt (applyPositioning ext face).2.buffer
      ((applyPositioning ext face).2.buffer.in_length - 1)).cluster < item.item.length)
    (hattr : ∀ k, k < (applyPositioning ext face).2.buffer.in_length →
      (face.tmpAttributes (glyphAt (applyPositioning ext face).2.buffer k).cluster).mark = false
        ∧ (face.tmpAttributes
            (glyphAt (applyPositioning ext face).2.buffer k).cluster).clusterStart = true) :
    (∀ ok item1 face2,
        HB_OpenTypePosition ext item face availableGlyphs true = some (ok, item1, face2) →
        ok = true
          ∧ item1.num_glyphs = (applyPositioning ext face).2.buffer.in_length
          ∧ (∀ k, k < (applyPositioning ext face).2.buffer.in_length →
              (item1.attributes k).clusterStart = true)
          ∧ ∀ j, j < item.item.length →
              item1.log_clusters j
                = maxTagIndex (fun k => (glyphAt (applyPositioning ext face).2.buffer k).cluster)
                    (applyPositioning ext face).2.buffer.in_length j)
      ∧ (∀ (attributes : Nat → HB_GlyphAttributes) (lc : Nat → Nat),
          rebuildLogClustersChecked (applyPositioning ext face).2.buffer item.item.length
              attributes lc
            = some (rebuildLogClusters (applyPositioning ext face).2.buffer face.length
                attributes lc))
      ∧ (((applyPositioning ext face).1 = false
            ∨ ∀ k, k < (applyPositioning ext face).2.buffer.in_length →
                ((applyPositioning ext face).2.buffer.positions k).back ≤ k) →
          ∃ item1 face2,
            HB_OpenTypePosition ext item face availableGlyphs true
              = some (true, item1, face2)) := by
  have hn : face.length = item.item.length := by
    rw [hface, HB_OpenTypeShape_length, hglyphs, hpairs, Nat.sub_zero]
  obtain ⟨-, f2, f3, -⟩ := applyPositioning_fields ext face
  have hw := HB_OpenTypePosition_written ext item face availableGlyphs true hchanged hcap
  have hs := writeBack_sorted (applyPositioning ext face).2 item hm h0 hinc
    (by rw [f2]; exact hattr)
  have hmono := tag_mono (fun k => (glyphAt (applyPositioning ext face).2.buffer k).cluster)
    (applyPositioning ext face).2.buffer.in_length hinc
  have htags : ∀ k, k < (applyPositioning ext face).2.buffer.in_length →
      (glyphAt (applyPositioning ext face).2.buffer k).cluster < item.item.length := by
    intro k hk
    have := hmono k ((applyPositioning ext face).2.buffer.in_length - 1) (by omega) (by omega)
    simp only [] at this
    omega
  refine ⟨?_, ?_, hw.2⟩
  · intro ok item1 face2 h
    obtain ⟨w1, w2, w3, w4⟩ := hw.1 ok item1 face2 h
    refine ⟨w1, by rw [w2, hs.1], fun k hk => ?_, fun j hj => ?_⟩
    · rw [w3, hs.2.1 k hk, f2]
      exact (hattr k hk).2
    · rw [w4, hs.2.2 j (by rw [f3, hn]; exact hj)]
      apply Nat.mod_eq_of_lt
      have hle : maxTagIndex (fun k => (glyphAt (applyPositioning ext face).2.buffer k).cluster)
          (applyPositioning ext face).2.buffer.in_length j
          ≤ (applyPositioning ext face).2.buffer.in_length - 1 :=
        Nat.findGreatest_le
          (P := fun k => (glyphAt (applyPositioning ext face).2.buffer k).cluster ≤ j)
          ((applyPositioning ext face).2.buffer.in_length - 1)
      omega
  · intro attributes lc
    rw [hn]
    exact rebuildLogClustersChecked_eq _ _ attributes lc htags

theorem HB_OpenTypePosition_cluster_rebuild_witness :
    (surrogatePairs ((ligatureItem.string.drop ligatureItem.item.pos).take
          ligatureItem.item.length) = 0
      ∧ ligatureItem.num_glyphs = ligatureItem.item.length
      ∧ (HB_OpenTypeShape (sampleCollaborators ligaturePass (passUnchanged 0))
          ligatureItem (sampleFace (some ()) none) none).2.glyphs_substituted = true
      ∧ (HB_OpenTypeShape (sampleCollaborators ligaturePass (passUnchanged 0))
          ligatureItem (sampleFace (some ()) none) none).2.buffer.in_length = 1)
    ∧ ∃ item1 face2,
        HB_OpenTypePosition (sampleCollaborators ligaturePass (passUnchanged 0)) ligatureItem
            (HB_OpenTypeShape (sampleCollaborators ligaturePass (passUnchanged 0))
              ligatureItem (sampleFace (some ()) none) none).2 2 true
          = some (true, item1, face2)
        ∧ item1.num_glyphs = 1
        ∧ (item1.attributes 0).clusterStart = true
        ∧ item1.log_clusters 0 = 0 ∧ item1.log_clusters 1 = 0 := by
  refine ⟨⟨by decide, by decide, by decide, by decide⟩, ?_⟩
  have hthm := HB_OpenTypePosition_cluster_rebuild
    (sampleCollaborators ligaturePass (passUnchanged 0)) ligatureItem
    (sampleFace (some ()) none)
    (HB_OpenTypeShape (sampleCollaborators ligaturePass (passUnchanged 0))
      ligatureItem (sampleFace (some ()) none) none).2 none 2
    (by decide) (by decide) rfl
    (Or.inl (by decide)) (by decide) (by decide) (by decide) (by decide) (by decide)
    (by decide) (by decide)
  obtain ⟨item1, face2, h⟩ := hthm.2.2 (Or.inl (by decide))
  obtain ⟨-, h2, h3, h4⟩ := hthm.1 true item1 face2 h
  refine ⟨item1, face2, h, ?_, ?_, ?_, ?_⟩
  · rw [h2]; decide
  · exact h3 0 (by decide)
  · rw [h4 0 (by decide)]; decide
  · rw [h4 1 (by decide)]; decide

/-- The face `plainFace n`: the substitution pass reported a change of
nothing but succeeded, the buffer holds `n` glyphs, glyph `k` tagged `k`, the
snapshot attributes are those of letters, and no positioning table is there. -/
theorem plainFace_fields (n : Nat) :
    (plainFace n).glyphs_substituted = true
      ∧ (plainFace n).length = n
      ∧ (plainFace n).buffer.in_length = n
      ∧ (∀ k, k < n → (glyphAt (plainFace n).buffer k).cluster = k)
      ∧ (∀ k, k < n → ((plainFace n).tmpAttributes k).mark = false
          ∧ ((plainFace n).tmpAttributes k).clusterStart = true)
      ∧ applyPositioning (sampleCollaborators (passUnchanged 0) (passUnchanged 0))
          (plainFace n) = (false, plainFace n) := by
  have hb := addGlyphsUpTo_glyphAt (plainItem n) none (hb_buffer_clear (sampleFace (some ()) none).buffer)
    rfl n
  have hbuf : (plainFace n).buffer
      = addGlyphsUpTo (plainItem n) none (hb_buffer_clear (sampleFace (some ()) none).buffer) n := rfl
  refine ⟨rfl, rfl, ?_, ?_, ?_, rfl⟩
  · rw [hbuf]; exact hb.1
  · rw [hbuf]; exact hb.2
  · intro k hk
    have : (plainFace n).tmpAttributes k
        = if k < n then (plainItem n).attributes k
          else (sampleFace (some ()) none).tmpAttributes k := rfl
    rw [this, if_pos hk]
    exact ⟨rfl, rfl⟩

/-- The reference value on tags that equal the glyph index. -/
theorem maxTagIndex_of_id (tag : Nat → Nat) (m j : Nat) (htag : ∀ k, k < m → tag k = k)
    (hj : j < m) : maxTagIndex tag m j = j := by
  unfold maxTagIndex
  rw [Nat.findGreatest_eq_iff]
  refine ⟨by omega, fun _ => ?_, fun l hl1 hl2 => ?_⟩
  · show tag j ≤ j
    rw [htag j hj]
  · show ¬ tag l ≤ j
    rw [htag l (by omega)]
    omega

/-- The run of `n` letters through `HB_OpenTypePosition` after a substitution
pass that keeps every glyph: the call returns a success, with `n` glyphs and
index `j` of the cluster array holding `j` in 16 bits. -/
theorem HB_OpenTypePosition_plainFace (n : Nat) (hn : 1 ≤ n) :
    ∃ item1 face1,
      HB_OpenTypePosition (sampleCollaborators (passUnchanged 0) (passUnchanged 0))
          (plainItem n) (plainFace n) n true = some (true, item1, face1)
        ∧ item1.num_glyphs = n
        ∧ ∀ j, j < n → item1.log_clusters j = j % 65536 := by
  obtain ⟨p1, p2, p3, p4, p5, p6⟩ := plainFace_fields n
  have hw := HB_OpenTypePosition_written
    (sampleCollaborators (passUnchanged 0) (passUnchanged 0)) (plainItem n) (plainFace n) n true
    (Or.inl p1) (by rw [p6, p3])
  rw [p6] at hw
  have hs := writeBack_sorted (plainFace n) (plainItem n) (by rw [p3]; exact hn)
    (p4 0 (by omega)) (by
      intro k hk
      rw [p3] at hk
      rw [p4 k (by omega), p4 (k + 1) (by omega)]
      omega) (by
      intro k hk
      rw [p3] at hk
      rw [p4 k hk]
      exact p5 k hk)
  obtain ⟨item1, face1, h⟩ := hw.2 (Or.inl rfl)
  obtain ⟨-, w2, -, w4⟩ := hw.1 true item1 face1 h
  refine ⟨item1, face1, h, by rw [w2, hs.1, p3], fun j hj => ?_⟩
  rw [w4, hs.2.2 j (by rw [p2]; exact hj), p3,
    maxTagIndex_of_id (fun k => (glyphAt (plainFace n).buffer k).cluster) n j p4 hj]

/-- C14 (as stated, at 65537 glyphs): the run of 65537 letters after a
substitution pass that keeps every glyph. Every condition of the claim holds
(65537 glyphs within the capacity 65537, glyph `k` tagged `k`, snapshot
attributes that are cluster starts and no marks) and `HB_OpenTypePosition`
with `doLogClusters` returns a success, but `log_clusters[65536]` is 0 where
`max{k : t_k ≤ 65536}` is 65536: the cluster array holds 16-bit entries. -/
theorem HB_OpenTypePosition_cluster_wrap :
    (plainFace 65537).glyphs_substituted = true
      ∧ (plainFace 65537).length = 65537
      ∧ (plainFace 65537).buffer.in_length = 65537
      ∧ (∀ k, k < 65537 → (glyphAt (plainFace 65537).buffer k).cluster = k)
      ∧ (∀ k, k < 65537 → ((plainFace 65537).tmpAttributes k).mark = false
          ∧ ((plainFace 65537).tmpAttributes k).clusterStart = true)
      ∧ maxTagIndex (fun k => (glyphAt (plainFace 65537).buffer k).cluster) 65537 65536 = 65536
      ∧ ∃ item1 face1,
          HB_OpenTypePosition (sampleCollaborators (passUnchanged 0) (passUnchanged 0))
              (plainItem 65537) (plainFace 65537) 65537 true = some (true, item1, face1)
            ∧ item1.num_glyphs = 65537
            ∧ item1.log_clusters 65536 = 0 := by
  obtain ⟨p1, p2, p3, p4, p5, -⟩ := plainFace_fields 65537
  refine ⟨p1, p2, p3, p4, p5, maxTagIndex_of_id _ 65537 65536 p4 (by omega), ?_⟩
  obtain ⟨item1, face1, h, h1, h2⟩ := HB_OpenTypePosition_plainFace 65537 (by omega)
  exact ⟨item1, face1, h, h1, by rw [h2 65536 (by omega)]⟩

/-! ## The heuristic positioner, the final justification and the Thai fix -/

/-- C24: `HB_HeuristicPosition` on a base glyph followed by two mark glyphs,
with `HB_GetAdvances` storing the advance 10 for every glyph. The marks keep
the advance 10 (the body of `positionCluster` is compiled out); the same
through `HB_BasicShape` on "a" followed by two U+0300 when the script is not
supported by the face. -/
theorem HB_HeuristicPosition_mark_advances :
    ((List.range 3).map
        (fun i => (({ sampleItem [0x61, 0x300, 0x300] 0 3 0 3 with
                      attributes := markAttributes }).attributes i).mark)
        = [false, true, true])
      ∧ (List.range 3).map
          (HB_HeuristicPosition (sampleCollaborators (passUnchanged 0) (passUnchanged 0))
            { sampleItem [0x61, 0x300, 0x300] 0 3 0 3 with
              attributes := markAttributes }).advances
          = [10, 10, 10]
      ∧ (HB_BasicShape (sampleCollaborators (passUnchanged 0) (passUnchanged 0))
            (sampleItem [0x61, 0x300, 0x300] 0 3 0 3)
            { sampleFace none none with supported_scripts := fun _ => false }).map
          (fun r => (r.1, (List.range 3).map (fun i => (r.2.1.attributes i).mark),
                     (List.range 3).map r.2.1.advances))
          = some (true, [false, true, true], [10, 10, 10]) := by
  decide

/-- C26: `HB_HeuristicSetGlyphAttributes` on "a" followed by U+0300 (2
glyphs), from a buffer whose justifications are all `HB_Space` and from one
whose justifications are all `HB_NoJustification`. The final step stores
`HB_Character` at glyph 0, the base glyph `log_clusters[length-1]` points to,
where the scan had stored `HB_NoJustification`; the last glyph (index 1)
keeps the justification of the entry. On "a", "b", U+0300 the base "b"
(glyph 1) ends with `HB_Character` and glyph 2 with the value of the entry. -/
theorem HB_HeuristicSetGlyphAttributes_trailing_mark :
    (HB_HeuristicSetGlyphAttributes sampleCharProperties (fun _ => false) false [0x61, 0x300] 2
        (fun _ => { mark := false, clusterStart := false, dontPrint := false,
                    combiningClass := 0,
                    justification := HB_JustificationClass.HB_Space })
        (fun _ => 9)).map
      (fun r => ((r.attributes 1).mark, r.log_clusters 1,
                 (r.attributes 0).justification, (r.attributes 1).justification))
      = some (true, 0, HB_JustificationClass.HB_Character, HB_JustificationClass.HB_Space)
    ∧ (HB_HeuristicSetGlyphAttributes sampleCharProperties (fun _ => false) false [0x61, 0x300] 2
        (constGlyphAttributes false) (fun _ => 9)).map
      (fun r => ((r.attributes 1).mark, r.log_clusters 1,
                 (r.attributes 0).justification, (r.attributes 1).justification))
      = some (true, 0, HB_JustificationClass.HB_Character,
              HB_JustificationClass.HB_NoJustification)
    ∧ ((attrUpTo sampleCharProperties (fun _ => false) false [0x61, 0x300]
          (attrInit sampleCharProperties (fun _ => false) false [0x61, 0x300]
            (constGlyphAttributes false) (clusterLoop [0x61, 0x300] 0 0 (fun _ => 9)).1)
          1).attributes 0).justification = HB_JustificationClass.HB_NoJustification
    ∧ (HB_HeuristicSetGlyphAttributes sampleCharProperties (fun _ => false) false
        [0x61, 0x62, 0x300] 3
        (fun _ => { mark := false, clusterStart := false, dontPrint := false,
                    combiningClass := 0,
                    justification := HB_JustificationClass.HB_Space })
        (fun _ => 9)).map
      (fun r => (List.range 3).map (fun i => (r.attributes i).justification))
      = some [HB_JustificationClass.HB_Character, HB_JustificationClass.HB_Character,
              HB_JustificationClass.HB_Space] := by
  decide

/-- C27: `HB_HeuristicSetGlyphAttributes` on the run "surrogate pair, U+0E01,
U+0E31" (4 code units, 3 glyphs) and on the run "U+0E01, U+0E31". U+0E31 is a
nonspacing mark of combining class 0. After the pair the glyph of U+0E31
(glyph 2, code unit 3) gets the combining class 0, because the fix looks at
`uc[pos]` = U+0E01; without the pair it gets `HB_Combining_AboveRight`. -/
theorem HB_HeuristicSetGlyphAttributes_thai_after_pair :
    thaiCharProperties 0xe31 = (HB_Mark_NonSpacing, 0)
    ∧ (HB_HeuristicSetGlyphAttributes thaiCharProperties (fun _ => false) false
        [0xd800, 0xdc00, 0xe01, 0xe31] 3 (constGlyphAttributes false) (fun _ => 9)).map
      (fun r => ((r.attributes 2).mark, (r.attributes 2).combiningClass)) = some (true, 0)
    ∧ (HB_HeuristicSetGlyphAttributes thaiCharProperties (fun _ => false) false
        [0xe01, 0xe31] 2 (constGlyphAttributes false) (fun _ => 9)).map
      (fun r => ((r.attributes 1).mark, (r.attributes 1).combiningClass))
      = some (true, HB_Combining_AboveRight)
    ∧ (HB_HeuristicSetGlyphAttributes thaiCharProperties (fun _ => false) false
        [0xd800, 0xdc00, 0xe31, 0x300] 3 (constGlyphAttributes false) (fun _ => 9)).map
      (fun r => ((r.attributes 1).mark, (r.attributes 1).combiningClass)) = some (true, 0) := by
  decide

/-- C29: `calcLineBreaks` on "a" followed by the pair U+D840 U+DC00 (the
ideograph U+20000) and on the pair U+D800 U+DC00 followed by "a", with the
class SG for every surrogate code unit. The break found between the
character before the pair and the pair (`HB_Break`, from the cell AL, ID) is
stored at the high surrogate, between the two halves; for a pair at the
start of the text the break between the pair and "a" is not stored after the
low half but `HB_Break` is stored at the high half. -/
theorem calcLineBreaks_break_inside_pair :
    wideLineBreakClass 0xd840 = HB_LineBreak_SG
    ∧ wideLineBreakClass 0xdc00 = HB_LineBreak_SG
    ∧ sampleLineBreakClass 0xd800 = HB_LineBreak_SG
    ∧ HB_IsHighSurrogate 0xd840 = true ∧ HB_IsLowSurrogate 0xdc00 = true
    ∧ (List.range 3).map
        (fun i => (calcLineBreaks wideLineBreakClass [0x61, 0xd840, 0xdc00]
          (constAttributes HB_LineBreakType.HB_NoBreak) i).lineBreakType)
      = [HB_LineBreakType.HB_NoBreak, HB_LineBreakType.HB_Break,
         HB_LineBreakType.HB_ForcedBreak]
    ∧ (List.range 3).map
        (fun i => (calcLineBreaks sampleLineBreakClass [0xd800, 0xdc00, 0x61]
          (constAttributes HB_LineBreakType.HB_NoBreak) i).lineBreakType)
      = [HB_LineBreakType.HB_Break, HB_LineBreakType.HB_NoBreak,
         HB_LineBreakType.HB_ForcedBreak] := by
  decide

/-- C25: when `uc[k]` and `uc[k+1]` both have the class SA, `calcLineBreaks`
leaves `HB_Break` at index `k`, whatever the rest of the text and the entry
content of the buffer are; the class `cls` of the scanner after `uc[k]` is SA. -/
theorem calcLineBreaks_complex_pair (gc : HB_UChar32 → Nat) (uc : List HB_UChar16)
    (attrs : Nat → HB_CharAttributes) (k : Nat) (hk : k + 1 < uc.length)
    (h1 : gc (uc.getD k 0) = HB_LineBreak_SA)
    (h2 : gc (uc.getD (k + 1) 0) = HB_LineBreak_SA) :
    (calcLineBreaks gc uc attrs k).lineBreakType = HB_LineBreakType.HB_Break
      ∧ (scanUpTo gc uc attrs k).cls = HB_LineBreak_SA := by
  have hc := scanUpTo_class gc uc attrs k HB_LineBreak_SA h1 (by decide) (by decide) (by decide)
    (Or.inl (by decide))
  have hs : surrogateClass gc uc (k + 1) = some (HB_LineBreak_SA, false) := by
    have := surrogateClass_of_ne_SG gc uc (k + 1) (by rw [h2]; decide)
    rw [h2] at this
    exact this
  refine ⟨?_, hc.1⟩
  rw [calcLineBreaks_lineBreakType_inner gc uc attrs k hk
      (Or.inl (by
        rw [show scanUpTo gc uc attrs (k + 1)
            = scanStep gc uc (k + 1) (scanUpTo gc uc attrs k) from rfl,
          scanStep_lcls gc uc (k + 1) _ _ _ hs]
        decide)),
    scanUpTo_succ_lineBreakType gc uc attrs k _ _ hs, hc.1, hc.2]
  rfl

theorem calcLineBreaks_complex_pair_witness :
    (1 + 1 < [0x61, 0xe01, 0xe02, 0x20].length
      ∧ wideLineBreakClass ([0x61, 0xe01, 0xe02, 0x20].getD 1 0) = HB_LineBreak_SA
      ∧ wideLineBreakClass ([0x61, 0xe01, 0xe02, 0x20].getD (1 + 1) 0) = HB_LineBreak_SA)
    ∧ (calcLineBreaks wideLineBreakClass [0x61, 0xe01, 0xe02, 0x20]
        (constAttributes HB_LineBreakType.HB_NoBreak) 1).lineBreakType
      = HB_LineBreakType.HB_Break :=
  ⟨⟨by decide, by decide, by decide⟩,
    (calcLineBreaks_complex_pair wideLineBreakClass [0x61, 0xe01, 0xe02, 0x20]
      (constAttributes HB_LineBreakType.HB_NoBreak) 1 (by decide) (by decide) (by decide)).1⟩

/-! ## The scanner with checked accesses -/

/-- Inside the 26 rows and columns the checked read is the read of the model. -/
theorem breakTableChecked_eq :
    ∀ r, r < 26 → ∀ c, c < 26 → breakTableChecked r c = some (breakTableAt r c) := by
  decide

theorem checkedIndex_of_lt (len i : Nat) (h : i < len) :
    checkedIndex len (i : Int) = some i := by
  unfold checkedIndex
  rw [if_pos ⟨by omega, by omega⟩]
  simp

theorem checkedIndex_sub (len i d : Nat) (hd : d ≤ i) (h : i - d < len) :
    checkedIndex len ((i : Int) - d) = some (i - d) := by
  have : ((i : Int) - d) = ((i - d : Nat) : Int) := by omega
  rw [this]
  exact checkedIndex_of_lt len (i - d) h

/-- The checked decision for one pair never reads outside the table and is
the decision of `classifyPair`. -/
theorem classifyPairChecked_eq (cls lcls ncls prev i : Nat) :
    classifyPairChecked cls lcls ncls prev i = some (classifyPair cls lcls ncls prev i) := by
  unfold classifyPairChecked classifyPair
  simp only []
  by_cases h1 : ncls = HB_LineBreak_SP
  · simp only [if_pos h1]
  · simp only [if_neg h1]
    by_cases h2 : ncls ≥ HB_LineBreak_CR
    · simp only [if_pos h2]
    · simp only [if_neg h2]
      by_cases h3 : cls = HB_LineBreak_SA ∧ ncls = HB_LineBreak_SA
      · simp only [if_pos h3]
      · simp only [if_neg h3]
        have hc := breakTableChecked_eq (clampClass cls) (clampClass_lt cls)
          (clampClass ncls) (clampClass_lt ncls)
        unfold clampClass at hc
        rw [hc]
        unfold clampClass
        cases breakTableAt (if cls ≥ HB_LineBreak_SA then HB_LineBreak_ID else cls)
          (if ncls ≥ HB_LineBreak_SA then HB_LineBreak_ID else ncls) <;> simp only [] <;>
          split <;> rfl

/-- For `1 ≤ i < len` the checked iteration makes no access out of range and
is the iteration of `scanStep`. -/
theorem scanStepChecked_eq (gc : HB_UChar32 → Nat) (uc : List HB_UChar16) (i : Nat)
    (st : ScanState) (h1 : 1 ≤ i) (h2 : i < uc.length) :
    scanStepChecked gc uc i st = some (scanStep gc uc i st) := by
  unfold scanStepChecked scanStep
  rw [checkedIndex_of_lt uc.length i h2]
  simp only []
  cases hs : surrogateClass gc uc i with
  | none => rfl
  | some p =>
    obtain ⟨ncls, pairLow⟩ := p
    simp only []
    rw [classifyPairChecked_eq]
    simp only []
    have e1 : checkedIndex uc.length ((i : Int) - 1) = some (i - 1) := by
      have := checkedIndex_sub uc.length i 1 h1 (by omega)
      simpa using this
    rw [e1]
    by_cases hr : (classifyPair st.cls st.lcls ncls (uc.getD (i - 1) 0) i).retroBreak = true
    · have hi := (classifyPair_retroBreak _ _ _ _ _ hr).2.2
      have e2 : checkedIndex uc.length ((i : Int) - 2) = some (i - 2) := by
        have := checkedIndex_sub uc.length i 2 (by omega) (by omega)
        simpa using this
      simp only [if_pos hr, e2, Option.map_some']
    · simp only [if_neg hr]

theorem scanUpToChecked_eq (gc : HB_UChar32 → Nat) (uc : List HB_UChar16)
    (attrs : Nat → HB_CharAttributes) :
    ∀ n, n < uc.length → scanUpToChecked gc uc attrs n = some (scanUpTo gc uc attrs n) := by
  intro n
  induction n with
  | zero =>
    intro h
    have := checkedIndex_of_lt uc.length 0 h
    simp only [Nat.cast_zero] at this
    simp only [scanUpToChecked, this, Option.map_some', scanUpTo]
  | succ k ih =>
    intro h
    rw [scanUpToChecked, ih (by omega)]
    simp only []
    rw [scanStepChecked_eq gc uc (k + 1) _ (by omega) h]
    rfl

/-- C28: `calcLineBreaks` run with every read of `breakTable` checked against
the 26 rows and 26 columns and every store into `charAttributes` checked
against `0 .. len-1` never fails, for every class function and every text,
and gives the result of `calcLineBreaks`. -/
theorem calcLineBreaks_accesses_in_range (gc : HB_UChar32 → Nat) (uc : List HB_UChar16)
    (attrs : Nat → HB_CharAttributes) :
    calcLineBreaksChecked gc uc attrs = some (calcLineBreaks gc uc attrs) := by
  unfold calcLineBreaksChecked calcLineBreaks
  by_cases h : uc.length = 0
  · simp only [if_pos h]
  · simp only [if_neg h]
    rw [scanUpToChecked_eq gc uc attrs (uc.length - 1) (by omega)]
    have e : checkedIndex uc.length ((uc.length : Int) - 1) = some (uc.length - 1) := by
      have := checkedIndex_sub uc.length uc.length 1 (by omega) (by omega)
      simpa using this
    rw [e]

/-! ## The cluster rebuild on arbitrary tags -/

/-- The loop of the cluster rebuild on arbitrary tags and attributes, run
from two entry arrays, for at most 65536 glyphs: `clusterStart` is 0 or a
glyph already visited, both runs agree on the local variables and on the
entries below `oldCi`, and these entries are non-decreasing and at most
`clusterStart`. -/
theorem rebuildUpTo_invariant (b : HB_BufferRec) (attributes : Nat → HB_GlyphAttributes)
    (lc lc2 : Nat → Nat) :
    ∀ n, n ≤ 65536 →
      ((rebuildUpTo b attributes lc n).clusterStart = 0
          ∨ (rebuildUpTo b attributes lc n).clusterStart < n)
        ∧ (rebuildUpTo b attributes lc2 n).clusterStart
            = (rebuildUpTo b attributes lc n).clusterStart
        ∧ (rebuildUpTo b attributes lc2 n).oldCi = (rebuildUpTo b attributes lc n).oldCi
        ∧ (∀ j, j < (rebuildUpTo b attributes lc n).oldCi →
            (rebuildUpTo b attributes lc n).logClusters j
              = (rebuildUpTo b attributes lc2 n).logClusters j)
        ∧ (∀ j, j < (rebuildUpTo b attributes lc n).oldCi →
            (rebuildUpTo b attributes lc n).logClusters j
              ≤ (rebuildUpTo b attributes lc n).clusterStart)
        ∧ ∀ j1 j2, j1 ≤ j2 → j2 < (rebuildUpTo b attributes lc n).oldCi →
            (rebuildUpTo b attributes lc n).logClusters j1
              ≤ (rebuildUpTo b attributes lc n).logClusters j2 := by
  intro n
  induction n with
  | zero =>
    intro _
    refine ⟨Or.inl rfl, rfl, rfl, ?_, ?_, ?_⟩
    · intro j hj
      exact absurd hj (Nat.not_lt_zero j)
    · intro j hj
      exact absurd hj (Nat.not_lt_zero j)
    · intro j1 j2 _ hj
      exact absurd hj (Nat.not_lt_zero j2)
  | succ k ih =>
    intro hk
    obtain ⟨i1, i2, i3, i4, i5, i6⟩ := ih (by omega)
    have e1 : rebuildUpTo b attributes lc (k + 1)
        = rebuildStep b attributes k (rebuildUpTo b attributes lc k) := rfl
    have e2 : rebuildUpTo b attributes lc2 (k + 1)
        = rebuildStep b attributes k (rebuildUpTo b attributes lc2 k) := rfl
    rw [e1, e2]
    generalize rebuildUpTo b attributes lc k = S at *
    generalize rebuildUpTo b attributes lc2 k = S2 at *
    unfold rebuildStep
    simp only []
    rw [i3]
    by_cases hc : (attributes k).mark = false ∧ (attributes k).clusterStart = true
        ∧ (glyphAt b k).cluster ≠ S.oldCi
    · simp only [if_pos hc]
      have hcs : S.clusterStart % 65536 = S.clusterStart := Nat.mod_eq_of_lt (by omega)
      refine ⟨Or.inr (Nat.lt_succ_self k), trivial, trivial, ?_, ?_, ?_⟩
      · intro j hj
        rw [fillLogClusters_apply, fillLogClusters_apply, i2]
        by_cases hin : S.oldCi ≤ j ∧ j < S.oldCi + ((glyphAt b k).cluster - S.oldCi)
        · rw [if_pos hin, if_pos hin]
        · rw [if_neg hin, if_neg hin]
          exact i4 j (by omega)
      · intro j hj
        rw [fillLogClusters_apply]
        by_cases hin : S.oldCi ≤ j ∧ j < S.oldCi + ((glyphAt b k).cluster - S.oldCi)
        · rw [if_pos hin, hcs]
          omega
        · rw [if_neg hin]
          have := i5 j (by omega)
          omega
      · intro j1 j2 h12 hj
        rw [fillLogClusters_apply, fillLogClusters_apply]
        by_cases hin2 : S.oldCi ≤ j2 ∧ j2 < S.oldCi + ((glyphAt b k).cluster - S.oldCi)
        · rw [if_pos hin2]
          by_cases hin1 : S.oldCi ≤ j1 ∧ j1 < S.oldCi + ((glyphAt b k).cluster - S.oldCi)
          · rw [if_pos hin1]
          · rw [if_neg hin1, hcs]
            exact i5 j1 (by omega)
        · rw [if_neg hin2]
          have hj2 : j2 < S.oldCi := by omega
          rw [if_neg (by omega)]
          exact i6 j1 j2 h12 hj2
    · simp only [if_neg hc]
      refine ⟨?_, i2, i3, i4, i5, i6⟩
      rcases i1 with h | h
      · exact Or.inl h
      · exact Or.inr (by omega)

/-- C30 (as amended): the cluster rebuild on a buffer of at least 1 and at
most 65536 glyphs whose cluster tags are arbitrary values below `L`, the
length of the snapshot, with arbitrary attributes. No store of the rebuild is
outside `0 .. L-1`, every entry below `L` is written (it does not depend on
the entry content of the array), the entries below `L` are non-decreasing,
and each is below the glyph count. -/
theorem rebuildLogClusters_robust (b : HB_BufferRec) (L : Nat)
    (attributes : Nat → HB_GlyphAttributes) (lc lc2 : Nat → Nat)
    (hm : 1 ≤ b.in_length) (h16 : b.in_length ≤ 65536)
    (htags : ∀ k, k < b.in_length → (glyphAt b k).cluster < L) :
    rebuildLogClustersChecked b L attributes lc = some (rebuildLogClusters b L attributes lc)
      ∧ (∀ j, j < L →
          rebuildLogClusters b L attributes lc j = rebuildLogClusters b L attributes lc2 j)
      ∧ (∀ j1 j2, j1 ≤ j2 → j2 < L →
          rebuildLogClusters b L attributes lc j1 ≤ rebuildLogClusters b L attributes lc j2)
      ∧ ∀ j, j < L → rebuildLogClusters b L attributes lc j < b.in_length := by
  refine ⟨rebuildLogClustersChecked_eq b L attributes lc htags, ?_⟩
  obtain ⟨i1, i2, i3, i4, i5, i6⟩ := rebuildUpTo_invariant b attributes lc lc2 b.in_length h16
  unfold rebuildLogClusters
  rw [i2, i3]
  generalize rebuildUpTo b attributes lc b.in_length = S at *
  generalize rebuildUpTo b attributes lc2 b.in_length = S2 at *
  have hcs : S.clusterStart % 65536 = S.clusterStart := Nat.mod_eq_of_lt (by omega)
  refine ⟨?_, ?_, ?_⟩
  · intro j hj
    rw [fillLogClusters_apply, fillLogClusters_apply]
    by_cases hin : S.oldCi ≤ j ∧ j < S.oldCi + (L - S.oldCi)
    · rw [if_pos hin, if_pos hin]
    · rw [if_neg hin, if_neg hin]
      exact i4 j (by omega)
  · intro j1 j2 h12 hj
    rw [fillLogClusters_apply, fillLogClusters_apply]
    by_cases hin2 : S.oldCi ≤ j2 ∧ j2 < S.oldCi + (L - S.oldCi)
    · rw [if_pos hin2]
      by_cases hin1 : S.oldCi ≤ j1 ∧ j1 < S.oldCi + (L - S.oldCi)
      · rw [if_pos hin1]
      · rw [if_neg hin1, hcs]
        exact i5 j1 (by omega)
    · rw [if_neg hin2]
      have hj2 : j2 < S.oldCi := by omega
      rw [if_neg (by omega)]
      exact i6 j1 j2 h12 hj2
  · intro j hj
    rw [fillLogClusters_apply]
    by_cases hin : S.oldCi ≤ j ∧ j < S.oldCi + (L - S.oldCi)
    · rw [if_pos hin, hcs]
      omega
    · rw [if_neg hin]
      have := i5 j (by omega)
      omega

theorem rebuildLogClusters_robust_witness :
    (1 ≤ reorderedBuffer.in_length ∧ reorderedBuffer.in_length ≤ 65536
      ∧ ∀ k, k < reorderedBuffer.in_length → (glyphAt reorderedBuffer k).cluster < 3)
    ∧ (List.range 3).map
        (rebuildLogClusters reorderedBuffer 3 (plainItem 3).attributes (fun _ => 9))
      = [1, 2, 2]
    ∧ rebuildLogClustersChecked reorderedBuffer 3 (plainItem 3).attributes (fun _ => 9)
        = some (rebuildLogClusters reorderedBuffer 3 (plainItem 3).attributes (fun _ => 9))
    ∧ ∀ j1 j2, j1 ≤ j2 → j2 < 3 →
        rebuildLogClusters reorderedBuffer 3 (plainItem 3).attributes (fun _ => 9) j1
          ≤ rebuildLogClusters reorderedBuffer 3 (plainItem 3).attributes (fun _ => 9) j2 :=
  ⟨⟨by decide, by decide, by decide⟩, by decide,
    (rebuildLogClusters_robust reorderedBuffer 3 (plainItem 3).attributes (fun _ => 9)
      (fun _ => 0) (by decide) (by decide) (by decide)).1,
    (rebuildLogClusters_robust reorderedBuffer 3 (plainItem 3).attributes (fun _ => 9)
      (fun _ => 0) (by decide) (by decide) (by decide)).2.2.1⟩

/-- The checked rebuild on a buffer with a tag that is not below the length
of the snapshot fails: tags 0 and 5 with a snapshot of 2 entries. -/
theorem rebuildLogClustersChecked_outside :
    (rebuildLogClustersChecked
        { in_string := [⟨0x61, 0, 0⟩, ⟨0x62, 0, 5⟩], positions := fun _ => zeroPosition } 2
        (plainItem 2).attributes (fun _ => 9)).isNone = true := by
  decide

/-- The rebuild on the buffer of `plainFace n`, with the attributes of
letters: entry `j` holds `j` in 16 bits. -/
theorem rebuildLogClusters_plainFace (n : Nat) (lc : Nat → Nat) (j : Nat) (hj : j < n) :
    rebuildLogClusters (plainFace n).buffer n (plainItem n).attributes lc j = j % 65536 := by
  obtain ⟨-, -, p3, p4, -, -⟩ := plainFace_fields n
  refine rebuildLogClusters_sorted (plainFace n).buffer n (plainItem n).attributes lc
    (by rw [p3]; omega) (fun k _ => ⟨rfl, rfl⟩) (p4 0 (by omega)) ?_ j j (by rw [p3]; exact hj)
    (by rw [p4 j hj]) ?_ hj
  · intro k hk
    rw [p3] at hk
    rw [p4 k (by omega), p4 (k + 1) (by omega)]
    omega
  · intro hk
    rw [p3] at hk
    rw [p4 (j + 1) (by omega)]
    omega

/-- C30 (as stated, at 65537 glyphs): the cluster rebuild on the buffer of
65537 glyphs with the tags 0, ..., 65536 (all below `L` = 65537) and the
attributes of letters stores 65535 at index 65535 and 0 at index 65536: the
array is not non-decreasing, its entries are 16-bit. -/
theorem rebuildLogClusters_wrap :
    (plainFace 65537).buffer.in_length = 65537
      ∧ (∀ k, k < 65537 → (glyphAt (plainFace 65537).buffer k).cluster = k)
      ∧ rebuildLogClusters (plainFace 65537).buffer 65537 (plainItem 65537).attributes
          (fun _ => 0) 65535 = 65535
      ∧ rebuildLogClusters (plainFace 65537).buffer 65537 (plainItem 65537).attributes
          (fun _ => 0) 65536 = 0 := by
  obtain ⟨-, -, p3, p4, -, -⟩ := plainFace_fields 65537
  refine ⟨p3, p4, ?_, ?_⟩
  · rw [rebuildLogClusters_plainFace 65537 _ 65535 (by omega)]
  · rw [rebuildLogClusters_plainFace 65537 _ 65536 (by omega)]

/-! ## The kerning flag -/

/-- The feature loop of `HB_SelectScript` sets the kerning flag only for a
listed tag 'kern' with kerning not disabled. -/
theorem addGposFeatures_kerning {GSUB GPOS : Type} (ext : Collaborators GSUB GPOS)
    (script_index current_flags : Nat) :
    ∀ (tags : List Nat) (st : GPOS × Bool),
      (addGposFeatures ext script_index current_flags tags st).2 = true →
      st.2 = true
        ∨ (FT_MAKE_TAG 'k' 'e' 'r' 'n' ∈ listedTags tags
            ∧ current_flags &&& HB_ShaperFlag_NoKerning = 0) := by
  intro tags
  induction tags with
  | nil =>
    intro st h
    exact Or.inl h
  | cons t rest ih =>
    intro st h
    rw [addGposFeatures] at h
    by_cases h0 : t = 0
    · rw [if_pos h0] at h
      exact Or.inl h
    · rw [if_neg h0] at h
      have hl : listedTags (t :: rest) = t :: listedTags rest := by
        unfold listedTags
        rw [List.takeWhile_cons_of_pos (by simpa using h0)]
      rw [hl]
      by_cases hk : t = FT_MAKE_TAG 'k' 'e' 'r' 'n'
          ∧ current_flags &&& HB_ShaperFlag_NoKerning ≠ 0
      · rw [if_pos hk] at h
        rcases ih st h with h1 | h1
        · exact Or.inl h1
        · exact Or.inr ⟨List.mem_cons_of_mem _ h1.1, h1.2⟩
      · rw [if_neg hk] at h
        simp only [] at h
        rcases ih _ h with h1 | h1
        · by_cases hkern : t = FT_MAKE_TAG 'k' 'e' 'r' 'n'
          · refine Or.inr ⟨by rw [hkern]; exact List.mem_cons_self _ _, ?_⟩
            by_contra hne
            exact hk ⟨hkern, hne⟩
          · left
            by_cases he : (ext.HB_GPOS_Select_Feature st.1 t script_index 0xffff).1 = 0
            · simp only [if_pos he, if_neg hkern] at h1
              exact h1
            · simp only [if_neg he, if_neg hkern] at h1
              exact h1
        · exact Or.inr ⟨List.mem_cons_of_mem _ h1.1, h1.2⟩

/-- What a call of `HB_SelectScript` that misses the cache leaves in the
kerning flag. -/
theorem HB_SelectScript_kerning {GSUB GPOS : Type} (ext : Collaborators GSUB GPOS)
    (item : HB_ShaperItem) (face : HB_Face GSUB GPOS) (features : Option (List (Nat × Nat)))
    (r : Bool) (face1 : HB_Face GSUB GPOS)
    (h : HB_SelectScript ext item face features = some (r, face1))
    (hs : face.supported_scripts item.item.script = true)
    (hmiss : ¬ (face.current_script = item.item.script
      ∧ face.current_flags = item.shaperFlags))
    (hk : face1.has_opentype_kerning = true) :
    item.shaperFlags &&& HB_ShaperFlag_NoKerning = 0
      ∧ ∃ gpos, face.gpos = some gpos
          ∧ (ext.HB_GPOS_Select_Script (ext.HB_GPOS_Clear_Features gpos)
              (ot_scripts.getD item.item.script ⟨0, 0⟩).tag).1 = 0
          ∧ (ext.HB_GPOS_Query_Features (ext.HB_GPOS_Clear_Features gpos)
              (ext.HB_GPOS_Select_Script (ext.HB_GPOS_Clear_Features gpos)
                (ot_scripts.getD item.item.script ⟨0, 0⟩).tag).2 0xffff).1 = 0
          ∧ FT_MAKE_TAG 'k' 'e' 'r' 'n' ∈ listedTags
              (ext.HB_GPOS_Query_Features (ext.HB_GPOS_Clear_Features gpos)
                (ext.HB_GPOS_Select_Script (ext.HB_GPOS_Clear_Features gpos)
                  (ot_scripts.getD item.item.script ⟨0, 0⟩).tag).2 0xffff).2 := by
  unfold HB_SelectScript at h
  have hs2 : ¬ face.supported_scripts item.item.script = false := by
    rw [hs]
    decide
  simp only [if_neg hs2, if_neg hmiss] at h
  by_cases hn : item.item.script < HB_ScriptCount
  · simp only [if_pos hn, Option.some.injEq, Prod.mk.injEq] at h
    rw [← h.2] at hk
    simp only [] at hk
    cases hg : face.gpos with
    | none =>
      rw [hg] at hk
      cases hk
    | some gpos =>
      rw [hg] at hk
      simp only [] at hk
      by_cases e1 : (ext.HB_GPOS_Select_Script (ext.HB_GPOS_Clear_Features gpos)
          (ot_scripts.getD item.item.script ⟨0, 0⟩).tag).1 = 0
      · simp only [if_pos e1] at hk
        by_cases e2 : (ext.HB_GPOS_Query_Features (ext.HB_GPOS_Clear_Features gpos)
            (ext.HB_GPOS_Select_Script (ext.HB_GPOS_Clear_Features gpos)
              (ot_scripts.getD item.item.script ⟨0, 0⟩).tag).2 0xffff).1 = 0
        · simp only [if_pos e2] at hk
          rcases addGposFeatures_kerning ext _ _ _ _ hk with h1 | h1
          · cases h1
          · exact ⟨h1.2, gpos, rfl, e1, e2, h1.1⟩
        · simp only [if_neg e2] at hk
          cases hk
      · simp only [if_neg e1] at hk
        cases hk
  · simp only [if_neg hn] at h
    cases h

/-- The kerning invariant of a face is kept by every call of
`HB_SelectScript` that returns. -/
theorem HB_SelectScript_keeps_invariant {GSUB GPOS : Type} (ext : Collaborators GSUB GPOS)
    (item : HB_ShaperItem) (face : HB_Face GSUB GPOS) (features : Option (List (Nat × Nat)))
    (r : Bool) (face1 : HB_Face GSUB GPOS)
    (h : HB_SelectScript ext item face features = some (r, face1))
    (hinv : face.current_flags &&& HB_ShaperFlag_NoKerning ≠ 0 →
      face.has_opentype_kerning = false) :
    face1.current_flags &&& HB_ShaperFlag_NoKerning ≠ 0 →
      face1.has_opentype_kerning = false := by
  obtain ⟨-, r2, r3⟩ := HB_SelectScript_result ext item face features r face1 h
  cases hs : face.supported_scripts item.item.script with
  | false =>
    rw [(r3 hs).2]
    exact hinv
  | true =>
    by_cases hhit : face.current_script = item.item.script
        ∧ face.current_flags = item.shaperFlags
    · have : face1 = face := by
        unfold HB_SelectScript at h
        have hs2 : ¬ face.supported_scripts item.item.script = false := by
          rw [hs]
          decide
        simp only [if_neg hs2, if_pos hhit, Option.some.injEq, Prod.mk.injEq] at h
        exact h.2.symm
      rw [this]
      exact hinv
    · intro hflag
      cases hk : face1.has_opentype_kerning with
      | false => rfl
      | true =>
        have := (HB_SelectScript_kerning ext item face features r face1 h hs hhit hk).1
        rw [(r2 hs).2.2] at hflag
        exact absurd this hflag

/-- The kerning invariant holds after `HB_NewFace` and any sequence of
`HB_SelectScript` calls. -/
theorem selectScripts_invariant {GSUB GPOS : Type} (ext : Collaborators GSUB GPOS) :
    ∀ (calls : List (HB_ShaperItem × Option (List (Nat × Nat)))) (face face1 : HB_Face GSUB GPOS),
      (face.current_flags &&& HB_ShaperFlag_NoKerning ≠ 0 →
        face.has_opentype_kerning = false) →
      selectScripts ext calls face = some face1 →
      face1.current_flags &&& HB_ShaperFlag_NoKerning ≠ 0 →
        face1.has_opentype_kerning = false := by
  intro calls
  induction calls with
  | nil =>
    intro face face1 hinv h
    simp only [selectScripts, Option.some.injEq] at h
    rw [← h]
    exact hinv
  | cons call rest ih =>
    intro face face1 hinv h
    rw [selectScripts] at h
    cases hc : HB_SelectScript ext call.1 face call.2 with
    | none =>
      rw [hc] at h
      cases h
    | some p =>
      rw [hc] at h
      simp only [] at h
      exact ih p.2 face1
        (HB_SelectScript_keeps_invariant ext call.1 face call.2 p.1 p.2 hc hinv) h

/-- The flag `kerning_applied` of a successful result of
`HB_OpenTypePosition` whose positioning pass ran is the kerning flag of the
face. -/
theorem HB_OpenTypePosition_kerning_applied {GSUB GPOS : Type} (ext : Collaborators GSUB GPOS)
    (item : HB_ShaperItem) (face : HB_Face GSUB GPOS) (availableGlyphs : Nat)
    (doLogClusters : Bool) (item1 : HB_ShaperItem) (face1 : HB_Face GSUB GPOS)
    (hpos : (applyPositioning ext face).1 = true)
    (h : HB_OpenTypePosition ext item face availableGlyphs doLogClusters
      = some (true, item1, face1)) :
    item1.kerning_applied = face.has_opentype_kerning := by
  obtain ⟨-, -, -, f4⟩ := applyPositioning_fields ext face
  unfold HB_OpenTypePosition at h
  simp only [] at h
  have hno : ¬ ((applyPositioning ext face).2.glyphs_substituted = false
      ∧ (applyPositioning ext face).1 = false) := by
    rw [hpos]
    intro hh
    cases hh.2
  simp only [if_neg hno] at h
  by_cases hcap : availableGlyphs < (applyPositioning ext face).2.buffer.in_length
  · simp only [if_pos hcap, Option.some.injEq, Prod.mk.injEq] at h
    cases h.1
  · simp only [if_neg hcap, if_pos hpos] at h
    split at h
    · cases h
    · simp only [Option.some.injEq, Prod.mk.injEq] at h
      rw [← h.2.1]
      exact f4

/-! ## The attachment chain and the offsets -/

theorem attachmentChainFrom_cons (positions : Nat → HB_PositionRec) (fuel c : Nat) :
    attachmentChainFrom positions fuel c
      = c :: (attachmentChainFrom positions fuel c).tail := by
  cases fuel with
  | zero => rfl
  | succ f =>
    rw [attachmentChainFrom]
    split <;> rfl

/-- No glyph of a chain lies after the glyph the chain starts at. -/
theorem attachmentChainFrom_le (positions : Nat → HB_PositionRec) :
    ∀ (fuel c k : Nat), k ∈ attachmentChainFrom positions fuel c → k ≤ c := by
  intro fuel
  induction fuel with
  | zero =>
    intro c k hk
    simp only [attachmentChainFrom, List.mem_singleton] at hk
    omega
  | succ f ih =>
    intro c k hk
    rw [attachmentChainFrom] at hk
    split at hk
    · simp only [List.mem_singleton] at hk
      omega
    · rcases List.mem_cons.mp hk with h | h
      · omega
      · have := ih _ _ h
        omega

/-- A chain walk that returns has folded its step over the attachment chain
behind the glyph it started at, and every glyph of that part lies before it. -/
theorem chainWalk_eq_foldl {α : Type} (positions : Nat → HB_PositionRec) (i : Nat)
    (step : Nat → α → α) :
    ∀ (fuel back : Nat) (acc r : α), back ≤ i →
      chainWalk positions i step (fuel + 1) back acc = some r →
      r = ((attachmentChainFrom positions fuel (i - back)).tail).foldl
            (fun a k => step k a) acc
        ∧ ∀ k, k ∈ (attachmentChainFrom positions fuel (i - back)).tail → k < i - back := by
  intro fuel
  induction fuel with
  | zero =>
    intro back acc r _ h
    rw [chainWalk] at h
    by_cases h0 : (positions (i - back)).back = 0
    · rw [if_pos h0] at h
      simp only [Option.some.injEq] at h
      refine ⟨by rw [← h]; rfl, ?_⟩
      intro k hk
      simp [attachmentChainFrom] at hk
    · rw [if_neg h0] at h
      simp only [] at h
      split at h
      · simp only [chainWalk] at h
        cases h
      · cases h
  | succ f ih =>
    intro back acc r hb h
    rw [chainWalk] at h
    by_cases h0 : (positions (i - back)).back = 0
    · rw [if_pos h0] at h
      simp only [Option.some.injEq] at h
      rw [attachmentChainFrom, if_pos h0]
      refine ⟨by rw [← h]; rfl, ?_⟩
      intro k hk
      simp at hk
    · rw [if_neg h0] at h
      simp only [] at h
      by_cases hle : back + (positions (i - back)).back ≤ i
      · rw [if_pos hle] at h
        obtain ⟨e1, e2⟩ := ih _ _ _ hle h
        have hsub : i - back - (positions (i - back)).back
            = i - (back + (positions (i - back)).back) := by omega
        rw [attachmentChainFrom, if_neg h0, List.tail_cons, hsub,
          attachmentChainFrom_cons]
        refine ⟨?_, ?_⟩
        · rw [List.foldl_cons]
          exact e1
        · intro k hk
          rcases List.mem_cons.mp hk with hk1 | hk1
          · omega
          · have := e2 k hk1
            omega
      · rw [if_neg hle] at h
        cases h

theorem foldl_offsets (xp yp : Nat → Int) :
    ∀ (l : List Nat) (o : HB_FixedPoint),
      l.foldl (fun (a : HB_FixedPoint) k => (⟨a.x + xp k, a.y + yp k⟩ : HB_FixedPoint)) o
        = ⟨o.x + (l.map xp).sum, o.y + (l.map yp).sum⟩ := by
  intro l
  induction l with
  | nil =>
    intro o
    simp
  | cons k rest ih =>
    intro o
    rw [List.foldl_cons, ih]
    simp only [List.map_cons, List.sum_cons]
    congr 1 <;> omega

theorem foldl_sub (adv : Nat → Int) :
    ∀ (l : List Nat) (x : Int),
      l.foldl (fun (a : Int) k => a - adv k) x = x - (l.map adv).sum := by
  intro l
  induction l with
  | nil =>
    intro x
    simp
  | cons k rest ih =>
    intro x
    rw [List.foldl_cons, ih]
    simp only [List.map_cons, List.sum_cons]
    omega

/-- A right-to-left walk that returns has subtracted the advances of the
glyphs `i - t` for `t` below the start value of `back`. -/
theorem rtlWalk_eq (advances : Nat → Int) (i : Nat) :
    ∀ (back : Nat) (x r : Int), rtlWalk advances i back x = some r →
      r = x - ((List.range back).map (fun t => advances (i - t))).sum
        ∧ back ≤ i + 1 := by
  intro back
  induction back with
  | zero =>
    intro x r h
    simp only [rtlWalk, Option.some.injEq] at h
    simp [h]
  | succ b ih =>
    intro x r h
    rw [rtlWalk] at h
    by_cases hb : b ≤ i
    · rw [if_pos hb] at h
      obtain ⟨e1, _⟩ := ih _ _ h
      refine ⟨?_, by omega⟩
      rw [e1, List.range_succ, List.map_append, List.sum_append]
      simp only [List.map_cons, List.map_nil, List.sum_cons, List.sum_nil]
      omega
    · rw [if_neg hb] at h
      cases h

/-- The offset one iteration of the positioning loop stores at its glyph. -/
theorem positionStep_offsets (positions : Nat → HB_PositionRec) (bidiLevel i : Nat)
    (item it : HB_ShaperItem) (h : positionStep positions bidiLevel i item = some it) :
    (it.offsets i).y
        = - ((attachmentChain positions i).map (fun k => (positions k).y_pos)).sum
      ∧ (bidiLevel % 2 = 0 →
          (it.offsets i).x
            = ((attachmentChain positions i).map (fun k => (positions k).x_pos)).sum
              - ((attachmentChain positions i).tail.map it.advances).sum)
      ∧ (bidiLevel % 2 ≠ 0 →
          (it.offsets i).x
            = ((attachmentChain positions i).map (fun k => (positions k).x_pos)).sum
              - ((List.range (positions i).back).map (fun t => it.advances (i - t))).sum
          ∧ (positions i).back ≤ i + 1) := by
  have hadv := (positionStep_some positions bidiLevel i item it h).1
  have hchain : attachmentChain positions i
      = i :: (attachmentChainFrom positions i (i - 0)).tail := by
    unfold attachmentChain
    rw [Nat.sub_zero]
    exact attachmentChainFrom_cons positions i i
  unfold positionStep at h
  simp only [] at h
  split at h
  · cases h
  · rename_i o ho
    obtain ⟨eo, -⟩ := chainWalk_eq_foldl positions i _ i 0 _ o (Nat.zero_le i) ho
    rw [foldl_offsets (fun k => (positions k).x_pos) (fun k => (positions k).y_pos)] at eo
    split at h
    · cases h
    · rename_i x hx
      simp only [Option.some.injEq] at h
      have hoff : it.offsets i = ⟨x, - o.y⟩ := by
        rw [← h]
        exact if_pos rfl
      rw [hoff, hchain]
      simp only [List.map_cons, List.sum_cons, List.tail_cons]
      refine ⟨by rw [eo], fun heven => ?_, fun hodd => ?_⟩
      · rw [if_neg (by omega)] at hx
        obtain ⟨ex, -⟩ := chainWalk_eq_foldl positions i _ i 0 _ x (Nat.zero_le i) hx
        rw [foldl_sub] at ex
        rw [ex, eo, hadv]
      · rw [if_pos hodd] at hx
        obtain ⟨ex, eb⟩ := rtlWalk_eq _ i _ _ _ hx
        refine ⟨?_, eb⟩
        rw [ex, eo, hadv]

/-- The offsets the positioning loop leaves at the glyphs it has visited,
in terms of the advances it leaves. -/
theorem positionUpTo_offsets (positions : Nat → HB_PositionRec) (bidiLevel : Nat)
    (item : HB_ShaperItem) :
    ∀ (n : Nat) (it : HB_ShaperItem), positionUpTo positions bidiLevel item n = some it →
      ∀ i, i < n →
        (it.offsets i).y
            = - ((attachmentChain positions i).map (fun k => (positions k).y_pos)).sum
          ∧ (bidiLevel % 2 = 0 →
              (it.offsets i).x
                = ((attachmentChain positions i).map (fun k => (positions k).x_pos)).sum
                  - ((attachmentChain positions i).tail.map it.advances).sum)
          ∧ (bidiLevel % 2 ≠ 0 →
              (it.offsets i).x
                = ((attachmentChain positions i).map (fun k => (positions k).x_pos)).sum
                  - ((List.range (positions i).back).map
                      (fun t => it.advances (i - t))).sum
              ∧ (positions i).back ≤ i + 1) := by
  intro n
  induction n with
  | zero =>
    intro it _ i hi
    omega
  | succ k ih =>
    intro it h i hi
    rw [positionUpTo] at h
    cases hp : positionUpTo positions bidiLevel item k with
    | none =>
      rw [hp] at h
      cases h
    | some it0 =>
      rw [hp] at h
      simp only [] at h
      by_cases hik : i = k
      · subst hik
        exact positionStep_offsets positions bidiLevel i it0 it h
      · obtain ⟨s1, -, -, -, -, -, s7⟩ := positionStep_some positions bidiLevel k it0 it h
        have hadv : ∀ j, j ≤ i → it.advances j = it0.advances j := by
          intro j hj
          rw [s1]
          simp only []
          rw [if_neg (by omega)]
        obtain ⟨a1, a2, a3⟩ := ih it0 hp i (by omega)
        have htail : (attachmentChain positions i).tail.map it.advances
            = (attachmentChain positions i).tail.map it0.advances := by
          apply List.map_congr_left
          intro j hj
          exact hadv j (attachmentChainFrom_le positions i i j (List.mem_of_mem_tail hj))
        have hrange : (List.range (positions i).back).map (fun t => it.advances (i - t))
            = (List.range (positions i).back).map (fun t => it0.advances (i - t)) := by
          apply List.map_congr_left
          intro t _
          exact hadv (i - t) (by omega)
        rw [s7 i hik, htail, hrange]
        exact ⟨a1, a2, a3⟩

/-- When the positioning pass ran and the capacity suffices, every result of
`HB_OpenTypePosition` is a success that carries the advances and offsets of
the positioning loop. -/
theorem HB_OpenTypePosition_positioned {GSUB GPOS : Type} (ext : Collaborators GSUB GPOS)
    (item : HB_ShaperItem) (face : HB_Face GSUB GPOS) (availableGlyphs : Nat)
    (doLogClusters : Bool)
    (hpos : (applyPositioning ext face).1 = true)
    (hcap : (applyPositioning ext face).2.buffer.in_length ≤ availableGlyphs)
    (ok : Bool) (item1 : HB_ShaperItem) (face1 : HB_Face GSUB GPOS)
    (h : HB_OpenTypePosition ext item face availableGlyphs doLogClusters
      = some (ok, item1, face1)) :
    ok = true
      ∧ ∃ item4,
          positionUpTo (applyPositioning ext face).2.buffer.positions item.item.bidiLevel
              { writeBack (applyPositioning ext face).2 item doLogClusters with
                advances := ext.HB_GetAdvances
                  (writeBack (applyPositioning ext face).2 item doLogClusters) }
              (applyPositioning ext face).2.buffer.in_length = some item4
            ∧ item1.advances = item4.advances ∧ item1.offsets = item4.offsets := by
  have hno : ¬ ((applyPositioning ext face).2.glyphs_substituted = false
      ∧ (applyPositioning ext face).1 = false) := by
    rw [hpos]
    intro h
    exact absurd h.2 (by decide)
  have hcap2 : ¬ availableGlyphs < (applyPositioning ext face).2.buffer.in_length := by omega
  unfold HB_OpenTypePosition at h
  simp only [if_neg hno, if_neg hcap2, if_pos hpos] at h
  split at h
  · cases h
  · rename_i item4 h4
    simp only [Option.some.injEq, Prod.mk.injEq] at h
    obtain ⟨hok, hitem, -⟩ := h
    refine ⟨hok.symm, item4, h4, ?_, ?_⟩ <;> rw [← hitem]

/-- When the positioning pass ran, the capacity suffices and every `back`
stays inside the array, `HB_OpenTypePosition` returns true. -/
theorem HB_OpenTypePosition_returns {GSUB GPOS : Type} (ext : Collaborators GSUB GPOS)
    (item : HB_ShaperItem) (face : HB_Face GSUB GPOS) (availableGlyphs : Nat)
    (doLogClusters : Bool)
    (hpos : (applyPositioning ext face).1 = true)
    (hcap : (applyPositioning ext face).2.buffer.in_length ≤ availableGlyphs)
    (hback : ∀ k, k < (applyPositioning ext face).2.buffer.in_length →
      ((applyPositioning ext face).2.buffer.positions k).back ≤ k) :
    ∃ item1 face1,
      HB_OpenTypePosition ext item face availableGlyphs doLogClusters
        = some (true, item1, face1) := by
  have hno : ¬ ((applyPositioning ext face).2.glyphs_substituted = false
      ∧ (applyPositioning ext face).1 = false) := by
    rw [hpos]
    intro h
    exact absurd h.2 (by decide)
  have hcap2 : ¬ availableGlyphs < (applyPositioning ext face).2.buffer.in_length := by omega
  unfold HB_OpenTypePosition
  simp only [if_neg hno, if_neg hcap2, if_pos hpos]
  obtain ⟨it, hit⟩ := positionUpTo_isSome (applyPositioning ext face).2.buffer.positions
    item.item.bidiLevel
    { writeBack (applyPositioning ext face).2 item doLogClusters with
      advances := ext.HB_GetAdvances
        (writeBack (applyPositioning ext face).2 item doLogClusters) }
    (applyPositioning ext face).2.buffer.in_length hback
  rw [hit]
  exact ⟨_, _, rfl⟩

/-- The chain of an unattached glyph is the glyph alone. -/
theorem attachmentChain_of_back_zero (positions : Nat → HB_PositionRec) (i : Nat)
    (h : (positions i).back = 0) : attachmentChain positions i = [i] := by
  unfold attachmentChain
  cases i with
  | zero => rfl
  | succ n => rw [attachmentChainFrom, if_pos h]

/-- When every `back` stays inside the array, the reference chain with fuel
at least its start ends at a glyph with `back` 0. -/
theorem attachmentChainFrom_ends (positions : Nat → HB_PositionRec) :
    ∀ (fuel c : Nat), c ≤ fuel → (∀ k, k ≤ c → (positions k).back ≤ k) →
      ∃ e, (attachmentChainFrom positions fuel c).getLast? = some e
        ∧ (positions e).back = 0 := by
  intro fuel
  induction fuel with
  | zero =>
    intro c hc hback
    have h0 := hback c (Nat.le_refl c)
    exact ⟨c, rfl, by omega⟩
  | succ f ih =>
    intro c hc hback
    rw [attachmentChainFrom]
    by_cases h0 : (positions c).back = 0
    · rw [if_pos h0]
      exact ⟨c, rfl, h0⟩
    · rw [if_neg h0]
      have hb := hback c (Nat.le_refl c)
      obtain ⟨e, e1, e2⟩ := ih (c - (positions c).back) (by omega)
        (fun k hk => hback k (by omega))
      refine ⟨e, ?_, e2⟩
      rw [attachmentChainFrom_cons] at e1 ⊢
      rw [List.getLast?_cons_cons]
      exact e1

/-- C21: in a run with even bidi level, when the positioning pass ran and the
capacity suffices, every result of `HB_OpenTypePosition` has at each output
glyph `i` the offset `y = -(sum of y_pos over the attachment chain of i)` and
`x = (sum of x_pos over the chain) - (sum of the final advances of the chain
glyphs after i)`; for a glyph with `back = 0` this is `(x_pos, -y_pos)`; and
the call returns true when every `back` stays inside the array. -/
theorem HB_OpenTypePosition_offsets_ltr {GSUB GPOS : Type} (ext : Collaborators GSUB GPOS)
    (item : HB_ShaperItem) (face : HB_Face GSUB GPOS) (availableGlyphs : Nat)
    (doLogClusters : Bool)
    (hpos : (applyPositioning ext face).1 = true)
    (hcap : (applyPositioning ext face).2.buffer.in_length ≤ availableGlyphs)
    (heven : item.item.bidiLevel % 2 = 0) :
    (∀ ok item1 face1,
        HB_OpenTypePosition ext item face availableGlyphs doLogClusters
          = some (ok, item1, face1) →
        ∀ i, i < (applyPositioning ext face).2.buffer.in_length →
          (item1.offsets i).y
              = - ((attachmentChain (applyPositioning ext face).2.buffer.positions i).map
                    (fun k => ((applyPositioning ext face).2.buffer.positions k).y_pos)).sum
            ∧ (item1.offsets i).x
              = ((attachmentChain (applyPositioning ext face).2.buffer.positions i).map
                    (fun k => ((applyPositioning ext face).2.buffer.positions k).x_pos)).sum
                - ((attachmentChain (applyPositioning ext face).2.buffer.positions i).tail.map
                    item1.advances).sum
            ∧ (((applyPositioning ext face).2.buffer.positions i).back = 0 →
                item1.offsets i
                  = ⟨((applyPositioning ext face).2.buffer.positions i).x_pos,
                     - ((applyPositioning ext face).2.buffer.positions i).y_pos⟩))
      ∧ ((∀ k, k < (applyPositioning ext face).2.buffer.in_length →
            ((applyPositioning ext face).2.buffer.positions k).back ≤ k) →
          ∃ item1 face1,
            HB_OpenTypePosition ext item face availableGlyphs doLogClusters
              = some (true, item1, face1)) := by
  refine ⟨?_, HB_OpenTypePosition_returns ext item face availableGlyphs doLogClusters hpos hcap⟩
  intro ok item1 face1 h i hi
  obtain ⟨-, item4, h4, ha, ho⟩ :=
    HB_OpenTypePosition_positioned ext item face availableGlyphs doLogClusters hpos hcap
      ok item1 face1 h
  obtain ⟨o1, o2, -⟩ := positionUpTo_offsets _ _ _ _ item4 h4 i hi
  rw [ho, ha]
  refine ⟨o1, o2 heven, fun hb => ?_⟩
  have hx := o2 heven
  rw [attachmentChain_of_back_zero _ i hb] at o1 hx
  simp only [List.map_cons, List.map_nil, List.sum_cons, List.sum_nil, List.tail_cons,
    add_zero, sub_zero] at o1 hx
  cases hoff : item4.offsets i with
  | mk x y =>
    rw [hoff] at o1 hx
    simp only [] at o1 hx
    rw [o1, hx]

theorem HB_OpenTypePosition_offsets_ltr_witness :
    ((applyPositioning (sampleCollaborators (passUnchanged 0) attachPass)
          (HB_OpenTypeShape (sampleCollaborators (passUnchanged 0) attachPass)
            (sampleItem [0x61, 0x300, 0x301] 0 3 0 3) (sampleFace none (some ())) none).2).1
        = true
      ∧ (sampleItem [0x61, 0x300, 0x301] 0 3 0 3).item.bidiLevel % 2 = 0)
    ∧ ∃ item1 face1,
        HB_OpenTypePosition (sampleCollaborators (passUnchanged 0) attachPass)
            (sampleItem [0x61, 0x300, 0x301] 0 3 0 3)
            (HB_OpenTypeShape (sampleCollaborators (passUnchanged 0) attachPass)
              (sampleItem [0x61, 0x300, 0x301] 0 3 0 3) (sampleFace none (some ())) none).2
            3 true
          = some (true, item1, face1)
        ∧ (item1.offsets 2).y = -60
        ∧ (item1.offsets 2).x = 6 - (item1.advances 1 + item1.advances 0)
        ∧ item1.offsets 0 = ⟨1, -10⟩ := by
  refine ⟨⟨by decide, by decide⟩, ?_⟩
  have hthm := HB_OpenTypePosition_offsets_ltr
    (sampleCollaborators (passUnchanged 0) attachPass)
    (sampleItem [0x61, 0x300, 0x301] 0 3 0 3)
    (HB_OpenTypeShape (sampleCollaborators (passUnchanged 0) attachPass)
      (sampleItem [0x61, 0x300, 0x301] 0 3 0 3) (sampleFace none (some ())) none).2 3 true
    (by decide) (by decide) (by decide)
  obtain ⟨item1, face1, h⟩ := hthm.2 (by decide)
  obtain ⟨y2, x2, -⟩ := hthm.1 true item1 face1 h 2 (by decide)
  obtain ⟨-, -, z0⟩ := hthm.1 true item1 face1 h 0 (by decide)
  refine ⟨item1, face1, h, ?_, ?_, ?_⟩
  · rw [y2]
    decide
  · rw [x2]
    have hc : attachmentChain (applyPositioning (sampleCollaborators (passUnchanged 0) attachPass)
        (HB_OpenTypeShape (sampleCollaborators (passUnchanged 0) attachPass)
          (sampleItem [0x61, 0x300, 0x301] 0 3 0 3) (sampleFace none (some ())) none).2
        ).2.buffer.positions 2 = [2, 1, 0] := by decide
    rw [hc]
    simp only [List.map_cons, List.map_nil, List.sum_cons, List.sum_nil, List.tail_cons,
      add_zero]
    have hx : ((applyPositioning (sampleCollaborators (passUnchanged 0) attachPass)
        (HB_OpenTypeShape (sampleCollaborators (passUnchanged 0) attachPass)
          (sampleItem [0x61, 0x300, 0x301] 0 3 0 3) (sampleFace none (some ())) none).2
        ).2.buffer.positions 2).x_pos
        + (((applyPositioning (sampleCollaborators (passUnchanged 0) attachPass)
        (HB_OpenTypeShape (sampleCollaborators (passUnchanged 0) attachPass)
          (sampleItem [0x61, 0x300, 0x301] 0 3 0 3) (sampleFace none (some ())) none).2
        ).2.buffer.positions 1).x_pos
        + ((applyPositioning (sampleCollaborators (passUnchanged 0) attachPass)
        (HB_OpenTypeShape (sampleCollaborators (passUnchanged 0) attachPass)
          (sampleItem [0x61, 0x300, 0x301] 0 3 0 3) (sampleFace none (some ())) none).2
        ).2.buffer.positions 0).x_pos) = 6 := by decide
    rw [hx]
  · exact z0 (by decide)

/-- The chain of a glyph attached by one hop is the glyph and its base. -/
theorem attachmentChain_one_hop (positions : Nat → HB_PositionRec) (i : Nat)
    (h1 : 1 ≤ (positions i).back) (h2 : (positions i).back ≤ i)
    (h3 : (positions (i - (positions i).back)).back = 0) :
    attachmentChain positions i = [i, i - (positions i).back] := by
  unfold attachmentChain
  cases i with
  | zero => omega
  | succ k =>
    rw [attachmentChainFrom, if_neg (by omega)]
    cases k with
    | zero => rfl
    | succ l => rw [attachmentChainFrom, if_pos h3]

/-- C22 (as amended): in a run with odd bidi level, when the positioning pass
ran and the capacity suffices, every result of `HB_OpenTypePosition` has at an
unattached output glyph `i` (`back` = 0) the offset `x = x_pos[i]`, and at a
glyph `i` attached by one hop (`b = positions[i].back` with `1 ≤ b ≤ i` and
`positions[i - b].back = 0`) the offset
`x = x_pos[i] + x_pos[i - b] - (sum of the final advances of the glyphs i - t
for t below b)`, the advances of glyph `i` itself and of the glyphs between it
and the glyph it is attached to; the call returns true when every `back`
stays inside the array. -/
theorem HB_OpenTypePosition_offsets_rtl {GSUB GPOS : Type} (ext : Collaborators GSUB GPOS)
    (item : HB_ShaperItem) (face : HB_Face GSUB GPOS) (availableGlyphs : Nat)
    (doLogClusters : Bool)
    (hpos : (applyPositioning ext face).1 = true)
    (hcap : (applyPositioning ext face).2.buffer.in_length ≤ availableGlyphs)
    (hodd : item.item.bidiLevel % 2 = 1) :
    (∀ ok item1 face1,
        HB_OpenTypePosition ext item face availableGlyphs doLogClusters
          = some (ok, item1, face1) →
        ∀ i, i < (applyPositioning ext face).2.buffer.in_length →
          (((applyPositioning ext face).2.buffer.positions i).back = 0 →
              (item1.offsets i).x = ((applyPositioning ext face).2.buffer.positions i).x_pos)
            ∧ (1 ≤ ((applyPositioning ext face).2.buffer.positions i).back →
                ((applyPositioning ext face).2.buffer.positions i).back ≤ i →
                ((applyPositioning ext face).2.buffer.positions
                  (i - ((applyPositioning ext face).2.buffer.positions i).back)).back = 0 →
                (item1.offsets i).x
                  = ((applyPositioning ext face).2.buffer.positions i).x_pos
                    + ((applyPositioning ext face).2.buffer.positions
                        (i - ((applyPositioning ext face).2.buffer.positions i).back)).x_pos
                    - ((List.range ((applyPositioning ext face).2.buffer.positions i).back).map
                        (fun t => item1.advances (i - t))).sum))
      ∧ ((∀ k, k < (applyPositioning ext face).2.buffer.in_length →
            ((applyPositioning ext face).2.buffer.positions k).back ≤ k) →
          ∃ item1 face1,
            HB_OpenTypePosition ext item face availableGlyphs doLogClusters
              = some (true, item1, face1)) := by
  refine ⟨?_, HB_OpenTypePosition_returns ext item face availableGlyphs doLogClusters hpos hcap⟩
  intro ok item1 face1 h i hi
  obtain ⟨-, item4, h4, ha, ho⟩ :=
    HB_OpenTypePosition_positioned ext item face availableGlyphs doLogClusters hpos hcap
      ok item1 face1 h
  obtain ⟨-, -, o3⟩ := positionUpTo_offsets _ _ _ _ item4 h4 i hi
  have hx := (o3 (by omega)).1
  rw [ho, ha]
  refine ⟨fun hb => ?_, fun h1 h2 h3 => ?_⟩
  · rw [hx, attachmentChain_of_back_zero _ i hb, hb]
    simp
  · rw [hx, attachmentChain_one_hop _ i h1 h2 h3]
    simp only [List.map_cons, List.map_nil, List.sum_cons, List.sum_nil, add_zero]

theorem HB_OpenTypePosition_offsets_rtl_witness :
    ((applyPositioning (sampleCollaborators (passUnchanged 0) attachPass)
          (HB_OpenTypeShape (sampleCollaborators (passUnchanged 0) attachPass)
            (withBidiLevel (sampleItem [0x61, 0x300] 0 2 0 2) 1)
            (sampleFace none (some ())) none).2).1 = true
      ∧ (withBidiLevel (sampleItem [0x61, 0x300] 0 2 0 2) 1).item.bidiLevel % 2 = 1)
    ∧ ∃ item1 face1,
        HB_OpenTypePosition (sampleCollaborators (passUnchanged 0) attachPass)
            (withBidiLevel (sampleItem [0x61, 0x300] 0 2 0 2) 1)
            (HB_OpenTypeShape (sampleCollaborators (passUnchanged 0) attachPass)
              (withBidiLevel (sampleItem [0x61, 0x300] 0 2 0 2) 1)
              (sampleFace none (some ())) none).2
            2 true
          = some (true, item1, face1)
        ∧ (item1.offsets 0).x = 1
        ∧ (item1.offsets 1).x = 3 - item1.advances 1 := by
  refine ⟨⟨by decide, by decide⟩, ?_⟩
  have hthm := HB_OpenTypePosition_offsets_rtl
    (sampleCollaborators (passUnchanged 0) attachPass)
    (withBidiLevel (sampleItem [0x61, 0x300] 0 2 0 2) 1)
    (HB_OpenTypeShape (sampleCollaborators (passUnchanged 0) attachPass)
      (withBidiLevel (sampleItem [0x61, 0x300] 0 2 0 2) 1)
      (sampleFace none (some ())) none).2 2 true
    (by decide) (by decide) (by decide)
  obtain ⟨item1, face1, h⟩ := hthm.2 (by decide)
  have x0 := (hthm.1 true item1 face1 h 0 (by decide)).1 (by decide)
  have x1 := (hthm.1 true item1 face1 h 1 (by decide)).2 (by decide) (by decide) (by decide)
  refine ⟨item1, face1, h, ?_, ?_⟩
  · rw [x0]
    decide
  · rw [x1]
    have hb : ((applyPositioning (sampleCollaborators (passUnchanged 0) attachPass)
        (HB_OpenTypeShape (sampleCollaborators (passUnchanged 0) attachPass)
          (withBidiLevel (sampleItem [0x61, 0x300] 0 2 0 2) 1)
          (sampleFace none (some ())) none).2).2.buffer.positions 1).back = 1 := by decide
    have hx : ((applyPositioning (sampleCollaborators (passUnchanged 0) attachPass)
        (HB_OpenTypeShape (sampleCollaborators (passUnchanged 0) attachPass)
          (withBidiLevel (sampleItem [0x61, 0x300] 0 2 0 2) 1)
          (sampleFace none (some ())) none).2).2.buffer.positions 1).x_pos
        + ((applyPositioning (sampleCollaborators (passUnchanged 0) attachPass)
        (HB_OpenTypeShape (sampleCollaborators (passUnchanged 0) attachPass)
          (withBidiLevel (sampleItem [0x61, 0x300] 0 2 0 2) 1)
          (sampleFace none (some ())) none).2).2.buffer.positions (1 - 1)).x_pos = 3 := by
      decide
    have hr : List.range 1 = [0] := rfl
    rw [hb, hx, hr]
    simp only [List.map_cons, List.map_nil, List.sum_cons, List.sum_nil, add_zero,
      Nat.sub_zero]

/-- C22 (as stated, on a base glyph with one mark): `HB_OpenTypePosition` on
the run of 2 glyphs with bidi level 1, a positioning pass that attaches glyph
1 to glyph 0 (`back` = 1), positions x_pos 1 and 2, and final advances 6 and
10. The offset of glyph 1 is x = -7 = 3 - 10, its own advance subtracted; the
sum of x_pos over the chain less the advance of the chain glyph 0 is
-3 = 3 - 6. On 3 glyphs the offset of glyph 2 is -4 where the chain gives -10. -/
theorem HB_OpenTypePosition_rtl_own_advance :
    (HB_OpenTypePosition (sampleCollaborators (passUnchanged 0) attachPass)
        (withBidiLevel (sampleItem [0x61, 0x300] 0 2 0 2) 1)
        (HB_OpenTypeShape (sampleCollaborators (passUnchanged 0) attachPass)
          (withBidiLevel (sampleItem [0x61, 0x300] 0 2 0 2) 1)
          (sampleFace none (some ())) none).2 2 true).map
      (fun r => (r.1, (List.range 2).map r.2.1.advances,
                 (List.range 2).map (fun i => (r.2.1.offsets i).x)))
      = some (true, [6, 10], [1, -7])
    ∧ attachmentChain (attachPass ⟨[], fun _ => zeroPosition⟩).2.positions 1 = [1, 0]
    ∧ ((attachmentChain (attachPass ⟨[], fun _ => zeroPosition⟩).2.positions 1).map
          (fun k => ((attachPass ⟨[], fun _ => zeroPosition⟩).2.positions k).x_pos)).sum
        - ((attachmentChain (attachPass ⟨[], fun _ => zeroPosition⟩).2.positions 1).tail.map
            (fun k => [(6 : Int), 10].getD k 0)).sum = -3
    ∧ (HB_OpenTypePosition (sampleCollaborators (passUnchanged 0) attachPass)
        (withBidiLevel (sampleItem [0x61, 0x300, 0x301] 0 3 0 3) 1)
        (HB_OpenTypeShape (sampleCollaborators (passUnchanged 0) attachPass)
          (withBidiLevel (sampleItem [0x61, 0x300, 0x301] 0 3 0 3) 1)
          (sampleFace none (some ())) none).2 3 true).map
      (fun r => (r.1, (List.range 3).map r.2.1.advances,
                 (List.range 3).map (fun i => (r.2.1.offsets i).x)))
      = some (true, [6, 10, 10], [1, -7, -4])
    ∧ ((attachmentChain (attachPass ⟨[], fun _ => zeroPosition⟩).2.positions 2).map
          (fun k => ((attachPass ⟨[], fun _ => zeroPosition⟩).2.positions k).x_pos)).sum
        - ((attachmentChain (attachPass ⟨[], fun _ => zeroPosition⟩).2.positions 2).tail.map
            (fun k => [(6 : Int), 10, 10].getD k 0)).sum = -10 := by
  decide

/-! ## The kerning flag of a face -/

/-- C23: on a face reached from `HB_NewFace` by any sequence of
`HB_SelectScript` calls, `has_opentype_kerning` is false whenever the cached
flags contain `HB_ShaperFlag_NoKerning`; a further call on a supported script
that misses the cache leaves `has_opentype_kerning` true only if kerning is
not disabled in the request, the face has a GPOS table, the script was
selected in it, the feature query succeeded and 'kern' is in the feature list
of the font; and a successful `HB_OpenTypePosition` whose positioning pass
ran after a successful selection with kerning disabled has
`kerning_applied = false`. -/
theorem HB_SelectScript_kerning_invariant {GSUB GPOS : Type} (ext : Collaborators GSUB GPOS)
    (gsub : Option GSUB) (gpos : Option GPOS) (fresh : HB_Face GSUB GPOS)
    (calls : List (HB_ShaperItem × Option (List (Nat × Nat)))) (face : HB_Face GSUB GPOS)
    (hreach : selectScripts ext calls (HB_NewFace ext gsub gpos fresh) = some face) :
    (face.current_flags &&& HB_ShaperFlag_NoKerning ≠ 0 → face.has_opentype_kerning = false)
      ∧ (∀ item features r face1,
          HB_SelectScript ext item face features = some (r, face1) →
          face.supported_scripts item.item.script = true →
          ¬ (face.current_script = item.item.script
              ∧ face.current_flags = item.shaperFlags) →
          face1.has_opentype_kerning = true →
          item.shaperFlags &&& HB_ShaperFlag_NoKerning = 0
            ∧ ∃ g, face.gpos = some g
                ∧ (ext.HB_GPOS_Select_Script (ext.HB_GPOS_Clear_Features g)
                    (ot_scripts.getD item.item.script ⟨0, 0⟩).tag).1 = 0
                ∧ (ext.HB_GPOS_Query_Features (ext.HB_GPOS_Clear_Features g)
                    (ext.HB_GPOS_Select_Script (ext.HB_GPOS_Clear_Features g)
                      (ot_scripts.getD item.item.script ⟨0, 0⟩).tag).2 0xffff).1 = 0
                ∧ FT_MAKE_TAG 'k' 'e' 'r' 'n' ∈ listedTags
                    (ext.HB_GPOS_Query_Features (ext.HB_GPOS_Clear_Features g)
                      (ext.HB_GPOS_Select_Script (ext.HB_GPOS_Clear_Features g)
                        (ot_scripts.getD item.item.script ⟨0, 0⟩).tag).2 0xffff).2)
      ∧ (∀ item features face1 properties availableGlyphs doLogClusters item1 face2,
          item.shaperFlags &&& HB_ShaperFlag_NoKerning ≠ 0 →
          HB_SelectScript ext item face features = some (true, face1) →
          (applyPositioning ext (HB_OpenTypeShape ext item face1 properties).2).1 = true →
          HB_OpenTypePosition ext item (HB_OpenTypeShape ext item face1 properties).2
              availableGlyphs doLogClusters = some (true, item1, face2) →
          item1.kerning_applied = false) := by
  have hinv := selectScripts_invariant ext calls (HB_NewFace ext gsub gpos fresh) face
    (fun _ => rfl) hreach
  refine ⟨hinv, ?_, ?_⟩
  · intro item features r face1 h hs hmiss hk
    exact HB_SelectScript_kerning ext item face features r face1 h hs hmiss hk
  · intro item features face1 properties availableGlyphs doLogClusters item1 face2 hflag hsel
      hpos hres
    have hinv1 := HB_SelectScript_keeps_invariant ext item face features true face1 hsel hinv
    obtain ⟨-, r2, r3⟩ := HB_SelectScript_result ext item face features true face1 hsel
    have hs : face.supported_scripts item.item.script = true := by
      cases hsup : face.supported_scripts item.item.script with
      | true => rfl
      | false => exact absurd (r3 hsup).1 (by decide)
    have hk1 : face1.has_opentype_kerning = false := by
      apply hinv1
      rw [(r2 hs).2.2]
      exact hflag
    have hshape : (HB_OpenTypeShape ext item face1 properties).2.has_opentype_kerning
        = face1.has_opentype_kerning := by
      unfold HB_OpenTypeShape
      simp only []
      cases face1.gsub with
      | none => rfl
      | some g =>
        simp only []
        split <;> rfl
    rw [HB_OpenTypePosition_kerning_applied ext item _ availableGlyphs doLogClusters item1 face2
      hpos hres, hshape, hk1]

theorem HB_SelectScript_kerning_invariant_witness :
    (selectScripts (kernCollaborators kernPass)
          [(sampleItem [0x66, 0x69] 0 2 0 2, some (basic_features (kernCollaborators kernPass)))]
          (HB_NewFace (kernCollaborators kernPass) none (some ()) (sampleFace none none))).map
        (fun f => (f.current_flags, f.has_opentype_kerning)) = some (0, true)
    ∧ ∃ face,
        selectScripts (kernCollaborators kernPass)
          [(sampleItem [0x66, 0x69] 0 2 0 2, some (basic_features (kernCollaborators kernPass))),
           ({ sampleItem [0x66, 0x69] 0 2 0 2 with shaperFlags := HB_ShaperFlag_NoKerning },
            some (basic_features (kernCollaborators kernPass)))]
          (HB_NewFace (kernCollaborators kernPass) none (some ()) (sampleFace none none))
          = some face
        ∧ face.current_flags &&& HB_ShaperFlag_NoKerning ≠ 0
        ∧ face.has_opentype_kerning = false := by
  refine ⟨by decide, ?_⟩
  cases hsel : selectScripts (kernCollaborators kernPass)
      [(sampleItem [0x66, 0x69] 0 2 0 2, some (basic_features (kernCollaborators kernPass))),
       ({ sampleItem [0x66, 0x69] 0 2 0 2 with shaperFlags := HB_ShaperFlag_NoKerning },
        some (basic_features (kernCollaborators kernPass)))]
      (HB_NewFace (kernCollaborators kernPass) none (some ()) (sampleFace none none)) with
  | none =>
    have hd : (selectScripts (kernCollaborators kernPass)
      [(sampleItem [0x66, 0x69] 0 2 0 2, some (basic_features (kernCollaborators kernPass))),
       ({ sampleItem [0x66, 0x69] 0 2 0 2 with shaperFlags := HB_ShaperFlag_NoKerning },
        some (basic_features (kernCollaborators kernPass)))]
      (HB_NewFace (kernCollaborators kernPass) none (some ()) (sampleFace none none))).isSome
        = true := by decide
    rw [hsel] at hd
    cases hd
  | some face =>
    have hflag : face.current_flags &&& HB_ShaperFlag_NoKerning ≠ 0 := by
      have hd : (selectScripts (kernCollaborators kernPass)
        [(sampleItem [0x66, 0x69] 0 2 0 2, some (basic_features (kernCollaborators kernPass))),
         ({ sampleItem [0x66, 0x69] 0 2 0 2 with shaperFlags := HB_ShaperFlag_NoKerning },
          some (basic_features (kernCollaborators kernPass)))]
        (HB_NewFace (kernCollaborators kernPass) none (some ()) (sampleFace none none))).map
          (fun f => decide (f.current_flags &&& HB_ShaperFlag_NoKerning ≠ 0)) = some true := by
        decide
      rw [hsel] at hd
      simpa using hd
    exact ⟨face, rfl, hflag,
      (HB_SelectScript_kerning_invariant (kernCollaborators kernPass) none (some ())
        (sampleFace none none) _ face hsel).1 hflag⟩

/-! ## Totality of the attachment walks -/

/-- Every index a chain walk hands to its step is at most `i`. -/
theorem chainWalk_indices_le (positions : Nat → HB_PositionRec) (i : Nat) :
    ∀ (fuel back : Nat) (acc r : List Nat),
      chainWalk positions i (fun k l => k :: l) fuel back acc = some r →
      ∀ k, k ∈ r → k ∈ acc ∨ k ≤ i := by
  intro fuel
  induction fuel with
  | zero =>
    intro back acc r h
    simp only [chainWalk] at h
    cases h
  | succ f ih =>
    intro back acc r h k hk
    rw [chainWalk] at h
    by_cases h0 : (positions (i - back)).back = 0
    · rw [if_pos h0] at h
      simp only [Option.some.injEq] at h
      rw [← h] at hk
      exact Or.inl hk
    · rw [if_neg h0] at h
      simp only [] at h
      by_cases hle : back + (positions (i - back)).back ≤ i
      · rw [if_pos hle] at h
        rcases ih _ _ _ h k hk with h1 | h1
        · rcases List.mem_cons.mp h1 with h2 | h2
          · right
            omega
          · exact Or.inl h2
        · exact Or.inr h1
      · rw [if_neg hle] at h
        cases h

theorem foldl_cons_reverse :
    ∀ (l acc : List Nat), l.foldl (fun a k => k :: a) acc = l.reverse ++ acc := by
  intro l
  induction l with
  | nil =>
    intro acc
    rfl
  | cons k rest ih =>
    intro acc
    rw [List.foldl_cons, ih, List.reverse_cons, List.append_assoc]
    rfl

/-- C31: when every `back` of the glyphs `0 .. n-1` stays inside the array,
the walks of the positioning loop for a glyph `i < n` are total. The chain
loop returns for every body (the offset accumulation and the left-to-right
advance correction are two of them) within `i + 1` tests of its condition and
never computes an index `i - back` below 0; the indices it visits are the
attachment chain of `i`, all at most `i`; the right-to-left loop returns and
its indices `i - t`, `t` below `positions[i].back`, lie in `0 .. i`; and the
iteration of the loop of `HB_OpenTypePosition` for glyph `i` returns for
every bidi level. -/
theorem HB_OpenTypePosition_walks_total (positions : Nat → HB_PositionRec) (n i : Nat)
    (hback : ∀ k, k < n → (positions k).back ≤ k) (hi : i < n) :
    (∀ (α : Type) (step : Nat → α → α) (acc : α),
        ∃ r, chainWalk positions i step (i + 1) 0 acc = some r)
      ∧ (∃ l, chainWalk positions i (fun k l => k :: l) (i + 1) 0 [i] = some l
          ∧ l.reverse = attachmentChain positions i
          ∧ ∀ k, k ∈ l → k ≤ i)
      ∧ (∀ (advances : Nat → Int) (x : Int),
          ∃ r, rtlWalk advances i (positions i).back x = some r)
      ∧ (∀ t, t < (positions i).back → 0 ≤ (i : Int) - t ∧ (i : Int) - t ≤ i)
      ∧ ∀ (bidiLevel : Nat) (item : HB_ShaperItem),
          ∃ it, positionStep positions bidiLevel i item = some it := by
  have hb : ∀ k, k ≤ i → (positions k).back ≤ k := fun k hk => hback k (by omega)
  refine ⟨?_, ?_, ?_, ?_, ?_⟩
  · intro α step acc
    exact chainWalk_isSome positions i step hb (i + 1) 0 acc (by omega) (by omega)
  · obtain ⟨l, hl⟩ := chainWalk_isSome positions i (fun k (l : List Nat) => k :: l) hb
      (i + 1) 0 [i] (by omega) (by omega)
    refine ⟨l, hl, ?_, ?_⟩
    · obtain ⟨e, -⟩ := chainWalk_eq_foldl positions i _ i 0 _ l (Nat.zero_le i) hl
      rw [foldl_cons_reverse] at e
      rw [e, List.reverse_append, List.reverse_reverse]
      unfold attachmentChain
      rw [Nat.sub_zero]
      exact (attachmentChainFrom_cons positions i i).symm
    · intro k hk
      rcases chainWalk_indices_le positions i _ _ _ _ hl k hk with h | h
      · simp only [List.mem_singleton] at h
        omega
      · exact h
  · intro advances x
    exact rtlWalk_isSome advances i _ x (by have := hb i (Nat.le_refl i); omega)
  · intro t ht
    have := hb i (Nat.le_refl i)
    omega
  · intro bidiLevel item
    exact positionStep_isSome positions bidiLevel i item hb

theorem HB_OpenTypePosition_walks_total_witness :
    (∀ k, k < 3 → ((attachPass ⟨[], fun _ => zeroPosition⟩).2.positions k).back ≤ k)
    ∧ chainWalk (attachPass ⟨[], fun _ => zeroPosition⟩).2.positions 2
        (fun k l => k :: l) (2 + 1) 0 [2] = some [0, 1, 2]
    ∧ ∃ r, rtlWalk (fun _ => 10) 2
        ((attachPass ⟨[], fun _ => zeroPosition⟩).2.positions 2).back 0 = some r := by
  have hthm := HB_OpenTypePosition_walks_total
    (attachPass ⟨[], fun _ => zeroPosition⟩).2.positions 3 2 (by decide) (by decide)
  exact ⟨by decide, by decide, hthm.2.2.1 (fun _ => 10) 0⟩

end HarfBuzz
